import Mathlib

/-!
# Device-template resolution and the configuration wizard (evcc)

A shallow embedding of `util/templates/template.go`, `cmd/configure/helper.go`
and `cmd/configure/configure.go`, followed by theorems about it.

Conventions of the embedding:

* Go slices are Lean lists; `append` is `++ [x]`; an element assignment
  `s[i].F = v` is `updateAt`.
* A Go `map[string]T` is an association list with pairwise distinct keys
  (`GoMap`); assignment `m[k] = v` is `GoMap.set`.
* A value of type `interface{}` is a `Value`; the type assertion `v.(string)`
  is `Value.asString?`, whose `none` stands for the run-time panic.
* Output written with `fmt.Println` is not part of the state and is left out.
-/

set_option linter.dupNamespace false

namespace Templates

/-! ## Data model (`template.go`) -/

/-- Language specific texts (`TextLanguage`). -/
structure TextLanguage where
  DE : String := ""
  EN : String := ""
deriving DecidableEq, Repr

/-- Go `func (t *TextLanguage) String(lang string) string`. -/
def TextLanguage.String (t : TextLanguage) (lang : String) : String :=
  if lang = "de" then t.DE
  else if lang = "en" then t.EN
  else t.DE

/-- Requirements of a template (`Requirements`). -/
structure Requirements where
  Hems : String := ""
  Eebus : Bool := false
  Sponsorship : Bool := false
  Description : TextLanguage := {}
  URI : String := ""
deriving DecidableEq, Repr

/-- Linked template (`LinkedTemplate`). -/
structure LinkedTemplate where
  Template : String := ""
  Usage : String := ""
deriving DecidableEq, Repr

/-- Guided setup data (`GuidedSetup`). -/
structure GuidedSetup where
  Enable : Bool := false
  Linked : List LinkedTemplate := []
deriving DecidableEq, Repr

/-- Proxy template parameter (`Param`); every field defaults to Go's zero value. -/
structure Param where
  Name : String := ""
  Required : Bool := false
  Mask : Bool := false
  Advanced : Bool := false
  Default : String := ""
  Example : String := ""
  Help : TextLanguage := {}
  Test : String := ""
  Value : String := ""
  ValueType : String := ""
  Choice : List String := []
  Usages : List String := []
  Baudrate : Int := 0
  Comset : String := ""
deriving DecidableEq, Repr

/-- Template record (`Template`). -/
structure Template where
  Template : String := ""
  Description : String := ""
  LogLevel : String := ""
  Requirements : Requirements := {}
  GuidedSetup : GuidedSetup := {}
  Generic : Bool := false
  ParamsBase : String := ""
  Params : List Param := []
  Render : String := ""
deriving DecidableEq, Repr

def ParamUsage : String := "usage"
def ParamModbus : String := "modbus"
def HemsTypeSMA : String := "sma"
def ModbusChoiceRS485 : String := "rs485"
def ModbusChoiceTCPIP : String := "tcpip"
def ModbusKeyRS485Serial : String := "rs485serial"
def ModbusKeyRS485TCPIP : String := "rs485tcpip"
def ModbusKeyTCPIP : String := "tcpip"
def ModbusParamNameId : String := "id"
def ModbusParamValueId : Int := 1
def ModbusParamNameDevice : String := "device"
def ModbusParamValueDevice : String := "/dev/ttyUSB0"
def ModbusParamNameBaudrate : String := "baudrate"
def ModbusParamValueBaudrate : Int := 9600
def ModbusParamNameComset : String := "comset"
def ModbusParamValueComset : String := "8N1"
def ModbusParamNameHost : String := "host"
def ModbusParamValueHost : String := "192.0.2.2"
def ModbusParamNamePort : String := "port"
def ModbusParamValuePort : Int := 502
def ModbusParamNameRTU : String := "rtu"
def HemsValueTypes : List String := [HemsTypeSMA]
def ParamValueTypeString : String := "string"
def ParamValueTypeNumber : String := "number"
def ParamValueTypeFloat : String := "float"
def ParamValueTypeBool : String := "bool"

/-- The base parameter list named `vehicle` in `paramBases`. -/
def vehicleBase : List Param :=
  [ { Name := "title" },
    { Name := "user", Required := true },
    { Name := "password", Required := true, Mask := true },
    { Name := "vin", Example := "W..." },
    { Name := "capacity", Default := "50", ValueType := ParamValueTypeFloat } ]

/-- Go `var paramBases = map[string][]Param{"vehicle": ...}`; `none` is a
failed lookup (`ok == false`). -/
def paramBases (key : String) : Option (List Param) :=
  if key = "vehicle" then some vehicleBase else none

/-- The loop of `paramWithName` over a parameter list: index and copy of the
first entry with the given name, `none` for the `(0, nil)` result. -/
def paramWithNameIn : List Param → String → Option (Nat × Param)
  | [], _ => none
  | p :: ps, name =>
    if p.Name = name then some (0, p)
    else (paramWithNameIn ps name).map (fun r => (r.1 + 1, r.2))

/-- Go `func (t *Template) paramWithName(name string) (int, *Param)`. -/
def Template.paramWithName (t : Templates.Template) (name : String) : Option (Nat × Param) :=
  paramWithNameIn t.Params name

/-- Element assignment `s[i] = f(s[i])` on a slice. -/
def updateAt (f : Param → Param) : List Param → Nat → List Param
  | [], _ => []
  | p :: ps, 0 => f p :: ps
  | p :: ps, i + 1 => p :: updateAt f ps i

/-- One iteration of the loop `for _, p := range currentParams` of
`ResolveParamBase`, acting on `t.Params`. -/
def resolveStep (params : List Param) (p : Param) : List Param :=
  match paramWithNameIn params p.Name with
  | some (i, _) =>
    let params1 :=
      if p.Default ≠ "" then updateAt (fun q => { q with Default := p.Default }) params i
      else params
    if p.Example ≠ "" then updateAt (fun q => { q with Example := p.Example }) params1 i
    else params1
  | none => params ++ [p]

/-- Go `func (t *Template) ResolveParamBase()`. -/
def Template.ResolveParamBase (t : Templates.Template) : Templates.Template :=
  if t.ParamsBase = "" then t
  else
    match paramBases t.ParamsBase with
    | none => t
    | some base => { t with Params := t.Params.foldl resolveStep base }

/-- Effect of the two guarded assignments of `ResolveParamBase` on the entry
found by `paramWithName`: `q` is the entry of `t.Params`, `p` the overriding
template entry. -/
def applyOverride (p q : Param) : Param :=
  let q1 := if p.Default ≠ "" then { q with Default := p.Default } else q
  if p.Example ≠ "" then { q1 with Example := p.Example } else q1

/-- Index-free reading of `resolveStep`: override the first entry carrying the
name of `p`, or append `p` when there is none (see `resolveStep_eq`). -/
def overrideFirst (p : Param) : List Param → List Param
  | [] => [p]
  | q :: qs => if q.Name = p.Name then applyOverride p q :: qs else q :: overrideFirst p qs

/-- Relation between a resolved entry `a` and the base entry `b` it stems from:
only `Default` and `Example` may differ, and an empty one was never set. -/
def OverrideOf (a b : Param) : Prop :=
  a = { b with Default := a.Default, Example := a.Example } ∧
    (a.Default = "" → b.Default = "") ∧ (a.Example = "" → b.Example = "")

/-- Shape of `t.Params` during and after `ResolveParamBase` over `base`: the
base entries with overridden `Default`/`Example`, then further entries, all
names pairwise distinct. -/
def Resolved (base s : List Param) : Prop :=
  ∃ a e, s = a ++ e ∧ List.Forall₂ OverrideOf a base ∧ (s.map (·.Name)).Nodup

/-- What a base entry `b` becomes according to the specification: the
same-named template entry, when there is one, replaces `Default` and `Example`
where it gives a non-empty one; every other field stays that of the base. -/
def overrideFrom (ps : List Param) (b : Param) : Param :=
  match ps.find? (fun p => p.Name = b.Name) with
  | some p =>
    { b with
      Default := if p.Default ≠ "" then p.Default else b.Default
      Example := if p.Example ≠ "" then p.Example else b.Example }
  | none => b

/-- The resolved parameter list according to the specification: the base
entries in base order, overridden by `overrideFrom`, followed by the template
entries whose name is not in the base, unchanged and in their original order. -/
def resolvedParams (base ps : List Param) : List Param :=
  base.map (overrideFrom ps) ++ ps.filter (fun p => p.Name ∉ base.map (·.Name))

/-- A vehicle template that overrides the example of `vin` and adds `cache`. -/
def vinCacheTemplate : Template :=
  { ParamsBase := "vehicle"
    Params := [ { Name := "vin", Example := "WF0FXX" }, { Name := "cache", Default := "5m" } ] }

/-- A vehicle template that declares the name `x`, not in the base, twice. -/
def repeatedNameTemplate : Template :=
  { ParamsBase := "vehicle"
    Params := [ { Name := "x", Default := "a" }, { Name := "x", Default := "b" } ] }

/-! ## Dynamic values and maps -/

/-- A value of type `interface{}` as this code uses it: a string, an integer,
or a value of another type, of which only the `%v` rendering is ever used. -/
inductive Value where
  | str (s : String)
  | int (n : Int)
  | other (formatted : String)
deriving DecidableEq, Repr

/-- The type assertion `v.(string)`; `none` is the run-time panic. -/
def Value.asString? : Value → Option String
  | .str s => some s
  | _ => none

/-- Go `fmt.Sprintf("%v", v)`. -/
def Value.format : Value → String
  | .str s => s
  | .int n => toString n
  | .other formatted => formatted

/-- A Go `map[string]T`: association list, meant with pairwise distinct keys
(`GoMap.WellFormed`); `range` visits the entries in list order. -/
structure GoMap (α : Type) where
  entries : List (String × α) := []
deriving DecidableEq, Repr

/-- Go `make(map[string]T)`. -/
def GoMap.empty {α : Type} : GoMap α := { entries := [] }

/-- The keys of a map. -/
def GoMap.keys {α : Type} (m : GoMap α) : List String := m.entries.map Prod.fst

/-- The keys of a Go map are pairwise distinct. -/
def GoMap.WellFormed {α : Type} (m : GoMap α) : Prop := m.keys.Nodup

instance {α : Type} (m : GoMap α) : Decidable m.WellFormed :=
  inferInstanceAs (Decidable m.keys.Nodup)

/-- Lookup in an association list. -/
def lookupEntry {α : Type} : List (String × α) → String → Option α
  | [], _ => none
  | (k, v) :: rest, key => if k = key then some v else lookupEntry rest key

/-- Assignment in an association list: replace the entry of `key`, or add one. -/
def setEntry {α : Type} : List (String × α) → String → α → List (String × α)
  | [], key, v => [(key, v)]
  | (k, w) :: rest, key, v => if k = key then (k, v) :: rest else (k, w) :: setEntry rest key v

/-- Go `v, ok := m[key]`. -/
def GoMap.get? {α : Type} (m : GoMap α) (key : String) : Option α := lookupEntry m.entries key

/-- Go `m[key] = v`. -/
def GoMap.set {α : Type} (m : GoMap α) (key : String) (v : α) : GoMap α :=
  { entries := setEntry m.entries key v }

/-- Every value of the map is a string. -/
def GoMap.AllStrings (m : GoMap Value) : Prop := ∀ e ∈ m.entries, e.2.asString?.isSome = true

instance (m : GoMap Value) : Decidable m.AllStrings :=
  inferInstanceAs (Decidable (∀ e ∈ m.entries, e.2.asString?.isSome = true))

/-- Go `error` values, told apart by their message. -/
abbrev Error := String

/-- Library functions and package declarations the sources call but do not
contain: `yamlQuote` (package `templates`), `strings.ToLower`,
`bytes.TrimSpace`, and the execution of `text/template` templates
(`executeProxy` for the embedded `proxy.tpl` on the data map with the keys
`Template`, `Params` and, when asked for, `Description`; `parse` and
`execute` for a template's own `Render` body), and the keys that
`Template.ModbusValues` adds (`modbusExpansion`). -/
structure Runtime where
  yamlQuote : String → String
  ToLower : String → String
  TrimSpace : String → String
  executeProxy : String → List Param → Option String → String × Option Error
  parse : String → Option Error
  execute : String → GoMap Value → String × Option Error
  modbusExpansion : List String → GoMap Value → GoMap Value

/-! ## Defaults, usages and rendering (`template.go`) -/

/-- One iteration of the loop of `Defaults`. -/
def defaultsStep (docsOrTests : Bool) (values : GoMap Value) (p : Param) : GoMap Value :=
  if p.Test ≠ "" then values.set p.Name (Value.str p.Test)
  else if p.Example ≠ "" ∧ docsOrTests = true then values.set p.Name (Value.str p.Example)
  else values.set p.Name (Value.str p.Default)

/-- Go `func (t *Template) Defaults(docsOrTests bool) map[string]interface{}`. -/
def Template.Defaults (t : Templates.Template) (docsOrTests : Bool) : GoMap Value :=
  t.Params.foldl (defaultsStep docsOrTests) GoMap.empty

/-- Go `func (t *Template) Usages() []string`. -/
def Template.Usages (t : Templates.Template) : List String :=
  match t.paramWithName ParamUsage with
  | some (_, p) => p.Choice
  | none => []

/-- Go `func (t *Template) ModbusChoices() []string`. -/
def Template.ModbusChoices (t : Templates.Template) : List String :=
  match t.paramWithName ParamModbus with
  | some (_, p) => p.Choice
  | none => []

/-- The body of the inner loop of `RenderProxyWithValues` for the parameter
`p`, whose entry in `t.Params` is `q`:
`if p.Name == k { t.Params[index].Value = v.(string) }`. -/
def writeValueStep (p q : Param) (kv : String × Value) : Option Param :=
  if p.Name = kv.1 then kv.2.asString?.map (fun s => { q with Value := s }) else some q

/-- The inner loop of `RenderProxyWithValues` for one parameter:
`for k, v := range values { ... }`. -/
def writeValue (values : List (String × Value)) (p : Param) : Option Param :=
  values.foldlM (writeValueStep p) p

/-- The first loop of `RenderProxyWithValues`: the supplied values are written
into the same-named parameters; `none` when a type assertion panics. -/
def writeValues (values : GoMap Value) (params : List Param) : Option (List Param) :=
  params.mapM (writeValue values.entries)

/-- One iteration of the second loop of `RenderProxyWithValues`:
params with no value, no default and no example are skipped unless required. -/
def keepStep (newParams : List Param) (param : Param) : List Param :=
  if param.Value = "" ∧ param.Default = "" ∧ param.Example = "" ∧ ¬ param.Required = true then
    newParams
  else newParams ++ [param]

/-- The parameter list that `RenderProxyWithValues` stores in `t.Params` and
hands to the template: written, filtered, then quoted. -/
def proxyParams (rt : Runtime) (values : GoMap Value) (params : List Param) :
    Option (List Param) :=
  (writeValues values params).map fun written =>
    (written.foldl keepStep []).map fun p => { p with Value := rt.yamlQuote p.Value }

/-- The array under `t.Params` as `RenderProxyWithValues` leaves it: the first
loop writes `t.Params[index].Value` in place, nothing is dropped and nothing is
quoted there, because `newParams` is built in an array of its own. Every copy
of the template made before the call shares this array and reads these entries
as its `Params` afterwards; `none` when the call panics. -/
def Template.paramsArrayAfterProxy (t : Templates.Template) (values : GoMap Value) :
    Option (List Param) :=
  writeValues values t.Params

/-- Go `func (t *Template) RenderProxyWithValues(values, includeDescription)`:
the receiver `*t` as the call leaves it (`t.Params = newParams`), the rendered
text and the error; `none` when the call panics. What the call leaves in the
array that held `t.Params` before is `Template.paramsArrayAfterProxy`. -/
def Template.RenderProxyWithValues (rt : Runtime) (t : Templates.Template)
    (values : GoMap Value) (includeDescription : Bool) :
    Option (Templates.Template × String × Option Error) :=
  (proxyParams rt values t.Params).map fun newParams =>
    let t1 := { t with Params := newParams }
    let description := if includeDescription then some t1.Description else none
    let r := rt.executeProxy t1.Template t1.Params description
    (t1, rt.TrimSpace r.1, r.2)

/-- Modelled from the spec: `util.DecodeOther`, which is not among the given
sources. Result rendering "starts from `Defaults(context)`, overlays
collaborator-supplied values (caller values strictly win on key
collision)": every entry of `other` is assigned into `values`. -/
def DecodeOther (other values : GoMap Value) : Except Error (GoMap Value) :=
  Except.ok (other.entries.foldl (fun m kv => m.set kv.1 kv.2) values)

/-- Modelled from the spec: `Template.ModbusValues`, which is not among the
given sources. The expansion of section 4.2 is "triggered when a template
declares a bus-interface parameter whose choices intersect {serial-capable,
network-capable}"; the keys it then adds are those of `rt.modbusExpansion`. -/
def Template.ModbusValues (rt : Runtime) (t : Templates.Template) (values : GoMap Value) :
    GoMap Value :=
  if t.ModbusChoices.any (fun c => c = ModbusChoiceRS485 ∨ c = ModbusChoiceTCPIP) then
    rt.modbusExpansion t.ModbusChoices values
  else values

/-- The loop `for item, p := range values { values[item] = yamlQuote(fmt.Sprintf("%v", p)) }`. -/
def quoteValues (rt : Runtime) (values : GoMap Value) : GoMap Value :=
  values.entries.foldl (fun m kv => m.set kv.1 (Value.str (rt.yamlQuote kv.2.format))) values

/-- Go `func (t *Template) RenderResult(docs bool, other map[string]interface{})`:
rendered text (empty for `nil`), value map and error. -/
def Template.RenderResult (rt : Runtime) (t : Templates.Template) (docs : Bool)
    (other : GoMap Value) : String × GoMap Value × Option Error :=
  let values := t.Defaults docs
  match DecodeOther other values with
  | Except.error err => ("", values, some err)
  | Except.ok values1 =>
    let values2 := quoteValues rt (t.ModbusValues rt values1)
    match rt.parse t.Render with
    | some err => ("", values2, some err)
    | none =>
      let r := rt.execute t.Render values2
      (rt.TrimSpace r.1, values2, r.2)

/-- The value `Defaults` is specified to choose for one parameter: the test
value if set; else the example if the context requests doc/test defaults and
the example is set; else the plain default. -/
def defaultValueOf (docsOrTests : Bool) (p : Param) : String :=
  if p.Test ≠ "" then p.Test
  else if docsOrTests = true ∧ p.Example ≠ "" then p.Example
  else p.Default

/-- The value a parameter carries once the supplied values are written into the
same-named parameters: the supplied one if there is one, else its own. -/
def suppliedValue (values : GoMap Value) (p : Param) : String :=
  match values.get? p.Name with
  | some v => v.format
  | none => p.Value

/-- The parameters proxy mode is specified to include: those with a non-empty
value, default, or example, or marked required. -/
def keptInProxy (p : Param) : Bool :=
  decide (p.Value ≠ "" ∨ p.Default ≠ "" ∨ p.Example ≠ "" ∨ p.Required = true)

/-- Stand-in for the library functions, used to evaluate the code on examples:
quoting wraps in single quotes, lower-casing and trimming act on ASCII,
templates render to the empty text. -/
def sampleRuntime : Runtime :=
  { yamlQuote := fun s => "'" ++ s ++ "'"
    ToLower := fun s => String.mk (s.data.map Char.toLower)
    TrimSpace := fun s =>
      String.mk ((s.data.dropWhile Char.isWhitespace).reverse.dropWhile Char.isWhitespace).reverse
    executeProxy := fun _ _ _ => ("", none)
    parse := fun _ => none
    execute := fun _ _ => ("", none)
    modbusExpansion := fun _ values => values }

/-- The template of the end-to-end example: `host` with an example, `usage`
with one choice. -/
def hostUsageTemplate : Template :=
  { Params := [ { Name := "host", Example := "192.0.2.2" }, { Name := "usage", Choice := ["grid"] } ] }

/-- A value map supplying `host` only. -/
def suppliedHost : GoMap Value := { entries := [("host", Value.str "10.0.0.7")] }

/-- Two parameters for the `Defaults` examples of the specification: the
first with test, example and default set, the second without a test value. -/
def testExampleTemplate : Template :=
  { Params := [ { Name := "a", Test := "t", Example := "e", Default := "d" },
                { Name := "b", Example := "e", Default := "d" } ] }

/-- A template that references a base parameter list that does not exist. -/
def unknownBaseTemplate : Template :=
  { ParamsBase := "charger", Params := [ { Name := "host", Example := "192.0.2.2" } ] }

end Templates

namespace Configure

open Templates

/-! ## Session aggregate (`configure.go`) -/

/-- An accepted device (`device`). -/
structure device where
  Name : String := ""
  Title : String := ""
  LogLevel : String := ""
  Yaml : String := ""
  ChargerHasMeter : Bool := false
deriving DecidableEq, Repr

/-- A loadpoint (`loadpoint`). -/
structure loadpoint where
  Title : String := ""
  Charger : String := ""
  ChargeMeter : String := ""
  Vehicles : List String := []
  Mode : String := ""
  MinCurrent : Int := 0
  MaxCurrent : Int := 0
  Phases : Int := 0
deriving DecidableEq, Repr

/-- The anonymous struct of the field `Site` of `config`. -/
structure Site where
  Title : String := ""
  Grid : String := ""
  PVs : List String := []
  Batteries : List String := []
deriving DecidableEq, Repr

/-- The configuration being built (`config`). -/
structure config where
  Meters : List device := []
  Chargers : List device := []
  Vehicles : List device := []
  Loadpoints : List loadpoint := []
  Site : Site := {}
  LogLevels : List String := []
  Hems : String := ""
  EEBUS : String := ""
  SponsorToken : String := ""
deriving DecidableEq, Repr

/-- The session (`Configure`). -/
structure Configure where
  config : Configure.config := {}
deriving DecidableEq, Repr

/-- Modelled from the spec: the device classes, declared outside the given
sources ("closed tagged enumerations {Charger, Meter, Vehicle}"); `Other` is
any value that is none of the three constants, such as the zero value of an
absent table entry. -/
inductive DeviceClass where
  | Charger
  | Meter
  | Vehicle
  | Other
deriving DecidableEq, Repr

/-- Modelled from the spec: a device category, declared outside the given
sources; the sources compare it with `""`, take its `len` and its `String()`,
so it is a string. -/
abbrev DeviceCategory := String

/-- Modelled from the spec: an entry of the table `DeviceCategories`, "a
static lookup table mapping each category to its class, default name prefix,
and usage filter". -/
structure DeviceCategoryData where
  class_ : DeviceClass := DeviceClass.Other
  defaultName : String := ""
  categoryFilter : DeviceCategory := ""
deriving DecidableEq, Repr

/-- Modelled from the spec: the outcome of a live test, declared outside the
given sources. -/
abbrev DeviceTestResult := String

/-- The package-level declarations of `cmd/configure` that the sources use
but do not contain: the category constants, the table `DeviceCategories` and
the test outcome `DeviceTestResultValid`. -/
structure Declarations where
  DeviceCategoryCharger : DeviceCategory
  DeviceCategoryGridMeter : DeviceCategory
  DeviceCategoryPVMeter : DeviceCategory
  DeviceCategoryBatteryMeter : DeviceCategory
  DeviceCategories : DeviceCategory → DeviceCategoryData
  DeviceTestResultValid : DeviceTestResult

/-- Go `func (c *Configure) AddLogLevel(name string)`. -/
def Configure.AddLogLevel (c : Configure.Configure) (name : String) : Configure.Configure :=
  if name = "" ∨ name ∈ c.config.LogLevels then c
  else { c with config := { c.config with LogLevels := c.config.LogLevels ++ [name] } }

/-- Go `func (c *Configure) AddDevice(d device, category DeviceCategory)`. -/
def Configure.AddDevice (D : Declarations) (c : Configure.Configure) (d : device)
    (category : DeviceCategory) : Configure.Configure :=
  match (D.DeviceCategories category).class_ with
  | DeviceClass.Charger =>
    let c1 := c.AddLogLevel d.LogLevel
    let c2 := if c1.config.EEBUS ≠ "" then c1.AddLogLevel "eebus" else c1
    { c2 with config := { c2.config with Chargers := c2.config.Chargers ++ [d] } }
  | DeviceClass.Meter =>
    let c1 := c.AddLogLevel d.LogLevel
    let c2 : Configure.Configure :=
      { c1 with config := { c1.config with Meters := c1.config.Meters ++ [d] } }
    let filter := (D.DeviceCategories category).categoryFilter
    if filter = D.DeviceCategoryGridMeter then
      { c2 with config := { c2.config with Site := { c2.config.Site with Grid := d.Name } } }
    else if filter = D.DeviceCategoryPVMeter then
      { c2 with config := { c2.config with
          Site := { c2.config.Site with PVs := c2.config.Site.PVs ++ [d.Name] } } }
    else if filter = D.DeviceCategoryBatteryMeter then
      { c2 with config := { c2.config with
          Site := { c2.config.Site with Batteries := c2.config.Site.Batteries ++ [d.Name] } } }
    else c2
  | DeviceClass.Vehicle =>
    let c1 := c.AddLogLevel d.LogLevel
    { c1 with config := { c1.config with Vehicles := c1.config.Vehicles ++ [d] } }
  | DeviceClass.Other => c

/-- Go `func (c *Configure) DevicesOfClass(class DeviceClass) []device`. -/
def Configure.DevicesOfClass (c : Configure.Configure) (cls : DeviceClass) : List device :=
  match cls with
  | DeviceClass.Charger => c.config.Chargers
  | DeviceClass.Meter => c.config.Meters
  | DeviceClass.Vehicle => c.config.Vehicles
  | DeviceClass.Other => []

/-- Go `func (c *Configure) AddLoadpoint(l loadpoint)`. -/
def Configure.AddLoadpoint (c : Configure.Configure) (l : loadpoint) : Configure.Configure :=
  let c1 : Configure.Configure :=
    { c with config := { c.config with Loadpoints := c.config.Loadpoints ++ [l] } }
  c1.AddLogLevel ("lp-" ++ toString (1 + (c1.config.Loadpoints.length : Int)))

/-- Go `func (c *Configure) MetersOfCategory(category DeviceCategory) int`. -/
def Configure.MetersOfCategory (D : Declarations) (c : Configure.Configure)
    (category : DeviceCategory) : Int :=
  if category = D.DeviceCategoryGridMeter then
    if c.config.Site.Grid ≠ "" then 1 else 0
  else if category = D.DeviceCategoryPVMeter then c.config.Site.PVs.length
  else if category = D.DeviceCategoryBatteryMeter then c.config.Site.Batteries.length
  else 0

/-- A call on the session, for statements about sequences of calls. -/
inductive SessionCall where
  | addLogLevel (name : String)
  | addDevice (d : device) (category : DeviceCategory)
  | addLoadpoint (l : loadpoint)
deriving DecidableEq, Repr

/-- The session after one call. -/
def SessionCall.apply (D : Declarations) (c : Configure.Configure) :
    SessionCall → Configure.Configure
  | SessionCall.addLogLevel name => c.AddLogLevel name
  | SessionCall.addDevice d category => c.AddDevice D d category
  | SessionCall.addLoadpoint l => c.AddLoadpoint l

/-- The session after a sequence of calls. -/
def runCalls (D : Declarations) (calls : List SessionCall) (c : Configure.Configure) :
    Configure.Configure :=
  calls.foldl (SessionCall.apply D) c

/-- Stand-in for the declarations outside the sources, used to evaluate the
code on examples: one charger category, three meter categories, one vehicle
category. -/
def sampleDeclarations : Declarations :=
  { DeviceCategoryCharger := "wallbox"
    DeviceCategoryGridMeter := "grid"
    DeviceCategoryPVMeter := "pv"
    DeviceCategoryBatteryMeter := "battery"
    DeviceCategories := fun category =>
      if category = "wallbox" then { class_ := DeviceClass.Charger, defaultName := "charger" }
      else if category = "grid" then
        { class_ := DeviceClass.Meter, defaultName := "grid", categoryFilter := "grid" }
      else if category = "pv" then
        { class_ := DeviceClass.Meter, defaultName := "pv", categoryFilter := "pv" }
      else if category = "battery" then
        { class_ := DeviceClass.Meter, defaultName := "battery", categoryFilter := "battery" }
      else if category = "vehicle" then { class_ := DeviceClass.Vehicle, defaultName := "ev" }
      else {}
    DeviceTestResultValid := "Valid" }

/-! ## The wizard (`helper.go`) -/

/-- Modelled from the spec: the question handed to the value-provider
collaborator, "(label, help text, default, example, required?, masked?,
declared type)"; its struct is declared outside the given sources. -/
structure question where
  label : String := ""
  help : String := ""
  defaultValue : Option Value := none
  exampleValue : String := ""
  valueType : String := ""
  mask : Bool := false
  required : Bool := false
deriving DecidableEq, Repr

/-- The input of the live test (`DeviceTest`). -/
structure DeviceTest where
  DeviceCategory : DeviceCategory := ""
  Template : Templates.Template := {}
  ConfigValues : GoMap Value := {}
deriving DecidableEq, Repr

/-- The largest value of a Go `int` of 64 bits (`math.MaxInt64`). -/
def MaxInt : Int := 9223372036854775807

/-- The smallest value of a Go `int` of 64 bits (`math.MinInt64`). -/
def MinInt : Int := -9223372036854775808

/-- Go `int` arithmetic of 64 bits: a result outside `MinInt` to `MaxInt`
wraps around modulo 2^64. -/
def wrapInt (x : Int) : Int :=
  (x + 9223372036854775808) % 18446744073709551616 - 9223372036854775808

/-- Modelled from the spec: the fields of `CmdConfigure` the sources use; the
struct is declared outside them. The ordinal counter `addedDeviceIndex` is a
Go `int`, taken as 64 bits wide: its values lie between `MinInt` and `MaxInt`,
and `++` and `--` on it wrap around (`wrapInt`). -/
structure CmdConfigure where
  configuration : Configure.Configure := {}
  lang : String := ""
  expandedMode : Bool := false
  addedDeviceIndex : Int := 0
  errItemNotPresent : Error := ""
  errDeviceNotValid : Error := ""
deriving DecidableEq, Repr

/-- The collaborators of the wizard, whose code is outside the given sources:
the operator (`askValue`, `askChoice`, `askYesNo`), the texts
(`localizedString`, `userFriendlyTexts`) and the live test (`Test`). Each
interaction reads and advances a world state `σ`. -/
structure Collaborators (σ : Type) where
  localizedString : String → GoMap Value → String
  userFriendlyTexts : Param → Param
  askValue : question → σ → String × σ
  askChoice : String → List String → σ → (Int × String) × σ
  askYesNo : String → σ → Bool × σ
  Test : DeviceTest → σ → (DeviceTestResult × Option Error) × σ

/-- The local variables of `processConfig` that its loop changes, with the
world state. -/
structure ConfigState (σ : Type) where
  additionalConfig : GoMap Value := {}
  selectedModbusKey : String := ""
  world : σ

/-- The device specific defaults of `processConfig` (lines 248 to 256):
`deviceDefaultBaudrate` and `deviceDefaultComset` as the code computes them. -/
def deviceDefaults (param : Param) : Int × String :=
  let deviceDefaultBaudrate := ModbusParamValueBaudrate
  let deviceDefaultBaudrate := if param.Baudrate ≠ 0 then param.Baudrate else deviceDefaultBaudrate
  let deviceDefaultComset := ModbusParamValueComset
  let deviceDefaultBaudrate := if param.Comset ≠ "" then param.Baudrate else deviceDefaultBaudrate
  (deviceDefaultBaudrate, deviceDefaultComset)

/-- One iteration of the loop `for _, choice := range param.Choice` of
`processConfig`, on the pair (`choices`, `choiceKeys`). -/
def modbusChoiceStep (acc : List String × List String) (choice : String) :
    List String × List String :=
  if choice = ModbusChoiceRS485 then
    (acc.1 ++ ["Serial (USB-RS485 Adapter)"] ++ ["Serial (Ethernet-RS485 Adapter)"],
      acc.2 ++ [ModbusKeyRS485Serial] ++ [ModbusKeyRS485TCPIP])
  else if choice = ModbusChoiceTCPIP then
    (acc.1 ++ ["TCP/IP"], acc.2 ++ [ModbusKeyTCPIP])
  else acc

/-- Go `choiceKeys[index]`; `none` is the index-out-of-range panic. -/
def choiceKeyAt (choiceKeys : List String) (index : Int) : Option String :=
  if 0 ≤ index then choiceKeys[index.toNat]? else none

/-- The branch `param.Name == templates.ParamModbus` of the loop of
`processConfig` (lines 247 to 328). -/
def processModbusParam {σ : Type} (io : Collaborators σ) (param : Param)
    (st : ConfigState σ) : Option (ConfigState σ) :=
  let defaults := deviceDefaults param
  let cs := param.Choice.foldl modbusChoiceStep ([], [])
  let choices := cs.1
  let choiceKeys := cs.2
  if choices.length > 0 then
    let id := io.askValue
      { label := "ID", help := "Modbus ID", defaultValue := some (Value.int 1),
        valueType := ParamValueTypeNumber, required := true } st.world
    let config1 := st.additionalConfig.set ModbusParamNameId (Value.str id.1)
    let chosen : Int × σ :=
      if choices.length > 1 then
        let r := io.askChoice (io.localizedString "Config_ModbusInterface" {}) choices id.2
        (r.1.1, r.2)
      else (0, id.2)
    match choiceKeyAt choiceKeys chosen.1 with
    | none => none
    | some selectedModbusKey =>
      if selectedModbusKey = ModbusKeyRS485Serial then
        let device := io.askValue
          { label := "Device", help := "USB-RS485 Adapter Adresse",
            exampleValue := ModbusParamValueDevice, required := true } chosen.2
        let config2 := config1.set ModbusParamNameDevice (Value.str device.1)
        let baudrate := io.askValue
          { label := "Baudrate", defaultValue := some (Value.int defaults.1),
            valueType := ParamValueTypeNumber, required := true } device.2
        let config3 := config2.set ModbusParamNameBaudrate (Value.str baudrate.1)
        let comset := io.askValue
          { label := "ComSet", defaultValue := some (Value.str defaults.2),
            required := true } baudrate.2
        let config4 := config3.set ModbusParamNameComset (Value.str comset.1)
        some { additionalConfig := config4, selectedModbusKey := selectedModbusKey,
               world := comset.2 }
      else if selectedModbusKey = ModbusKeyRS485TCPIP ∨ selectedModbusKey = ModbusKeyTCPIP then
        let config2 :=
          if selectedModbusKey = ModbusKeyRS485TCPIP then
            config1.set ModbusParamNameRTU (Value.str "true")
          else config1
        let host := io.askValue
          { label := "Host", exampleValue := ModbusParamValueHost, required := true } chosen.2
        let config3 := config2.set ModbusParamNameHost (Value.str host.1)
        let port := io.askValue
          { label := "Port", defaultValue := some (Value.int ModbusParamValuePort),
            valueType := ParamValueTypeNumber, required := true } host.2
        let config4 := config3.set ModbusParamNamePort (Value.str port.1)
        some { additionalConfig := config4, selectedModbusKey := selectedModbusKey,
               world := port.2 }
      else
        some { additionalConfig := config1, selectedModbusKey := selectedModbusKey,
               world := chosen.2 }
  else some st

/-- One iteration of the loop `for _, param := range paramItems` of
`processConfig`. -/
def processConfigStep {σ : Type} (D : Declarations) (io : Collaborators σ) (c : CmdConfigure)
    (deviceCategory : DeviceCategory) (includeAdvanced : Bool)
    (st : ConfigState σ) (param : Param) : Option (ConfigState σ) :=
  let usageFilter := (D.DeviceCategories deviceCategory).categoryFilter
  if param.Name = ParamModbus then processModbusParam io param st
  else if param.Name ≠ ParamUsage then
    if (!includeAdvanced && param.Advanced) = true then some st
    else
      let userFriendly := io.userFriendlyTexts param
      let value := io.askValue
        { label := userFriendly.Name
          defaultValue := some (Value.str userFriendly.Default)
          exampleValue := userFriendly.Example
          help := userFriendly.Help.String c.lang
          valueType := userFriendly.ValueType
          mask := userFriendly.Mask
          required := userFriendly.Required } st.world
      some { st with additionalConfig := st.additionalConfig.set param.Name (Value.str value.1),
                     world := value.2 }
  else if param.Name = ParamUsage then
    if usageFilter ≠ "" then
      some { st with additionalConfig := st.additionalConfig.set param.Name (Value.str usageFilter) }
    else some st
  else some st

/-- The loop of `processConfig` with its final local state. -/
def processConfigLoop {σ : Type} (D : Declarations) (io : Collaborators σ) (c : CmdConfigure)
    (w : σ) (paramItems : List Param) (deviceCategory : DeviceCategory)
    (includeAdvanced : Bool) : Option (ConfigState σ) :=
  paramItems.foldlM (processConfigStep D io c deviceCategory includeAdvanced)
    { additionalConfig := GoMap.empty, selectedModbusKey := "", world := w }

/-- Go `func (c *CmdConfigure) processConfig(paramItems, deviceCategory,
includeAdvanced) map[string]interface{}`: the returned map and the world
afterwards; `none` when the call panics. -/
def processConfig {σ : Type} (D : Declarations) (io : Collaborators σ) (c : CmdConfigure)
    (w : σ) (paramItems : List Param) (deviceCategory : DeviceCategory)
    (includeAdvanced : Bool) : Option (GoMap Value × σ) :=
  (processConfigLoop D io c w paramItems deviceCategory includeAdvanced).map
    fun st => (st.additionalConfig, st.world)

/-- World state of the scripted collaborators: the answers still to be given
to `askChoice` and `askYesNo`, the outcomes of the live tests still to come,
and the questions `askValue` was asked so far. -/
structure Script where
  choices : List Int := []
  answers : List Bool := []
  tests : List (DeviceTestResult × Option Error) := []
  asked : List question := []
deriving DecidableEq, Repr

/-- Stand-in for the collaborators, used to evaluate the code on examples:
`askValue` records the question and answers with the offered default (or the
example), the other answers are read off the script. -/
def scriptedOperator : Collaborators Script :=
  { localizedString := fun key _ => key
    userFriendlyTexts := fun p => p
    askValue := fun q w =>
      ((match q.defaultValue with
        | some v => v.format
        | none => q.exampleValue), { w with asked := w.asked ++ [q] })
    askChoice := fun _ _ w => ((w.choices.headD 0, ""), { w with choices := w.choices.tail })
    askYesNo := fun _ w => (w.answers.headD false, { w with answers := w.answers.tail })
    Test := fun _ w => (w.tests.headD ("Valid", none), { w with tests := w.tests.tail }) }

/-- A bus-interface parameter offering both the serial and the network choice. -/
def modbusParam : Param := { Name := "modbus", Choice := ["rs485", "tcpip"] }

/-- A bus-interface parameter that overrides the framing only. -/
def modbusComsetParam : Param := { Name := "modbus", Choice := ["rs485"], Comset := "8E1" }

/-- One iteration of the loop `for item, value := range values` of
`processDeviceValues`, on `device.Title`; `none` when `value.(string)` panics. -/
def titleStep (rt : Runtime) (title : String) (kv : String × Value) : Option String :=
  if rt.ToLower kv.1 ≠ "title" then some title
  else
    match kv.2.asString? with
    | none => none
    | some s => if s.length > 0 then some s else some title

/-- One iteration of the loop `for _, p := range templateItem.Params` of the
expanded mode of `processDeviceValues`, on the pair (`values`,
`templateItem.Render`). -/
def expandedStep (acc : GoMap Value × String) (p : Param) : GoMap Value × String :=
  if p.Name = "name" then
    (acc.1.set "name" (Value.str p.Value), "name: \x7b\x7b .name \x7d\x7d\n" ++ acc.2)
  else acc

/-- What a call of `processDeviceValues` leaves: the returned device and
error, the caller's value map (the expanded mode writes into it), the
receiver and the world; and `templateParams`, the entries that the array under
the `templateItem.Params` handed over holds afterwards, at the positions of
those parameters. `templateItem` is passed by value, so it shares that array
with the caller's template: when the array has spare capacity the `append` of
line 79 extends it in place and the writes of `RenderProxyWithValues` land in
it, and `templateParams` is what the caller's template reads as its `Params`
after the call; without spare capacity `append` copies the array and the
caller's entries stay as handed over. -/
structure DeviceOutcome (σ : Type) where
  device : Configure.device
  err : Option Error
  values : GoMap Value
  cmd : CmdConfigure
  world : σ
  templateParams : List Param

/-- The rendering part of `processDeviceValues` (lines 79 to 104), entered
with the counter already incremented; `none` when the call panics. -/
def renderDevice {σ : Type} (rt : Runtime) (c : CmdConfigure) (w : σ) (values : GoMap Value)
    (templateItem : Templates.Template) (dev : Configure.device) : Option (DeviceOutcome σ) :=
  let templateItem1 : Templates.Template :=
    { templateItem with Params := templateItem.Params ++ [{ Name := "name", Value := dev.Name }] }
  if (!c.expandedMode) = true then
    match templateItem1.paramsArrayAfterProxy values with
    | none => none
    | some written =>
      let shared := written.take templateItem.Params.length
      match templateItem1.RenderProxyWithValues rt values false with
      | none => none
      | some (_, _, some err) =>
        some { device := dev, err := some err, values := values,
               cmd := { c with addedDeviceIndex := wrapInt (c.addedDeviceIndex - 1) },
               world := w, templateParams := shared }
      | some (_, b, none) =>
        some { device := { dev with Yaml := b }, err := none, values := values, cmd := c,
               world := w, templateParams := shared }
  else
    let acc := templateItem1.Params.foldl expandedStep (values, templateItem1.Render)
    let templateItem2 : Templates.Template := { templateItem1 with Render := acc.2 }
    let r := templateItem2.RenderResult rt false acc.1
    match r.2.2 with
    | some err =>
      some { device := dev, err := some err, values := acc.1,
             cmd := { c with addedDeviceIndex := wrapInt (c.addedDeviceIndex - 1) },
             world := w, templateParams := templateItem.Params }
    | none =>
      some { device := { dev with Yaml := r.1 }, err := none, values := acc.1, cmd := c,
             world := w, templateParams := templateItem.Params }

/-- Go `func (c *CmdConfigure) processDeviceValues(values, templateItem,
device, deviceCategory) (device, error)`; `none` when the call panics. -/
def processDeviceValues {σ : Type} (D : Declarations) (io : Collaborators σ) (rt : Runtime)
    (c : CmdConfigure) (w : σ) (values : GoMap Value) (templateItem : Templates.Template)
    (dev : Configure.device) (deviceCategory : DeviceCategory) : Option (DeviceOutcome σ) :=
  let c1 : CmdConfigure := { c with addedDeviceIndex := wrapInt (c.addedDeviceIndex + 1) }
  let dev1 : Configure.device :=
    { dev with
      Name := (D.DeviceCategories deviceCategory).defaultName ++ toString c1.addedDeviceIndex
      Title := templateItem.Description
      LogLevel := templateItem.LogLevel }
  match values.entries.foldlM (titleStep rt) dev1.Title with
  | none => none
  | some title =>
    let dev2 : Configure.device := { dev1 with Title := title }
    let categoryWithUsage : Bool :=
      decide (deviceCategory = D.DeviceCategoryPVMeter ∨
        deviceCategory = D.DeviceCategoryBatteryMeter ∨
        deviceCategory = D.DeviceCategoryGridMeter)
    let test := io.Test
      { DeviceCategory := deviceCategory, Template := templateItem, ConfigValues := values } w
    match test.1.2 with
    | some _ =>
      let question :=
        if categoryWithUsage = true then
          io.localizedString "TestingDevice_AddFailedUsage"
            { entries := [("Device", Value.str templateItem.Description),
                ("Usage", Value.str deviceCategory)] }
        else
          io.localizedString "TestingDevice_AddFailed"
            { entries := [("Device", Value.str templateItem.Description)] }
      let answer := io.askYesNo question test.2
      if (!answer.1) = true then
        some { device := dev2, err := some c1.errDeviceNotValid, values := values,
               cmd := { c1 with addedDeviceIndex := wrapInt (c1.addedDeviceIndex - 1) },
               world := answer.2, templateParams := templateItem.Params }
      else renderDevice rt c1 answer.2 values templateItem dev2
    | none =>
      let dev3 : Configure.device :=
        if deviceCategory = D.DeviceCategoryCharger ∧ test.1.1 = D.DeviceTestResultValid then
          { dev2 with ChargerHasMeter := true }
        else dev2
      renderDevice rt c1 test.2 values templateItem dev3

/-- The inputs of one call of `processDeviceValues`. -/
structure Attempt where
  values : GoMap Value := {}
  templateItem : Templates.Template := {}
  device : Configure.device := {}
deriving DecidableEq, Repr

/-- A run of `processDeviceValues` attempts of one category, one after the
other on the same receiver: the devices returned without error, in order,
and the receiver and world afterwards; `none` when a call panics. Each attempt
names the template as it is handed over, with whatever earlier calls left in
its parameter array. -/
def runAttempts {σ : Type} (D : Declarations) (io : Collaborators σ) (rt : Runtime)
    (deviceCategory : DeviceCategory) :
    List Attempt → CmdConfigure → σ → Option (List Configure.device × CmdConfigure × σ)
  | [], c, w => some ([], c, w)
  | a :: rest, c, w =>
    match processDeviceValues D io rt c w a.values a.templateItem a.device deviceCategory with
    | none => none
    | some out =>
      match runAttempts D io rt deviceCategory rest out.cmd out.world with
      | none => none
      | some r => some ((if out.err = none then [out.device] else []) ++ r.1, r.2.1, r.2.2)

/-- Stand-in for the library functions in which executing a template fails. -/
def failingRuntime : Runtime :=
  { sampleRuntime with
    executeProxy := fun _ _ _ => ("", some "template: execution failed")
    execute := fun _ _ => ("", some "template: execution failed") }

/-- A charger template for the examples. -/
def chargerTemplate : Templates.Template :=
  { Template := "easee", Description := "Easee Home", LogLevel := "easee",
    Params := [ { Name := "user", Required := true }, { Name := "password", Required := true } ] }

/-- The values collected for `chargerTemplate` in the examples. -/
def chargerValues : GoMap Value :=
  { entries := [("user", Value.str "joe"), ("password", Value.str "secret")] }

/-- A receiver whose ordinal counter stands at 4. -/
def cmdAtFour : CmdConfigure :=
  { addedDeviceIndex := 4, errItemNotPresent := "not present", errDeviceNotValid := "not valid" }

/-- A receiver whose ordinal counter stands at the largest `int`. -/
def cmdAtMaxInt : CmdConfigure :=
  { addedDeviceIndex := 9223372036854775807, errItemNotPresent := "not present",
    errDeviceNotValid := "not valid" }

/-- A fresh receiver, its ordinal counter at 0. -/
def cmdFresh : CmdConfigure :=
  { addedDeviceIndex := 0, errItemNotPresent := "not present", errDeviceNotValid := "not valid" }

/-- Three charger attempts with the same template and values. -/
def threeChargerAttempts : List Attempt :=
  [ { values := chargerValues, templateItem := chargerTemplate },
    { values := chargerValues, templateItem := chargerTemplate },
    { values := chargerValues, templateItem := chargerTemplate } ]

/-- Value of a decimal digit character. -/
def digitValue (c : Char) : Nat := c.toNat - 48

/-- Value of a list of decimal digit characters, most significant first. -/
def decimalValue (l : List Char) : Nat := l.foldl (fun a c => 10 * a + digitValue c) 0

/-! ## Selection and requirements (`helper.go`) -/

/-- The collaborators of the selection and requirement steps, whose code is
outside the given sources: the operator's catalog selection (`selectItem`),
the certificate issuance (`eebusCertificate`, which returns a certificate
structure of type `Cert` and an error), its installation (`configureEEBus`),
`yaml.Marshal` on the certificate and the wait for a line of input
(`fmt.Scanln`). -/
structure Gatekeepers (σ : Type) (Cert : Type) where
  selectItem : DeviceCategory → σ → Templates.Template × σ
  eebusCertificate : σ → (Cert × Option Error) × σ
  configureEEBus : Cert → σ → Option Error × σ
  yamlMarshal : Cert → String × Option Error
  Scanln : σ → σ

/-- A call to a collaborator made by the requirement gates. -/
inductive Interaction where
  | askedYesNo (text : String)
  | askedValue (q : question)
  | issuedCertificate
  | configuredEEBus
  | awaitedPairing
deriving DecidableEq, Repr

/-- The state the requirement gates act on: the receiver, the package variable
`sponsor.Subject`, the world, and the collaborator calls made so far, in
order. -/
structure GateState (σ : Type) where
  cmd : CmdConfigure
  sponsorSubject : String := ""
  world : σ
  interactions : List Interaction := []

/-- The block "check if sponsorship is required" of
`processDeviceRequirements` (lines 117 to 133): the error returned from
inside the block, if any, and the state. -/
def sponsorshipGate {σ : Type} (io : Collaborators σ) (templateItem : Templates.Template)
    (st : GateState σ) : Option Error × GateState σ :=
  if templateItem.Requirements.Sponsorship = true ∧
      st.cmd.configuration.config.SponsorToken = "" then
    let text := io.localizedString "Requirements_Sponsorship_Token" {}
    let answer := io.askYesNo text st.world
    let st1 : GateState σ :=
      { st with world := answer.2,
                interactions := st.interactions ++ [Interaction.askedYesNo text] }
    if (!answer.1) = true then (some st.cmd.errItemNotPresent, st1)
    else
      let q : question :=
        { label := io.localizedString "Requirements_Sponsorship_Token_Input" {},
          required := true }
      let sponsortoken := io.askValue q st1.world
      (none,
        { st1 with
          cmd := { st1.cmd with configuration :=
            { st1.cmd.configuration with config :=
              { st1.cmd.configuration.config with SponsorToken := sponsortoken.1 } } }
          sponsorSubject := sponsortoken.1
          world := sponsortoken.2
          interactions := st1.interactions ++ [Interaction.askedValue q] })
  else (none, st)

/-- The block "check if we need to setup a HEMS" of
`processDeviceRequirements` (lines 135 to 141). -/
def hemsGate {σ : Type} (templateItem : Templates.Template) (st : GateState σ) : GateState σ :=
  if templateItem.Requirements.Hems ≠ "" ∧ templateItem.Requirements.Hems ∈ HemsValueTypes then
    if templateItem.Requirements.Hems = HemsTypeSMA then
      { st with cmd := { st.cmd with configuration :=
          { st.cmd.configuration with config :=
            { st.cmd.configuration.config with Hems := "type: sma\nAllowControl: false\n" } } } }
    else st
  else st

/-- The inner block `if c.configuration.config.EEBUS == ""` of
`processDeviceRequirements` (lines 145 to 166): certificate issuance,
installation and storing of the stanza. -/
def issueEEBus {σ Cert : Type} (io : Collaborators σ) (gk : Gatekeepers σ Cert)
    (st : GateState σ) : Option Error × GateState σ :=
  if st.cmd.configuration.config.EEBUS = "" then
    let cert := gk.eebusCertificate st.world
    let st1 : GateState σ :=
      { st with world := cert.2,
                interactions := st.interactions ++ [Interaction.issuedCertificate] }
    match cert.1.2 with
    | some err =>
      (some (io.localizedString "Requirements_EEBUS_Cert_Error" {} ++ ": " ++ err), st1)
    | none =>
      let configured := gk.configureEEBus cert.1.1 st1.world
      let st2 : GateState σ :=
        { st1 with world := configured.2,
                   interactions := st1.interactions ++ [Interaction.configuredEEBus] }
      match configured.1 with
      | some err => (some err, st2)
      | none =>
        let eebusYaml := gk.yamlMarshal cert.1.1
        match eebusYaml.2 with
        | some err => (some err, st2)
        | none =>
          (none,
            { st2 with cmd := { st2.cmd with configuration :=
                { st2.cmd.configuration with config :=
                  { st2.cmd.configuration.config with EEBUS := eebusYaml.1 } } } })
  else (none, st)

/-- The block "check if we need to setup an EEBUS HEMS" of
`processDeviceRequirements` (lines 143 to 171). -/
def eebusGate {σ Cert : Type} (io : Collaborators σ) (gk : Gatekeepers σ Cert)
    (templateItem : Templates.Template) (st : GateState σ) : Option Error × GateState σ :=
  if templateItem.Requirements.Eebus = true then
    let issued := issueEEBus io gk st
    match issued.1 with
    | some err => (some err, issued.2)
    | none =>
      (none,
        { issued.2 with world := gk.Scanln issued.2.world,
                        interactions := issued.2.interactions ++ [Interaction.awaitedPairing] })
  else (none, st)

/-- Go `func (c *CmdConfigure) processDeviceRequirements(templateItem) error`:
the returned error and the state the call leaves. -/
def processDeviceRequirements {σ Cert : Type} (io : Collaborators σ) (gk : Gatekeepers σ Cert)
    (templateItem : Templates.Template) (st : GateState σ) : Option Error × GateState σ :=
  let sponsorship := sponsorshipGate io templateItem st
  match sponsorship.1 with
  | some err => (some err, sponsorship.2)
  | none => eebusGate io gk templateItem (hemsGate templateItem sponsorship.2)

/-- Go `func (c *CmdConfigure) processDeviceSelection(deviceCategory)
(templates.Template, error)`: the selected template, the error and the state
the call leaves. -/
def processDeviceSelection {σ Cert : Type} (io : Collaborators σ) (gk : Gatekeepers σ Cert)
    (deviceCategory : DeviceCategory) (st : GateState σ) :
    Templates.Template × Option Error × GateState σ :=
  let templateItem := gk.selectItem deviceCategory st.world
  let st1 : GateState σ := { st with world := templateItem.2 }
  if templateItem.1.Description = io.localizedString "ItemNotPresent" {} then
    (templateItem.1, some st1.cmd.errItemNotPresent, st1)
  else
    let r := processDeviceRequirements io gk templateItem.1 st1
    (templateItem.1, r.1, r.2)

/-! ## The catalog (`helper.go`) -/

/-- What `fetchElements` uses and the given sources do not contain: the
catalog lookup `templates.ByClass`, the method `DeviceClass.String`, the
constant `DeviceCategoryGuidedSetup`, and the library function `sort.Slice`,
taken on the comparison of two elements. -/
structure Catalog where
  ByClass : String → List Templates.Template
  classString : DeviceClass → String
  DeviceCategoryGuidedSetup : DeviceCategory
  sortSlice : (Templates.Template → Templates.Template → Bool) →
    List Templates.Template → List Templates.Template

/-- Go `func (c *CmdConfigure) paramChoiceValues(params, name) []string`. -/
def paramChoiceValues (params : List Param) (name : String) : List String :=
  params.foldl (fun choices item => if item.Name ≠ name then choices else choices ++ item.Choice) []

/-- Go `func (c *CmdConfigure) paramChoiceContains(params, name, filter) bool`. -/
def paramChoiceContains (params : List Param) (name filter : String) : Bool :=
  decide (filter ∈ paramChoiceValues params name)

/-- The `less` function handed to `sort.Slice` in `fetchElements`, on the two
elements `items[i]` and `items[j]`. -/
def templateLess (rt : Runtime) (a b : Templates.Template) : Bool :=
  if a.Generic = true ∧ ¬ b.Generic = true then false
  else if ¬ a.Generic = true ∧ b.Generic = true then true
  else decide (rt.ToLower a.Description < rt.ToLower b.Description)

/-- One iteration of the loop of `fetchElements` over the templates of the
class. -/
def fetchStep (D : Declarations) (C : Catalog) (deviceCategory : DeviceCategory)
    (items : List Templates.Template) (tmpl : Templates.Template) : List Templates.Template :=
  if tmpl.Params.length = 0 ∨ tmpl.Description.length = 0 then items
  else if deviceCategory = C.DeviceCategoryGuidedSetup then
    if tmpl.GuidedSetup.Enable = true then items ++ [tmpl] else items
  else if (D.DeviceCategories deviceCategory).categoryFilter.length = 0 ∨
      paramChoiceContains tmpl.Params ParamUsage
        (D.DeviceCategories deviceCategory).categoryFilter = true then
    items ++ [tmpl]
  else items

/-- Go `func (c *CmdConfigure) fetchElements(deviceCategory) []templates.Template`. -/
def fetchElements (D : Declarations) (C : Catalog) (rt : Runtime)
    (deviceCategory : DeviceCategory) : List Templates.Template :=
  let items := (C.ByClass (C.classString (D.DeviceCategories deviceCategory).class_)).foldl
    (fetchStep D C deviceCategory) []
  C.sortSlice (templateLess rt) items

/-- The order `sort.Slice` leaves for the comparison `less`: no later element
is less than an earlier one. -/
def SortedBy (less : Templates.Template → Templates.Template → Bool)
    (items : List Templates.Template) : Prop :=
  items.Pairwise (fun a b => less b a = false)

/-- Stand-in for the catalog, used to evaluate the code on examples: four
charger templates, `sort.Slice` by insertion. -/
def sampleCatalog : Catalog :=
  { ByClass := fun _ =>
      [ { Template := "generic", Description := "Generic charger", Generic := true,
          Params := [{ Name := "uri" }] },
        { Template := "wallbe", Description := "wallbe Eco", Params := [{ Name := "host" }] },
        { Template := "abl", Description := "ABL eMH1", Params := [{ Name := "host" }] },
        { Template := "empty", Description := "", Params := [{ Name := "host" }] },
        { Template := "easee", Description := "Easee Home", Params := [{ Name := "user" }] } ]
    classString := fun _ => "charger"
    DeviceCategoryGuidedSetup := "guided"
    sortSlice := fun less items => items.insertionSort (fun a b => less b a = false) }

/-! ## Value collection, as specified -/

/-- The question `processConfig` asks for a plain parameter (lines 334 to
342). -/
def paramQuestion {σ : Type} (io : Collaborators σ) (c : CmdConfigure) (param : Param) :
    question :=
  { label := (io.userFriendlyTexts param).Name
    defaultValue := some (Value.str (io.userFriendlyTexts param).Default)
    exampleValue := (io.userFriendlyTexts param).Example
    help := (io.userFriendlyTexts param).Help.String c.lang
    valueType := (io.userFriendlyTexts param).ValueType
    mask := (io.userFriendlyTexts param).Mask
    required := (io.userFriendlyTexts param).Required }

/-- The parameters value collection is specified to ask for: not the usage
parameter, and advanced ones only in advanced mode. -/
def askedParam (includeAdvanced : Bool) (p : Param) : Bool :=
  decide (p.Name ≠ ParamUsage ∧ (p.Advanced = false ∨ includeAdvanced = true))

/-- The world after the value provider was asked for exactly the parameters
of `askedParam`, in their order. -/
def worldAfterAsking {σ : Type} (io : Collaborators σ) (c : CmdConfigure)
    (includeAdvanced : Bool) (params : List Param) (w : σ) : σ :=
  (params.filter (askedParam includeAdvanced)).foldl
    (fun w p => (io.askValue (paramQuestion io c p) w).2) w

/-- One iteration of the loop of `processConfig` for a parameter that is not
the modbus parameter, where no panic is possible (see `processConfigStep_plain`). -/
def collectStep {σ : Type} (D : Declarations) (io : Collaborators σ) (c : CmdConfigure)
    (deviceCategory : DeviceCategory) (includeAdvanced : Bool)
    (st : ConfigState σ) (param : Param) : ConfigState σ :=
  let usageFilter := (D.DeviceCategories deviceCategory).categoryFilter
  if param.Name = ParamUsage then
    if usageFilter ≠ "" then
      { st with additionalConfig := st.additionalConfig.set param.Name (Value.str usageFilter) }
    else st
  else if askedParam includeAdvanced param = true then
    { st with
      additionalConfig := st.additionalConfig.set param.Name
        (Value.str (io.askValue (paramQuestion io c param) st.world).1)
      world := (io.askValue (paramQuestion io c param) st.world).2 }
  else st

/-- The parameters of a meter template for the examples: a host, an advanced
port and the usage. -/
def meterParams : List Param :=
  [ { Name := "host", Default := "192.0.2.2" },
    { Name := "port", Default := "502", Advanced := true },
    { Name := "usage", Choice := ["grid", "pv"] } ]

/-- Stand-in for the collaborators of selection and requirements, used to
evaluate the code on examples: the operator selects the template `t`, the
certificate is the text "certificate", and nothing fails. -/
def gatekeepersSelecting (t : Templates.Template) : Gatekeepers Script String :=
  { selectItem := fun _ w => (t, w)
    eebusCertificate := fun w => (("certificate", none), w)
    configureEEBus := fun _ w => (none, w)
    yamlMarshal := fun cert => ("certificate: " ++ cert ++ "\n", none)
    Scanln := fun w => w }

/-- A charger template that requires sponsorship and the EEBUS setup. -/
def sponsoredTemplate : Templates.Template :=
  { Template := "eebus", Description := "EEBUS charger", LogLevel := "eebus",
    Requirements := { Sponsorship := true, Eebus := true },
    Params := [ { Name := "ski", Required := true } ] }

/-- The catalog item "no device": its description is the localized text
`ItemNotPresent`, which `scriptedOperator` renders as its key. -/
def notPresentItem : Templates.Template := { Description := "ItemNotPresent" }

/-- A session that already holds a sponsor token and an EEBUS stanza. -/
def satisfiedSession : GateState Script :=
  { cmd := { configuration := { config := { SponsorToken := "token", EEBUS := "stanza" } },
             errItemNotPresent := "not present", errDeviceNotValid := "not valid" }
    world := {} }

/-- A fresh session whose operator will answer "no" to the next question. -/
def decliningSession : GateState Script :=
  { cmd := cmdFresh, world := { answers := [false] } }

/-! ## Counting meters -/

/-- The session after a sequence of `AddDevice` calls, each given by its
device and category. -/
def addDevices (D : Declarations) (calls : List (device × DeviceCategory))
    (c : Configure.Configure) : Configure.Configure :=
  calls.foldl (fun c x => c.AddDevice D x.1 x.2) c

/-- The number of `AddDevice` calls that add a meter with the given usage
filter. -/
def meterAdditions (D : Declarations) (filter : DeviceCategory)
    (calls : List (device × DeviceCategory)) : Nat :=
  (calls.filter fun x =>
    decide ((D.DeviceCategories x.2).class_ = DeviceClass.Meter ∧
      (D.DeviceCategories x.2).categoryFilter = filter)).length

/-- The site references resolve: a non-empty `Site.Grid` and every entry of
`Site.PVs` and `Site.Batteries` is the name of a device in `Meters`, and
there are at least as many meters as PV and battery references. -/
def SiteResolves (c : Configure.Configure) : Prop :=
  (c.config.Site.Grid ≠ "" → c.config.Site.Grid ∈ c.config.Meters.map (·.Name)) ∧
    (∀ n ∈ c.config.Site.PVs, n ∈ c.config.Meters.map (·.Name)) ∧
    (∀ n ∈ c.config.Site.Batteries, n ∈ c.config.Meters.map (·.Name)) ∧
    c.config.Site.PVs.length + c.config.Site.Batteries.length ≤ c.config.Meters.length

/-- Five `AddDevice` calls for the examples: a grid meter, two PV meters, a
charger and a second grid meter. -/
def sampleAdditions : List (device × DeviceCategory) :=
  [ ({ Name := "grid1" }, "grid"), ({ Name := "pv2" }, "pv"), ({ Name := "pv3" }, "pv"),
    ({ Name := "charger1" }, "wallbox"), ({ Name := "grid4" }, "grid") ]

end Configure

namespace Api

open Templates

/-! ## Feature names (`feature_enumer.go`) -/

/-- Go `type Feature int`, declared outside the given sources; the generated
code compares it with 0 and formats it with `%d`. -/
abbrev Feature := Int

/-- The constant `Offline`, declared outside the given sources; the generated
check `x[Offline-(1)]` on an array of length one fixes its value. -/
def Offline : Feature := 1

/-- The constant `CoarseCurrent`, declared outside the given sources; the
generated check `x[CoarseCurrent-(2)]` fixes its value. -/
def CoarseCurrent : Feature := 2

def _FeatureName : String := "OfflineCoarseCurrent"

def _FeatureIndex : List Nat := [0, 7, 20]

def _FeatureLowerName : String := "offlinecoarsecurrent"

/-- The slice expression `s[a:b]` on a string of ASCII characters. -/
def byteSlice (s : String) (a b : Nat) : String :=
  String.mk ((s.data.drop a).take (b - a))

/-- Go `func (i Feature) String() string`. -/
def Feature.String (i : Feature) : String :=
  let i := i - 1
  if i < 0 ∨ i ≥ ((_FeatureIndex.length : Int) - 1) then "Feature(" ++ toString (i + 1) ++ ")"
  else byteSlice _FeatureName (_FeatureIndex.getD i.toNat 0) (_FeatureIndex.getD (i.toNat + 1) 0)

def _FeatureValues : List Feature := [Offline, CoarseCurrent]

def _FeatureNameToValueMap : GoMap Feature :=
  { entries :=
      [ (byteSlice _FeatureName 0 7, Offline),
        (byteSlice _FeatureLowerName 0 7, Offline),
        (byteSlice _FeatureName 7 20, CoarseCurrent),
        (byteSlice _FeatureLowerName 7 20, CoarseCurrent) ] }

/-- Go `func FeatureString(s string) (Feature, error)`; `strings.ToLower` is
the parameter `ToLower`. -/
def FeatureString (ToLower : String → String) (s : String) : Feature × Option Error :=
  match _FeatureNameToValueMap.get? s with
  | some val => (val, none)
  | none =>
    match _FeatureNameToValueMap.get? (ToLower s) with
    | some val => (val, none)
    | none => (0, some (s ++ " does not belong to Feature values"))

/-- Go `func FeatureValues() []Feature`. -/
def FeatureValues : List Feature := _FeatureValues

/-- The properties of `strings.ToLower` the feature names depend on: a string
of ASCII characters is lower-cased letter by letter, and no result holds an
upper-case ASCII letter. -/
def LowerCases (ToLower : String → String) : Prop :=
  (∀ s : String, (∀ c ∈ s.data, c.toNat < 128) → ToLower s = String.mk (s.data.map Char.toLower)) ∧
    ∀ s : String, ∀ c ∈ (ToLower s).data, c.isUpper = false

/-- Lower-casing of ASCII letters only, a stand-in for `strings.ToLower`. -/
def asciiToLower (s : String) : String := String.mk (s.data.map Char.toLower)

end Api

namespace Fiat

open Templates

/-! ## Fiat status provider (`vehicle/fiat/provider.go`)

Instants (`time.Time`) and durations (`time.Duration`) are integers counting
nanoseconds; `t.Add(d)` is `t + d`, `t.Before(u)` is `t < u` and
`time.Since(t)` is the clock reading minus `t`. -/

/-- Go `time.Second`, in nanoseconds. -/
def Second : Int := 1000000000

/-- Go `time.Minute`. -/
def Minute : Int := 60 * Second

def refreshTimeout : Int := 2 * Minute

/-- The fields of `ActionResponse` read by `deepRefresh`. -/
structure ActionResponse where
  ResponseStatus : String := ""
  CorrelationId : String := ""
  deriving DecidableEq, Repr

/-- The surroundings of the provider over a world `σ` and a status response
type `Resp`: the clock `time.Now`, the `Timestamp` field of a response, and
the error values `api.ErrMustRetry` and `api.ErrTimeout`, which are variables
of package `api` (`none` is the nil error). -/
structure Surroundings (σ Resp : Type) where
  Now : σ → Int × σ
  Timestamp : Resp → Int
  ErrMustRetry : Option Error
  ErrTimeout : Option Error

/-- Go `type Provider struct`, with the fields used by `deepRefresh` and
`status`; the field `statusG` is not read by them. -/
structure Provider (σ : Type) where
  action : String → String → σ → (ActionResponse × Option Error) × σ
  expiry : Int
  refreshId : String := ""
  refreshTime : Int := 0

/-- Go `func (v *Provider) deepRefresh() (string, error)`. -/
def Provider.deepRefresh {σ : Type} (v : Provider σ) (w : σ) : (String × Option Error) × σ :=
  let r := v.action "ev" "DEEPREFRESH" w
  let res := r.1.1
  let err := r.1.2
  let err :=
    if err = none ∧ res.ResponseStatus ≠ "pending" then
      some ("invalid response status: " ++ res.ResponseStatus)
    else err
  ((res.CorrelationId, err), r.2)

/-- Go `func (v *Provider) status(statusG func() (StatusResponse, error))
(StatusResponse, error)`; the result holds the returned pair, the provider
after the call and the world after the call. -/
def Provider.status {σ Resp : Type} (E : Surroundings σ Resp) (v : Provider σ)
    (statusG : σ → (Resp × Option Error) × σ) (w : σ) :
    (Resp × Option Error) × Provider σ × σ :=
  let g := statusG w
  let res := g.1.1
  let err := g.1.2
  let w := g.2
  if err = none then
    let n := E.Now w
    if E.Timestamp res + v.expiry < n.1 then
      let w := n.2
      if v.refreshId = "" then
        let d := v.deepRefresh w
        let v := { v with refreshId := d.1.1 }
        let err := d.1.2
        let w := d.2
        if err ≠ none then ((res, err), v, w)
        else
          let n := E.Now w
          let v := { v with refreshTime := n.1 }
          ((res, E.ErrMustRetry), v, n.2)
      else
        let n := E.Now w
        let w := n.2
        if n.1 - v.refreshTime > refreshTimeout then
          let v := { v with refreshId := "" }
          ((res, E.ErrTimeout), v, w)
        else ((res, E.ErrMustRetry), v, w)
    else
      let v := { v with refreshId := "" }
      ((res, err), v, n.2)
  else ((res, err), v, w)

/-- A clock that advances by one second at every reading, with the
timestamp of a response being the response itself; a stand-in. -/
def tickingSurroundings : Surroundings Int Int :=
  { Now := fun w => (w, w + Second),
    Timestamp := fun r => r,
    ErrMustRetry := some "must retry",
    ErrTimeout := some "timeout" }

/-- A provider whose action answers `pending` with the identifier `id-1`; a
stand-in. -/
def pendingProvider : Provider Int :=
  { action := fun _ _ w => (({ ResponseStatus := "pending", CorrelationId := "id-1" }, none), w),
    expiry := 15 * Minute }

/-- A getter answering with a response of timestamp zero and no error; a
stand-in. -/
def oldStatus (w : Int) : (Int × Option Error) × Int := ((0, none), w)

end Fiat

/-! # Theorems -/

namespace Templates

theorem resolveStep_eq (params : List Param) (p : Param) :
    resolveStep params p = overrideFirst p params := by
  induction params with
  | nil => simp [resolveStep, paramWithNameIn, overrideFirst]
  | cons q qs ih =>
    by_cases h : q.Name = p.Name
    · simp only [resolveStep, paramWithNameIn, overrideFirst, h, if_true, applyOverride]
      by_cases hd : p.Default = "" <;> by_cases he : p.Example = "" <;>
        simp [hd, he, updateAt, h]
    · simp only [resolveStep, paramWithNameIn, overrideFirst, h, if_false] at ih ⊢
      cases hq : paramWithNameIn qs p.Name with
      | none =>
        rw [hq] at ih
        simp only [Option.map_none'] at ih ⊢
        rw [← ih]; rfl
      | some r =>
        rw [hq] at ih
        simp only [Option.map_some'] at ih ⊢
        rw [← ih]
        by_cases hd : p.Default = "" <;> by_cases he : p.Example = "" <;>
          simp [hd, he, updateAt]

theorem foldl_resolveStep_eq (ps acc : List Param) :
    ps.foldl resolveStep acc = ps.foldl (fun s p => overrideFirst p s) acc := by
  induction ps generalizing acc with
  | nil => rfl
  | cons p ps ih => simp [List.foldl, resolveStep_eq, ih]

theorem applyOverride_Name (p q : Param) : (applyOverride p q).Name = q.Name := by
  unfold applyOverride
  by_cases hd : p.Default = "" <;> by_cases he : p.Example = "" <;> simp [hd, he]

theorem overrideFirst_names (p : Param) (s : List Param) :
    (overrideFirst p s).map (·.Name) =
      if p.Name ∈ s.map (·.Name) then s.map (·.Name) else s.map (·.Name) ++ [p.Name] := by
  induction s with
  | nil => simp [overrideFirst]
  | cons q qs ih =>
    by_cases h : q.Name = p.Name
    · simp [overrideFirst, h, applyOverride_Name]
    · have h' : ¬ p.Name = q.Name := fun e => h e.symm
      simp only [overrideFirst, h, if_false, List.map_cons, ih, List.mem_cons, h', false_or]
      split <;> simp

theorem overrideFirst_nodup (p : Param) (s : List Param)
    (h : (s.map (·.Name)).Nodup) : ((overrideFirst p s).map (·.Name)).Nodup := by
  rw [overrideFirst_names]
  split
  · exact h
  · rename_i hn
    rw [List.nodup_append]
    refine ⟨h, List.nodup_singleton _, ?_⟩
    intro a ha hb
    simp at hb
    subst hb
    exact hn ha

theorem overrideFirst_append_mem (p : Param) (a e : List Param)
    (h : p.Name ∈ a.map (·.Name)) :
    overrideFirst p (a ++ e) = overrideFirst p a ++ e := by
  induction a with
  | nil => simp at h
  | cons q qs ih =>
    by_cases hq : q.Name = p.Name
    · simp [overrideFirst, hq]
    · have h' : p.Name ∈ qs.map (·.Name) := by
        simp only [List.map_cons, List.mem_cons] at h
        rcases h with h | h
        · exact absurd h.symm hq
        · exact h
      simp [overrideFirst, hq, ih h']

theorem overrideFirst_append_not_mem (p : Param) (a e : List Param)
    (h : p.Name ∉ a.map (·.Name)) :
    overrideFirst p (a ++ e) = a ++ overrideFirst p e := by
  induction a with
  | nil => rfl
  | cons q qs ih =>
    simp only [List.map_cons, List.mem_cons, not_or] at h
    have hq : ¬ q.Name = p.Name := fun e => h.1 e.symm
    simp [overrideFirst, hq, ih h.2]

theorem overrideFirst_not_mem (p : Param) (s : List Param)
    (h : p.Name ∉ s.map (·.Name)) : overrideFirst p s = s ++ [p] := by
  have := overrideFirst_append_not_mem p s [] h
  simpa [overrideFirst] using this

theorem OverrideOf.refl (a : Param) : OverrideOf a a :=
  ⟨rfl, fun h => h, fun h => h⟩

theorem OverrideOf.name_eq {a b : Param} (h : OverrideOf a b) : a.Name = b.Name := by
  rw [h.1]

theorem OverrideOf.applyOverride_self {a b : Param} (h : OverrideOf a b) :
    applyOverride a b = a := by
  obtain ⟨h1, h2, h3⟩ := h
  cases a; cases b
  simp only [Param.mk.injEq] at h1
  simp only at h2 h3
  unfold applyOverride
  simp only [Param.mk.injEq]
  split <;> split <;> simp_all

theorem OverrideOf.applyOverride {a b : Param} (p : Param) (h : OverrideOf a b) :
    OverrideOf (applyOverride p a) b := by
  obtain ⟨h1, h2, h3⟩ := h
  cases a; cases b; cases p
  simp only [Param.mk.injEq] at h1
  simp only at h2 h3
  unfold Templates.applyOverride OverrideOf
  simp only
  split <;> split <;> simp_all

theorem forall₂_overrideFirst (p : Param) {a b : List Param}
    (h : List.Forall₂ OverrideOf a b) (hm : p.Name ∈ a.map (·.Name)) :
    List.Forall₂ OverrideOf (overrideFirst p a) b := by
  induction h with
  | nil => simp at hm
  | @cons x y xs ys hxy _ ih =>
    by_cases hq : x.Name = p.Name
    · simp only [overrideFirst, hq, if_true]
      exact List.Forall₂.cons (hxy.applyOverride p) (by assumption)
    · have h' : p.Name ∈ xs.map (·.Name) := by
        simp only [List.map_cons, List.mem_cons] at hm
        rcases hm with hm | hm
        · exact absurd hm.symm hq
        · exact hm
      simp only [overrideFirst, hq, if_false]
      exact List.Forall₂.cons hxy (ih h')

theorem Resolved.base {base : List Param} (h : (base.map (·.Name)).Nodup) :
    Resolved base base := by
  refine ⟨base, [], by simp, ?_, h⟩
  clear h
  induction base with
  | nil => exact List.Forall₂.nil
  | cons b bs ih => exact List.Forall₂.cons (OverrideOf.refl b) ih

theorem Resolved.step {base s : List Param} (p : Param) (h : Resolved base s) :
    Resolved base (overrideFirst p s) := by
  obtain ⟨a, e, rfl, hf, hn⟩ := h
  by_cases hm : p.Name ∈ a.map (·.Name)
  · refine ⟨overrideFirst p a, e, overrideFirst_append_mem p a e hm,
      forall₂_overrideFirst p hf hm, overrideFirst_nodup p _ hn⟩
  · refine ⟨a, overrideFirst p e, overrideFirst_append_not_mem p a e hm, hf,
      overrideFirst_nodup p _ hn⟩

theorem Resolved.foldl {base : List Param} (ps : List Param) {s : List Param}
    (h : Resolved base s) : Resolved base (ps.foldl resolveStep s) := by
  induction ps generalizing s with
  | nil => exact h
  | cons p ps ih =>
    simp only [List.foldl, resolveStep_eq]
    exact ih (h.step p)

theorem foldl_resolveStep_fresh (e pre : List Param)
    (hn : ((pre ++ e).map (·.Name)).Nodup) :
    e.foldl resolveStep pre = pre ++ e := by
  induction e generalizing pre with
  | nil => simp
  | cons x xs ih =>
    have hx : x.Name ∉ pre.map (·.Name) := by
      intro hmem
      rw [List.map_append, List.nodup_append] at hn
      exact hn.2.2 hmem (by simp)
    simp only [List.foldl, resolveStep_eq, overrideFirst_not_mem x pre hx]
    rw [ih (pre ++ [x]) (by simpa using hn)]
    simp

theorem foldl_resolveStep_resolved {a b : List Param} (h : List.Forall₂ OverrideOf a b) :
    ∀ (pre e : List Param), ((pre ++ a ++ e).map (·.Name)).Nodup →
      (a ++ e).foldl resolveStep (pre ++ b) = pre ++ a ++ e := by
  induction h with
  | nil =>
    intro pre e hn
    simpa using foldl_resolveStep_fresh e pre (by simpa using hn)
  | @cons x y xs ys hxy _ ih =>
    intro pre e hn
    have hx : y.Name ∉ pre.map (·.Name) := by
      rw [← hxy.name_eq]
      intro hmem
      simp only [List.append_assoc, List.map_append, List.nodup_append] at hn
      exact hn.2.2 hmem (by simp)
    have hstep : overrideFirst x (pre ++ y :: ys) = (pre ++ [x]) ++ ys := by
      rw [overrideFirst_append_not_mem x pre _ (by rw [hxy.name_eq]; exact hx)]
      simp [overrideFirst, hxy.name_eq, hxy.applyOverride_self]
    have ih' := ih (pre ++ [x]) e (by simpa using hn)
    rw [List.cons_append, List.foldl_cons, resolveStep_eq, hstep, ih']
    simp

theorem resolve_idempotent_over (base ps : List Param)
    (hb : (base.map (·.Name)).Nodup) :
    (ps.foldl resolveStep base).foldl resolveStep base = ps.foldl resolveStep base := by
  obtain ⟨a, e, hs, hf, hn⟩ := Resolved.foldl ps (Resolved.base hb)
  rw [hs]
  have := foldl_resolveStep_resolved hf [] e (by simpa [hs] using hn)
  simpa using this

theorem vehicleBase_names_nodup : (vehicleBase.map (·.Name)).Nodup := by
  decide

theorem paramBases_names_nodup {key : String} {base : List Param}
    (h : paramBases key = some base) : (base.map (·.Name)).Nodup := by
  unfold paramBases at h
  split at h
  · cases h; exact vehicleBase_names_nodup
  · cases h

/-- C1: `ResolveParamBase` is idempotent: for every template, whatever its
`ParamsBase` and `Params` (repeated names and names colliding with base
entries included), a second call leaves `Params`, and the whole template, as
the first call left them. -/
theorem ResolveParamBase_idempotent (t : Template) :
    t.ResolveParamBase.ResolveParamBase.Params = t.ResolveParamBase.Params ∧
      t.ResolveParamBase.ResolveParamBase = t.ResolveParamBase := by
  suffices h : t.ResolveParamBase.ResolveParamBase = t.ResolveParamBase by
    exact ⟨by rw [h], h⟩
  by_cases h0 : t.ParamsBase = ""
  · simp [Template.ResolveParamBase, h0]
  · cases hb : paramBases t.ParamsBase with
    | none => simp [Template.ResolveParamBase, h0, hb]
    | some base =>
      simp only [Template.ResolveParamBase, h0, hb, if_false]
      rw [resolve_idempotent_over base t.Params (paramBases_names_nodup hb)]

theorem applyOverride_eq (p b : Param) :
    applyOverride p b =
      { b with
        Default := if p.Default ≠ "" then p.Default else b.Default
        Example := if p.Example ≠ "" then p.Example else b.Example } := by
  unfold applyOverride
  by_cases hd : p.Default = "" <;> by_cases he : p.Example = "" <;> simp [hd, he]

theorem overrideFrom_cons_ne (p : Param) (ps : List Param) (b : Param)
    (h : p.Name ≠ b.Name) : overrideFrom (p :: ps) b = overrideFrom ps b := by
  simp [overrideFrom, List.find?, h]

theorem overrideFrom_cons_eq (p : Param) (ps : List Param) (b : Param)
    (h : p.Name = b.Name) : overrideFrom (p :: ps) b = applyOverride p b := by
  simp [overrideFrom, List.find?, h, applyOverride_eq]

theorem overrideFrom_not_mem (ps : List Param) (b : Param)
    (h : b.Name ∉ ps.map (·.Name)) : overrideFrom ps b = b := by
  have : ps.find? (fun p => decide (p.Name = b.Name)) = none := by
    rw [List.find?_eq_none]
    intro x hx hxb
    simp only [decide_eq_true_eq] at hxb
    exact h (by rw [← hxb]; exact List.mem_map_of_mem _ hx)
  simp [overrideFrom, this]

theorem map_overrideFrom_cons_not_mem (p : Param) (ps bs : List Param)
    (h : p.Name ∉ bs.map (·.Name)) :
    bs.map (overrideFrom (p :: ps)) = bs.map (overrideFrom ps) := by
  apply List.map_congr_left
  intro b hb
  apply overrideFrom_cons_ne
  intro e
  exact h (by rw [e]; exact List.mem_map_of_mem _ hb)

theorem map_overrideFrom_overrideFirst (p : Param) (ps bs : List Param)
    (hn : (bs.map (·.Name)).Nodup) (hm : p.Name ∈ bs.map (·.Name))
    (hp : p.Name ∉ ps.map (·.Name)) :
    (overrideFirst p bs).map (overrideFrom ps) = bs.map (overrideFrom (p :: ps)) := by
  induction bs with
  | nil => simp at hm
  | cons q qs ih =>
    simp only [List.map_cons, List.nodup_cons] at hn
    by_cases hq : q.Name = p.Name
    · simp only [overrideFirst, hq, if_true, List.map_cons]
      rw [overrideFrom_cons_eq p ps q hq.symm,
        map_overrideFrom_cons_not_mem p ps qs (by rw [← hq]; exact hn.1),
        overrideFrom_not_mem ps _ (by rw [applyOverride_Name, hq]; exact hp)]
    · have h' : p.Name ∈ qs.map (·.Name) := by
        simp only [List.map_cons, List.mem_cons] at hm
        rcases hm with hm | hm
        · exact absurd hm.symm hq
        · exact hm
      simp only [overrideFirst, hq, if_false, List.map_cons]
      rw [ih hn.2 h', overrideFrom_cons_ne p ps q (fun e => hq e.symm)]

theorem overrideFirst_names_of_mem (p : Param) (s : List Param)
    (h : p.Name ∈ s.map (·.Name)) :
    (overrideFirst p s).map (·.Name) = s.map (·.Name) := by
  rw [overrideFirst_names, if_pos h]

theorem foldl_resolveStep_distinct (ps : List Param) :
    ∀ (bs e : List Param), (bs.map (·.Name)).Nodup → ((e ++ ps).map (·.Name)).Nodup →
      (∀ x ∈ e, x.Name ∉ bs.map (·.Name)) →
      ps.foldl resolveStep (bs ++ e) =
        bs.map (overrideFrom ps) ++ (e ++ ps.filter (fun p => p.Name ∉ bs.map (·.Name))) := by
  induction ps with
  | nil =>
    intro bs e _ _ _
    have : bs.map (overrideFrom []) = bs := by
      conv_rhs => rw [← List.map_id bs]
      apply List.map_congr_left
      intro b _
      simp [overrideFrom]
    simp [this]
  | cons p ps ih =>
    intro bs e hb he hd
    have hpe : p.Name ∉ e.map (·.Name) := by
      intro hmem
      rw [List.map_append, List.nodup_append] at he
      exact he.2.2 hmem (by simp)
    have hpp : p.Name ∉ ps.map (·.Name) := by
      rw [List.map_append, List.nodup_append] at he
      have := he.2.1
      simp only [List.map_cons, List.nodup_cons] at this
      exact this.1
    rw [List.foldl_cons, resolveStep_eq]
    by_cases hm : p.Name ∈ bs.map (·.Name)
    · rw [overrideFirst_append_mem p bs e hm]
      have hnames := overrideFirst_names_of_mem p bs hm
      rw [ih (overrideFirst p bs) e (by rw [hnames]; exact hb)
        (by
          rw [List.map_append, List.nodup_append] at he ⊢
          refine ⟨he.1, (List.nodup_cons.mp (by simpa using he.2.1)).2, ?_⟩
          intro a ha hb'
          exact he.2.2 ha (by simp [hb']))
        (by rw [hnames]; exact hd)]
      rw [map_overrideFrom_overrideFirst p ps bs hb hm hpp, hnames,
        List.filter_cons_of_neg (by simpa using hm)]
    · rw [overrideFirst_append_not_mem p bs e hm, overrideFirst_not_mem p e hpe]
      rw [ih bs (e ++ [p]) hb (by simpa using he)
        (by
          intro x hx
          simp only [List.mem_append, List.mem_singleton] at hx
          rcases hx with hx | hx
          · exact hd x hx
          · rw [hx]; exact hm)]
      rw [map_overrideFrom_cons_not_mem p ps bs hm,
        List.filter_cons_of_pos (by simpa using hm)]
      simp

/-- C2 (as amended): for every template whose `ParamsBase` names a known base
list and whose parameter names are pairwise distinct, `ResolveParamBase`
leaves in `Params` first the base entries, in base order and under the base
names, each changed at most in `Default` and `Example` (replaced exactly when
the same-named template entry gives a non-empty one), and after them the
template entries whose name is not in the base, unchanged and in their
original order. -/
theorem ResolveParamBase_distinct_names (t : Template) (base : List Param)
    (hbase : paramBases t.ParamsBase = some base)
    (hnames : (t.Params.map (·.Name)).Nodup) :
    t.ResolveParamBase.Params = resolvedParams base t.Params ∧
      (t.ResolveParamBase.Params.take base.length).map (·.Name) = base.map (·.Name) ∧
      t.ResolveParamBase.Params.take base.length = base.map (overrideFrom t.Params) ∧
      t.ResolveParamBase.Params.drop base.length =
        t.Params.filter (fun p => p.Name ∉ base.map (·.Name)) := by
  have h0 : t.ParamsBase ≠ "" := by
    intro h
    rw [h] at hbase
    simp [paramBases] at hbase
  have hmain : t.ResolveParamBase.Params = resolvedParams base t.Params := by
    simp only [Template.ResolveParamBase, h0, hbase, if_false]
    have := foldl_resolveStep_distinct t.Params base [] (paramBases_names_nodup hbase)
      (by simpa using hnames) (by simp)
    simpa [resolvedParams] using this
  have hlen : (base.map (overrideFrom t.Params)).length = base.length := by simp
  refine ⟨hmain, ?_, ?_, ?_⟩
  · rw [hmain, resolvedParams, ← hlen, List.take_left, List.map_map]
    apply List.map_congr_left
    intro b _
    simp only [Function.comp, overrideFrom]
    split <;> rfl
  · rw [hmain, resolvedParams, ← hlen, List.take_left]
  · rw [hmain, resolvedParams, ← hlen, List.drop_left]

/-- The amended C2 at a template that overrides the example of `vin` and adds
`cache`. -/
theorem ResolveParamBase_distinct_names_witness :
    (paramBases vinCacheTemplate.ParamsBase = some vehicleBase ∧
      (vinCacheTemplate.Params.map (·.Name)).Nodup) ∧
    (vinCacheTemplate.ResolveParamBase.Params = resolvedParams vehicleBase vinCacheTemplate.Params ∧
      (vinCacheTemplate.ResolveParamBase.Params.take vehicleBase.length).map (·.Name) =
        vehicleBase.map (·.Name) ∧
      vinCacheTemplate.ResolveParamBase.Params.take vehicleBase.length =
        vehicleBase.map (overrideFrom vinCacheTemplate.Params) ∧
      vinCacheTemplate.ResolveParamBase.Params.drop vehicleBase.length =
        vinCacheTemplate.Params.filter (fun p => p.Name ∉ vehicleBase.map (·.Name))) :=
  ⟨⟨by decide, by decide⟩,
    ResolveParamBase_distinct_names vinCacheTemplate vehicleBase (by decide) (by decide)⟩

/-- C2 as stated fails for a name repeated outside the base: of the two entries
named `x` only one is appended, carrying the default of the second, so the
first template entry is not among the resolved parameters. -/
theorem ResolveParamBase_repeated_name_counterexample :
    paramBases repeatedNameTemplate.ParamsBase = some vehicleBase ∧
      repeatedNameTemplate.ResolveParamBase.Params =
        vehicleBase ++ [ { Name := "x", Default := "b" } ] ∧
      ¬ (∀ p ∈ repeatedNameTemplate.Params, p.Name ∉ vehicleBase.map (·.Name) →
          p ∈ repeatedNameTemplate.ResolveParamBase.Params) ∧
      repeatedNameTemplate.ResolveParamBase.Params.drop vehicleBase.length ≠
        repeatedNameTemplate.Params.filter (fun p => p.Name ∉ vehicleBase.map (·.Name)) := by
  decide

/-! ## Association lists -/

theorem setEntry_not_mem {α : Type} (l : List (String × α)) (key : String) (v : α)
    (h : key ∉ l.map Prod.fst) : setEntry l key v = l ++ [(key, v)] := by
  induction l with
  | nil => rfl
  | cons e es ih =>
    obtain ⟨k, w⟩ := e
    simp only [List.map_cons, List.mem_cons, not_or] at h
    have hk : ¬ k = key := fun e => h.1 e.symm
    simp [setEntry, hk, ih h.2]

theorem setEntry_keys {α : Type} (l : List (String × α)) (key : String) (v : α) :
    (setEntry l key v).map Prod.fst =
      if key ∈ l.map Prod.fst then l.map Prod.fst else l.map Prod.fst ++ [key] := by
  induction l with
  | nil => simp [setEntry]
  | cons e es ih =>
    obtain ⟨k, w⟩ := e
    by_cases hk : k = key
    · simp [setEntry, hk]
    · have hk' : ¬ key = k := fun e => hk e.symm
      simp only [setEntry, hk, if_false, List.map_cons, ih, List.mem_cons, hk', false_or]
      split <;> simp

theorem setEntry_keys_nodup {α : Type} (l : List (String × α)) (key : String) (v : α)
    (h : (l.map Prod.fst).Nodup) : ((setEntry l key v).map Prod.fst).Nodup := by
  rw [setEntry_keys]
  split
  · exact h
  · rename_i hn
    rw [List.nodup_append]
    refine ⟨h, List.nodup_singleton _, ?_⟩
    intro a ha hb
    simp at hb
    subst hb
    exact hn ha

theorem mem_setEntry_keys {α : Type} (l : List (String × α)) (key : String) (v : α)
    (k : String) : k ∈ (setEntry l key v).map Prod.fst ↔ k = key ∨ k ∈ l.map Prod.fst := by
  rw [setEntry_keys]
  split
  · rename_i h
    constructor
    · exact fun hk => Or.inr hk
    · rintro (hk | hk)
      · rw [hk]; exact h
      · exact hk
  · simp only [List.mem_append, List.mem_singleton]
    tauto

theorem lookupEntry_setEntry {α : Type} (l : List (String × α)) (key : String) (v : α)
    (k : String) :
    lookupEntry (setEntry l key v) k = if key = k then some v else lookupEntry l k := by
  induction l with
  | nil => simp [setEntry, lookupEntry]
  | cons e es ih =>
    obtain ⟨k0, w⟩ := e
    by_cases h0 : k0 = key
    · subst h0
      by_cases h1 : k0 = k <;> simp [setEntry, lookupEntry, h1]
    · by_cases h1 : k0 = k
      · subst h1
        have h0' : ¬ key = k0 := fun e => h0 e.symm
        simp [setEntry, lookupEntry, h0, h0']
      · simp [setEntry, lookupEntry, h0, h1, ih]

theorem lookupEntry_eq_none {α : Type} (l : List (String × α)) (k : String) :
    lookupEntry l k = none ↔ k ∉ l.map Prod.fst := by
  induction l with
  | nil => simp [lookupEntry]
  | cons e es ih =>
    obtain ⟨k0, w⟩ := e
    by_cases h0 : k0 = k
    · simp [lookupEntry, h0]
    · have h0' : ¬ k = k0 := fun e => h0 e.symm
      simp only [lookupEntry, h0, if_false, ih, List.map_cons, List.mem_cons, h0', false_or]

theorem lookupEntry_map_of_nodup {β : Type} (f : Param → β) (ps : List Param)
    (hn : (ps.map (·.Name)).Nodup) (p : Param) (hp : p ∈ ps) :
    lookupEntry (ps.map fun q => (q.Name, f q)) p.Name = some (f p) := by
  induction ps with
  | nil => simp at hp
  | cons q qs ih =>
    simp only [List.map_cons, List.nodup_cons] at hn
    rcases List.mem_cons.mp hp with rfl | hq
    · simp [lookupEntry]
    · have hne : ¬ q.Name = p.Name := by
        intro e
        exact hn.1 (by rw [e]; exact List.mem_map_of_mem _ hq)
      simp [lookupEntry, hne, ih hn.2 hq]

/-! ## `Defaults` -/

theorem defaultsStep_eq (docsOrTests : Bool) (values : GoMap Value) (p : Param) :
    defaultsStep docsOrTests values p =
      values.set p.Name (Value.str (defaultValueOf docsOrTests p)) := by
  unfold defaultsStep defaultValueOf
  by_cases ht : p.Test = "" <;> by_cases he : p.Example = "" <;> cases docsOrTests <;>
    simp [ht, he]

theorem foldl_defaultsStep_distinct (docsOrTests : Bool) (ps : List Param) :
    ∀ acc : GoMap Value, ((acc.keys ++ ps.map (·.Name))).Nodup →
      (ps.foldl (defaultsStep docsOrTests) acc).entries =
        acc.entries ++ ps.map fun p => (p.Name, Value.str (defaultValueOf docsOrTests p)) := by
  induction ps with
  | nil => intro acc _; simp
  | cons p ps ih =>
    intro acc hn
    have hp : p.Name ∉ acc.entries.map Prod.fst := by
      intro hmem
      rw [List.nodup_append] at hn
      exact hn.2.2 hmem (by simp)
    rw [List.foldl_cons, defaultsStep_eq, ih]
    · simp [GoMap.set, setEntry_not_mem _ _ _ hp]
    · simp only [GoMap.set, GoMap.keys, setEntry_not_mem _ _ _ hp]
      simpa [GoMap.keys] using hn

theorem Defaults_entries_of_distinct (t : Template) (docsOrTests : Bool)
    (hnames : (t.Params.map (·.Name)).Nodup) :
    (t.Defaults docsOrTests).entries =
      t.Params.map fun p => (p.Name, Value.str (defaultValueOf docsOrTests p)) := by
  have := foldl_defaultsStep_distinct docsOrTests t.Params GoMap.empty
    (by simpa [GoMap.empty, GoMap.keys] using hnames)
  simpa [Template.Defaults, GoMap.empty] using this

/-- C3: for every template with pairwise distinct parameter names and every
context flag, the key set of `Defaults` is exactly the set of declared
parameter names, and each parameter maps to its `Test` value if that is
non-empty, otherwise to its `Example` if the flag is set and the example is
non-empty, otherwise to its `Default` (possibly empty); with `Test` empty and
the flag unset the value is `Default`, whatever `Example` is. -/
theorem Defaults_of_distinct_names (t : Template) (docsOrTests : Bool)
    (hnames : (t.Params.map (·.Name)).Nodup) :
    (∀ k, k ∈ (t.Defaults docsOrTests).keys ↔ k ∈ t.Params.map (·.Name)) ∧
      (∀ p ∈ t.Params, (t.Defaults docsOrTests).get? p.Name =
        some (Value.str
          (if p.Test ≠ "" then p.Test
           else if docsOrTests = true ∧ p.Example ≠ "" then p.Example
           else p.Default))) ∧
      (∀ p ∈ t.Params, p.Test = "" → (t.Defaults false).get? p.Name = some (Value.str p.Default)) := by
  have hent := fun d => Defaults_entries_of_distinct t d hnames
  have hget : ∀ d, ∀ p ∈ t.Params,
      (t.Defaults d).get? p.Name = some (Value.str (defaultValueOf d p)) := by
    intro d p hp
    rw [GoMap.get?, hent d]
    exact lookupEntry_map_of_nodup (fun q => Value.str (defaultValueOf d q)) t.Params hnames p hp
  refine ⟨?_, ?_, ?_⟩
  · intro k
    simp [GoMap.keys, hent docsOrTests]
  · intro p hp
    exact hget docsOrTests p hp
  · intro p hp ht
    rw [hget false p hp]
    simp [defaultValueOf, ht]

/-- C3 at the two-parameter example: the doc/test context yields `t` and `e`,
the plain context `t` and `d`. -/
theorem Defaults_of_distinct_names_witness :
    (testExampleTemplate.Params.map (·.Name)).Nodup ∧
      ((∀ k, k ∈ (testExampleTemplate.Defaults true).keys ↔
          k ∈ testExampleTemplate.Params.map (·.Name)) ∧
        (∀ p ∈ testExampleTemplate.Params, (testExampleTemplate.Defaults true).get? p.Name =
          some (Value.str
            (if p.Test ≠ "" then p.Test
             else if true = true ∧ p.Example ≠ "" then p.Example
             else p.Default))) ∧
        (∀ p ∈ testExampleTemplate.Params, p.Test = "" →
          (testExampleTemplate.Defaults false).get? p.Name = some (Value.str p.Default))) ∧
      (testExampleTemplate.Defaults true).entries = [("a", Value.str "t"), ("b", Value.str "e")] ∧
      (testExampleTemplate.Defaults false).entries = [("a", Value.str "t"), ("b", Value.str "d")] :=
  ⟨by decide, Defaults_of_distinct_names testExampleTemplate true (by decide), by decide, by decide⟩

/-! ## Proxy rendering -/

theorem foldlM_writeValueStep (p : Param) (values : List (String × Value)) :
    ∀ q : Param, (∀ e ∈ values, e.2.asString?.isSome = true) → (values.map Prod.fst).Nodup →
      values.foldlM (writeValueStep p) q = some
        { q with Value := match lookupEntry values p.Name with
                          | some v => v.format
                          | none => q.Value } := by
  induction values with
  | nil => intro q _ _; simp [lookupEntry]
  | cons e es ih =>
    intro q hs hn
    obtain ⟨k, v⟩ := e
    obtain ⟨s, hv⟩ : ∃ s, v = Value.str s := by
      have := hs (k, v) (by simp)
      cases v <;> simp [Value.asString?] at this ⊢
    subst hv
    simp only [List.map_cons, List.nodup_cons] at hn
    have hs' : ∀ e ∈ es, e.2.asString?.isSome = true := fun e he => hs e (by simp [he])
    by_cases hk : p.Name = k
    · have hnone : lookupEntry es p.Name = none := by
        rw [lookupEntry_eq_none, hk]; exact hn.1
      simp only [List.foldlM_cons, writeValueStep, hk, if_true, Value.asString?, Option.map_some',
        Option.bind_eq_bind, Option.some_bind]
      rw [← hk, ih _ hs' hn.2, hnone]
      simp [lookupEntry, hk, Value.format]
    · have hk' : ¬ k = p.Name := fun e => hk e.symm
      simp only [List.foldlM_cons, writeValueStep, hk, if_false, Option.bind_eq_bind,
        Option.some_bind]
      rw [ih _ hs' hn.2]
      simp [lookupEntry, hk']

theorem writeValues_of_strings (values : GoMap Value) (params : List Param)
    (hs : values.AllStrings) (hw : values.WellFormed) :
    writeValues values params =
      some (params.map fun p => { p with Value := suppliedValue values p }) := by
  induction params with
  | nil => rfl
  | cons p ps ih =>
    simp only [writeValues, List.mapM_cons, writeValue, foldlM_writeValueStep p _ p hs hw,
      Option.bind_eq_bind, Option.some_bind] at ih ⊢
    rw [ih]
    simp [suppliedValue, GoMap.get?]

theorem foldl_keepStep (params acc : List Param) :
    params.foldl keepStep acc = acc ++ params.filter keptInProxy := by
  induction params generalizing acc with
  | nil => simp
  | cons p ps ih =>
    rw [List.foldl_cons, ih]
    by_cases h : keptInProxy p = true
    · have : ¬ (p.Value = "" ∧ p.Default = "" ∧ p.Example = "" ∧ ¬ p.Required = true) := by
        simp only [keptInProxy, decide_eq_true_eq] at h
        tauto
      rw [keepStep, if_neg this, List.filter_cons_of_pos h]
      simp
    · have : p.Value = "" ∧ p.Default = "" ∧ p.Example = "" ∧ ¬ p.Required = true := by
        simp only [keptInProxy, decide_eq_true_eq] at h
        tauto
      rw [keepStep, if_pos this, List.filter_cons_of_neg h]

theorem RenderProxyWithValues_returns (rt : Runtime) (t : Template) (values : GoMap Value)
    (includeDescription : Bool) (hs : values.AllStrings) (hw : values.WellFormed) :
    ∃ t1 out err, t.RenderProxyWithValues rt values includeDescription = some (t1, out, err) := by
  have hwritten := writeValues_of_strings values t.Params hs hw
  exact ⟨_, _, _, by
    simp only [Template.RenderProxyWithValues, proxyParams, hwritten, Option.map_some']; rfl⟩

/-- C4: proxy rendering's parameter filter. For every template and every
supplied map of string values, once the supplied values are written into the
same-named parameters, the parameters kept for rendering are exactly those
whose value, default or example is non-empty or that are marked required, in
their declaration order (each with its value quoted); these are the
`Params` handed to the template and left in `t`. -/
theorem RenderProxyWithValues_kept_params (rt : Runtime) (t : Template)
    (values : GoMap Value) (includeDescription : Bool)
    (hs : values.AllStrings) (hw : values.WellFormed) :
    writeValues values t.Params =
        some (t.Params.map fun p => { p with Value := suppliedValue values p }) ∧
      proxyParams rt values t.Params =
        some (((t.Params.map fun p => { p with Value := suppliedValue values p }).filter
          fun p => decide (p.Value ≠ "" ∨ p.Default ≠ "" ∨ p.Example ≠ "" ∨ p.Required = true)).map
            fun p => { p with Value := rt.yamlQuote p.Value }) ∧
      ∃ t1 out err,
        t.RenderProxyWithValues rt values includeDescription = some (t1, out, err) ∧
          proxyParams rt values t.Params = some t1.Params ∧
          (t1.Params.map (·.Name)).Sublist (t.Params.map (·.Name)) ∧
          ∀ name, name ∈ t1.Params.map (·.Name) ↔
            ∃ p ∈ t.Params, p.Name = name ∧
              (suppliedValue values p ≠ "" ∨ p.Default ≠ "" ∨ p.Example ≠ "" ∨ p.Required = true) := by
  have hwritten := writeValues_of_strings values t.Params hs hw
  have hproxy : proxyParams rt values t.Params =
      some (((t.Params.map fun p => { p with Value := suppliedValue values p }).filter
        keptInProxy).map fun p => { p with Value := rt.yamlQuote p.Value }) := by
    simp only [proxyParams, hwritten, Option.map_some', foldl_keepStep, List.nil_append]
  refine ⟨hwritten, hproxy, ?_⟩
  refine ⟨_, _, _, by simp only [Template.RenderProxyWithValues, hproxy, Option.map_some']; rfl,
    hproxy, ?_, ?_⟩
  · simp only [List.map_map]
    have : ((fun p : Param => p.Name) ∘ fun p : Param => { p with Value := rt.yamlQuote p.Value })
        = fun p => p.Name := rfl
    rw [this]
    have h2 : t.Params.map (·.Name) =
        (t.Params.map fun p => { p with Value := suppliedValue values p }).map (·.Name) := by
      simp [List.map_map, Function.comp]
    rw [h2]
    exact List.Sublist.map _ (List.filter_sublist _)
  · intro name
    simp only [List.mem_map, List.mem_filter, keptInProxy, decide_eq_true_eq]
    constructor
    · rintro ⟨_, ⟨q, ⟨⟨p, hp, rfl⟩, hk⟩, rfl⟩, rfl⟩
      exact ⟨p, hp, rfl, hk⟩
    · rintro ⟨p, hp, rfl, hk⟩
      exact ⟨_, ⟨_, ⟨⟨p, hp, rfl⟩, hk⟩, rfl⟩, rfl⟩

/-- C4 at the end-to-end example: of `host` (with an example) and `usage` (with
a choice only), without supplied values, exactly `host` is kept. -/
theorem RenderProxyWithValues_kept_params_witness :
    ((GoMap.empty : GoMap Value).AllStrings ∧ (GoMap.empty : GoMap Value).WellFormed) ∧
      proxyParams sampleRuntime GoMap.empty hostUsageTemplate.Params =
        some [ { Name := "host", Example := "192.0.2.2", Value := "''" } ] ∧
      (hostUsageTemplate.RenderProxyWithValues sampleRuntime GoMap.empty false).map
        (fun r => r.1.Params.map (·.Name)) = some ["host"] :=
  have hs : (GoMap.empty : GoMap Value).AllStrings := by decide
  have hw : (GoMap.empty : GoMap Value).WellFormed := by decide
  have h := RenderProxyWithValues_kept_params sampleRuntime hostUsageTemplate GoMap.empty false hs hw
  ⟨⟨hs, hw⟩, by rw [h.2.1]; decide, by
    obtain ⟨t1, out, err, h1, h2, -, -⟩ := h.2.2
    rw [h1]
    rw [h.2.1] at h2
    simp only [Option.map_some', Option.some.injEq] at h2 ⊢
    rw [← h2]
    decide⟩

/-! ## Result rendering -/

theorem setEntry_append_not_mem {α : Type} (l r : List (String × α)) (key : String) (v : α)
    (h : key ∉ l.map Prod.fst) : setEntry (l ++ r) key v = l ++ setEntry r key v := by
  induction l with
  | nil => rfl
  | cons e es ih =>
    obtain ⟨k, w⟩ := e
    simp only [List.map_cons, List.mem_cons, not_or] at h
    have hk : ¬ k = key := fun e => h.1 e.symm
    simp [setEntry, hk, ih h.2]

theorem lookupEntry_map_value {α β : Type} (f : α → β) (l : List (String × α)) (k : String) :
    lookupEntry (l.map fun e => (e.1, f e.2)) k = (lookupEntry l k).map f := by
  induction l with
  | nil => rfl
  | cons e es ih =>
    obtain ⟨k0, w⟩ := e
    by_cases h : k0 = k <;> simp [lookupEntry, h, ih]

theorem foldl_set_keys_nodup {α β : Type} (g : β → String × α) (l : List β) :
    ∀ m : GoMap α, m.WellFormed → (l.foldl (fun m x => m.set (g x).1 (g x).2) m).WellFormed := by
  induction l with
  | nil => intro m h; exact h
  | cons x xs ih =>
    intro m h
    exact ih _ (setEntry_keys_nodup _ _ _ h)

theorem mem_foldl_set_keys {α β : Type} (g : β → String × α) (l : List β) (k : String) :
    ∀ m : GoMap α, k ∈ (l.foldl (fun m x => m.set (g x).1 (g x).2) m).keys ↔
      k ∈ m.keys ∨ k ∈ l.map fun x => (g x).1 := by
  induction l with
  | nil => intro m; simp
  | cons x xs ih =>
    intro m
    rw [List.foldl_cons, ih]
    simp only [GoMap.keys, GoMap.set, mem_setEntry_keys, List.map_cons, List.mem_cons]
    tauto

theorem get?_foldl_set_of_nodup {α : Type} (l : List (String × α)) (k : String) :
    ∀ m : GoMap α, (l.map Prod.fst).Nodup →
      (l.foldl (fun m kv => m.set kv.1 kv.2) m).get? k =
        match lookupEntry l k with
        | some v => some v
        | none => m.get? k := by
  induction l with
  | nil => intro m _; simp [lookupEntry]
  | cons e es ih =>
    intro m hn
    obtain ⟨k0, w⟩ := e
    simp only [List.map_cons, List.nodup_cons] at hn
    rw [List.foldl_cons, ih _ hn.2]
    by_cases h : k0 = k
    · have hnone : lookupEntry es k = none := by
        rw [lookupEntry_eq_none, ← h]; exact hn.1
      simp [hnone, lookupEntry, h, GoMap.get?, GoMap.set, lookupEntry_setEntry]
    · cases hl : lookupEntry es k <;>
        simp [lookupEntry, h, GoMap.get?, GoMap.set, lookupEntry_setEntry, hl]

theorem quoteValues_loop (rt : Runtime) (todo : List (String × Value)) :
    ∀ done : List (String × Value), ((done ++ todo).map Prod.fst).Nodup →
      todo.foldl (fun m kv => m.set kv.1 (Value.str (rt.yamlQuote kv.2.format)))
          ({ entries := done ++ todo } : GoMap Value) =
        { entries := done ++ todo.map fun e => (e.1, Value.str (rt.yamlQuote e.2.format)) } := by
  induction todo with
  | nil => intro done _; simp
  | cons e es ih =>
    intro done hn
    obtain ⟨k, v⟩ := e
    have hk : k ∉ done.map Prod.fst := by
      intro hmem
      rw [List.map_append, List.nodup_append] at hn
      exact hn.2.2 hmem (by simp)
    have hstep : (({ entries := done ++ (k, v) :: es } : GoMap Value).set k
        (Value.str (rt.yamlQuote v.format))) =
        { entries := (done ++ [(k, Value.str (rt.yamlQuote v.format))]) ++ es } := by
      simp [GoMap.set, setEntry_append_not_mem _ _ _ _ hk, setEntry]
    rw [List.foldl_cons, hstep, ih _ (by simpa using hn)]
    simp

theorem quoteValues_entries (rt : Runtime) (values : GoMap Value) (hw : values.WellFormed) :
    (quoteValues rt values).entries =
      values.entries.map fun e => (e.1, Value.str (rt.yamlQuote e.2.format)) := by
  have := quoteValues_loop rt values.entries [] (by simpa using hw)
  simp only [List.nil_append] at this
  rw [quoteValues, this]

theorem defaultsStep_as_set (docsOrTests : Bool) (ps : List Param) (acc : GoMap Value) :
    ps.foldl (defaultsStep docsOrTests) acc =
      ps.foldl (fun m p => m.set ((fun p : Param =>
        (p.Name, Value.str (defaultValueOf docsOrTests p))) p).1 ((fun p : Param =>
        (p.Name, Value.str (defaultValueOf docsOrTests p))) p).2) acc := by
  induction ps generalizing acc with
  | nil => rfl
  | cons p ps ih => simp only [List.foldl_cons, defaultsStep_eq, ih]

theorem Defaults_wellFormed (t : Template) (docsOrTests : Bool) :
    (t.Defaults docsOrTests).WellFormed := by
  rw [Template.Defaults, defaultsStep_as_set]
  exact foldl_set_keys_nodup _ _ _ List.nodup_nil

theorem mem_Defaults_keys (t : Template) (docsOrTests : Bool) (k : String) :
    k ∈ (t.Defaults docsOrTests).keys ↔ k ∈ t.Params.map (·.Name) := by
  rw [Template.Defaults, defaultsStep_as_set, mem_foldl_set_keys]
  simp [GoMap.empty, GoMap.keys]

theorem ModbusChoices_of_no_modbus (t : Template)
    (h : ∀ p ∈ t.Params, p.Name ≠ ParamModbus) : t.ModbusChoices = [] := by
  have : ∀ ps : List Param, (∀ p ∈ ps, p.Name ≠ ParamModbus) →
      paramWithNameIn ps ParamModbus = none := by
    intro ps
    induction ps with
    | nil => intro _; rfl
    | cons q qs ih =>
      intro hq
      simp [paramWithNameIn, hq q (by simp), ih fun p hp => hq p (by simp [hp])]
  simp [Template.ModbusChoices, Template.paramWithName, this t.Params h]

theorem RenderResult_values_eq (rt : Runtime) (t : Template) (docs : Bool) (other : GoMap Value) :
    (t.RenderResult rt docs other).2.1 =
      quoteValues rt (t.ModbusValues rt
        (other.entries.foldl (fun m kv => m.set kv.1 kv.2) (t.Defaults docs))) := by
  simp only [Template.RenderResult, DecodeOther]
  cases rt.parse t.Render <;> rfl

/-- C5: result rendering's value map. For every template declaring no modbus
parameter, every context flag and every caller-supplied map `other`, the keys
of the value map returned by `RenderResult` are the parameter names together
with the keys of `other`; a key of `other` carries the quoted form of the
caller's value, and a parameter name absent from `other` carries the quoted
form of its `Defaults(docs)` value. -/
theorem RenderResult_value_map (rt : Runtime) (t : Template) (docs : Bool) (other : GoMap Value)
    (hmodbus : ∀ p ∈ t.Params, p.Name ≠ ParamModbus) (hother : other.WellFormed) :
    (∀ k, k ∈ (t.RenderResult rt docs other).2.1.keys ↔
        k ∈ t.Params.map (·.Name) ∨ k ∈ other.keys) ∧
      (∀ k v, other.get? k = some v →
        (t.RenderResult rt docs other).2.1.get? k = some (Value.str (rt.yamlQuote v.format))) ∧
      (∀ p ∈ t.Params, p.Name ∉ other.keys →
        ∃ d, (t.Defaults docs).get? p.Name = some d ∧
          (t.RenderResult rt docs other).2.1.get? p.Name =
            some (Value.str (rt.yamlQuote d.format))) := by
  have hnomod : ∀ values, t.ModbusValues rt values = values := by
    intro values
    simp [Template.ModbusValues, ModbusChoices_of_no_modbus t hmodbus]
  have hwf : (other.entries.foldl (fun m kv => m.set kv.1 kv.2) (t.Defaults docs)).WellFormed :=
    foldl_set_keys_nodup (fun kv : String × Value => kv) _ _ (Defaults_wellFormed t docs)
  have hget : ∀ k, (t.RenderResult rt docs other).2.1.get? k =
      ((other.entries.foldl (fun m kv => m.set kv.1 kv.2) (t.Defaults docs)).get? k).map
        fun v => Value.str (rt.yamlQuote v.format) := by
    intro k
    rw [RenderResult_values_eq, hnomod, GoMap.get?, quoteValues_entries rt _ hwf]
    exact lookupEntry_map_value (fun v : Value => Value.str (rt.yamlQuote v.format)) _ k
  refine ⟨?_, ?_, ?_⟩
  · intro k
    rw [RenderResult_values_eq, hnomod, GoMap.keys, quoteValues_entries rt _ hwf, List.map_map]
    have : (Prod.fst ∘ fun e : String × Value => (e.1, Value.str (rt.yamlQuote e.2.format)))
        = Prod.fst := rfl
    rw [this]
    have := mem_foldl_set_keys (fun kv : String × Value => kv) other.entries k (t.Defaults docs)
    rw [GoMap.keys] at this
    rw [this, mem_Defaults_keys]
    rfl
  · intro k v hk
    rw [hget, get?_foldl_set_of_nodup _ _ _ hother]
    rw [GoMap.get?] at hk
    simp [hk]
  · intro p hp hnot
    have hnone : lookupEntry other.entries p.Name = none := by
      rw [lookupEntry_eq_none]; exact hnot
    have hin : p.Name ∈ (t.Defaults docs).keys := by
      rw [mem_Defaults_keys]; exact List.mem_map_of_mem _ hp
    cases hd : (t.Defaults docs).get? p.Name with
    | none =>
      rw [GoMap.get?, lookupEntry_eq_none] at hd
      exact absurd hin hd
    | some d =>
      refine ⟨d, rfl, ?_⟩
      rw [hget, get?_foldl_set_of_nodup _ _ _ hother, hnone]
      simp [hd]

/-- C5 at the end-to-end example with a supplied `host` and `port`: the caller's
`host` wins, `usage` falls back to its default, `port` is added. -/
theorem RenderResult_value_map_witness :
    ((∀ p ∈ hostUsageTemplate.Params, p.Name ≠ ParamModbus) ∧
      (({ entries := [("host", Value.str "10.0.0.7"), ("port", Value.int 502)] } :
        GoMap Value)).WellFormed) ∧
      ((hostUsageTemplate.RenderResult sampleRuntime true
        { entries := [("host", Value.str "10.0.0.7"), ("port", Value.int 502)] }).2.1.get? "host" =
          some (Value.str (sampleRuntime.yamlQuote (Value.str "10.0.0.7").format))) ∧
      (hostUsageTemplate.RenderResult sampleRuntime true
        { entries := [("host", Value.str "10.0.0.7"), ("port", Value.int 502)] }).2.1 =
        { entries := [("host", Value.str "'10.0.0.7'"), ("usage", Value.str "''"),
            ("port", Value.str "'502'")] } :=
  ⟨⟨by decide, by decide⟩,
    (RenderResult_value_map sampleRuntime hostUsageTemplate true
      { entries := [("host", Value.str "10.0.0.7"), ("port", Value.int 502)] }
      (by decide) (by decide)).2.1 "host" (Value.str "10.0.0.7") (by decide),
    by decide⟩

/-! ## The template under proxy rendering -/

theorem foldlM_writeValueStep_Name (p : Param) (values : List (String × Value)) :
    ∀ q r : Param, values.foldlM (writeValueStep p) q = some r → r.Name = q.Name := by
  induction values with
  | nil =>
    intro q r h
    simp only [List.foldlM_nil, Option.pure_def, Option.some.injEq] at h
    rw [← h]
  | cons e es ih =>
    intro q r h
    simp only [List.foldlM_cons, Option.bind_eq_bind] at h
    cases hstep : writeValueStep p q e with
    | none => rw [hstep] at h; cases h
    | some q1 =>
      rw [hstep] at h
      simp only [Option.some_bind] at h
      rw [ih q1 r h]
      unfold writeValueStep at hstep
      split at hstep
      · cases hv : e.2.asString? with
        | none => rw [hv] at hstep; cases hstep
        | some s =>
          rw [hv] at hstep
          simp only [Option.map_some', Option.some.injEq] at hstep
          rw [← hstep]
      · cases hstep; rfl

theorem writeValues_names (values : GoMap Value) (params : List Param) :
    ∀ written, writeValues values params = some written →
      written.map (·.Name) = params.map (·.Name) := by
  induction params with
  | nil =>
    intro written h
    simp only [writeValues, List.mapM_nil, Option.pure_def, Option.some.injEq] at h
    rw [← h]
  | cons p ps ih =>
    intro written h
    simp only [writeValues, List.mapM_cons, Option.bind_eq_bind, Option.pure_def] at h ih
    cases h1 : writeValue values.entries p with
    | none => rw [h1] at h; cases h
    | some q =>
      rw [h1] at h
      simp only [Option.some_bind] at h
      cases h2 : List.mapM (writeValue values.entries) ps with
      | none => rw [h2] at h; cases h
      | some qs =>
        rw [h2] at h
        simp only [Option.some_bind, Option.some.injEq] at h
        rw [← h, List.map_cons, List.map_cons, ih qs h2]
        rw [foldlM_writeValueStep_Name p values.entries p q h1]

theorem proxyParams_names (rt : Runtime) (values : GoMap Value) (params kept : List Param)
    (h : proxyParams rt values params = some kept) :
    (kept.map (·.Name)).Sublist (params.map (·.Name)) := by
  unfold proxyParams at h
  cases hw : writeValues values params with
  | none => rw [hw] at h; cases h
  | some written =>
    rw [hw] at h
    simp only [Option.map_some', Option.some.injEq, foldl_keepStep, List.nil_append] at h
    rw [← h, ← writeValues_names values params written hw, List.map_map]
    have : ((fun p : Param => p.Name) ∘ fun p : Param => { p with Value := rt.yamlQuote p.Value })
        = fun p => p.Name := rfl
    rw [this]
    exact List.Sublist.map _ (List.filter_sublist _)

/-- C16 (as amended): `RenderProxyWithValues` changes the template. It changes
no field of the receiver other than `Params`, and replaces `Params` by the
kept-parameter list it renders: the entries as written in place, those without
value, default and example that are not required dropped, every value quoted;
the names left are a sublist of the names before. The array that held `Params`
before the call keeps every entry and every name, with the values written in
place. For a Go map of string values the value written into a parameter is the
value supplied under its name, if there is one, and the value it had
otherwise. -/
theorem RenderProxyWithValues_replaces_params (rt : Runtime) (t : Template)
    (values : GoMap Value) (includeDescription : Bool) (r : Template × String × Option Error)
    (h : t.RenderProxyWithValues rt values includeDescription = some r) :
    r.1 = { t with Params := r.1.Params } ∧
      proxyParams rt values t.Params = some r.1.Params ∧
      (r.1.Params.map (·.Name)).Sublist (t.Params.map (·.Name)) ∧
      (∃ written, t.paramsArrayAfterProxy values = some written ∧
        written.map (·.Name) = t.Params.map (·.Name) ∧
        r.1.Params =
          (written.filter fun p =>
            decide (p.Value ≠ "" ∨ p.Default ≠ "" ∨ p.Example ≠ "" ∨ p.Required = true)).map
              fun p => { p with Value := rt.yamlQuote p.Value }) ∧
      (values.AllStrings → values.WellFormed →
        t.paramsArrayAfterProxy values =
            some (t.Params.map fun p => { p with Value := suppliedValue values p }) ∧
          r.1.Params =
            ((t.Params.map fun p => { p with Value := suppliedValue values p }).filter fun p =>
              decide (p.Value ≠ "" ∨ p.Default ≠ "" ∨ p.Example ≠ "" ∨ p.Required = true)).map
                fun p => { p with Value := rt.yamlQuote p.Value }) := by
  unfold Template.RenderProxyWithValues at h
  cases hp : proxyParams rt values t.Params with
  | none => rw [hp] at h; cases h
  | some kept =>
    rw [hp] at h
    simp only [Option.map_some', Option.some.injEq] at h
    rw [← h]
    have hkept := hp
    unfold proxyParams at hkept
    cases hw : writeValues values t.Params with
    | none => rw [hw] at hkept; cases hkept
    | some written =>
      rw [hw] at hkept
      simp only [Option.map_some', Option.some.injEq, foldl_keepStep, List.nil_append] at hkept
      refine ⟨rfl, rfl, proxyParams_names rt values t.Params kept hp,
        ⟨written, hw, writeValues_names values t.Params written hw, hkept.symm⟩, ?_⟩
      intro hs hwf
      have hwritten := writeValues_of_strings values t.Params hs hwf
      rw [hw, Option.some.injEq] at hwritten
      subst hwritten
      exact ⟨hw, hkept.symm⟩

/-- The amended C16 at the end-to-end example with a supplied `host`: the
receiver is left with the single parameter `host`, the supplied value quoted,
and the array keeps `host`, with the supplied value unquoted, and `usage`. -/
theorem RenderProxyWithValues_replaces_params_witness :
    hostUsageTemplate.RenderProxyWithValues sampleRuntime suppliedHost false =
        some ({ Params := [ { Name := "host", Example := "192.0.2.2", Value := "'10.0.0.7'" } ] },
          "", none) ∧
      (suppliedHost.AllStrings ∧ suppliedHost.WellFormed) ∧
      hostUsageTemplate.paramsArrayAfterProxy suppliedHost =
        some [ { Name := "host", Example := "192.0.2.2", Value := "10.0.0.7" },
               { Name := "usage", Choice := ["grid"] } ] ∧
      (hostUsageTemplate.paramsArrayAfterProxy suppliedHost =
          some (hostUsageTemplate.Params.map fun p =>
            { p with Value := suppliedValue suppliedHost p }) ∧
        [ ({ Name := "host", Example := "192.0.2.2", Value := "'10.0.0.7'" } : Param) ] =
          ((hostUsageTemplate.Params.map fun p =>
              { p with Value := suppliedValue suppliedHost p }).filter fun p =>
            decide (p.Value ≠ "" ∨ p.Default ≠ "" ∨ p.Example ≠ "" ∨ p.Required = true)).map
              fun p => { p with Value := sampleRuntime.yamlQuote p.Value }) :=
  ⟨by decide, ⟨by decide, by decide⟩, by decide,
    (RenderProxyWithValues_replaces_params sampleRuntime hostUsageTemplate suppliedHost false
      ({ Params := [ { Name := "host", Example := "192.0.2.2", Value := "'10.0.0.7'" } ] }, "",
        none)
      (by decide)).2.2.2.2 (by decide) (by decide)⟩

/-- C16 as stated fails: after proxy rendering of the end-to-end example
without supplied values the template has lost its parameter `usage`, so its
`Params` are not what they were before the call; with a supplied `host` the
array that held `Params` has a changed `Value`; and rendering the template a
second time with the same values leaves other parameter values than the first
rendering. -/
theorem RenderProxyWithValues_mutates_counterexample :
    (hostUsageTemplate.RenderProxyWithValues sampleRuntime GoMap.empty false).map
        (fun r => r.1.Params.map (·.Name)) = some ["host"] ∧
      hostUsageTemplate.Params.map (·.Name) = ["host", "usage"] ∧
      ¬ ((hostUsageTemplate.RenderProxyWithValues sampleRuntime GoMap.empty false).map
        (fun r => r.1.Params) = some hostUsageTemplate.Params) ∧
      ¬ (hostUsageTemplate.paramsArrayAfterProxy suppliedHost = some hostUsageTemplate.Params) ∧
      ((hostUsageTemplate.RenderProxyWithValues sampleRuntime GoMap.empty false).bind
        fun r => (r.1.RenderProxyWithValues sampleRuntime GoMap.empty false).map
          fun r2 => (r.1.Params.map (·.Value), r2.1.Params.map (·.Value))) =
        some (["''"], ["''''"]) := by
  decide

/-! ## No base, usages and modbus choices -/

/-- C17: `ResolveParamBase` is a no-op without a base. For every template
whose `ParamsBase` is the empty string, and likewise when it names no known
base list, `ResolveParamBase` leaves `Params` and every other field of the
template unchanged. -/
theorem ResolveParamBase_without_base (t : Template)
    (h : t.ParamsBase = "" ∨ paramBases t.ParamsBase = none) :
    t.ResolveParamBase = t ∧ t.ResolveParamBase.Params = t.Params := by
  have : t.ResolveParamBase = t := by
    unfold Template.ResolveParamBase
    rcases h with h | h
    · rw [if_pos h]
    · split
      · rfl
      · rw [h]
  exact ⟨this, by rw [this]⟩

/-- C17 at a template without a base and at one naming an unknown base. -/
theorem ResolveParamBase_without_base_witness :
    (hostUsageTemplate.ParamsBase = "" ∨ paramBases hostUsageTemplate.ParamsBase = none) ∧
      (hostUsageTemplate.ResolveParamBase = hostUsageTemplate ∧
        hostUsageTemplate.ResolveParamBase.Params = hostUsageTemplate.Params) ∧
      (unknownBaseTemplate.ParamsBase ≠ "" ∧ paramBases unknownBaseTemplate.ParamsBase = none) ∧
      unknownBaseTemplate.ResolveParamBase = unknownBaseTemplate :=
  ⟨Or.inl (by decide), ResolveParamBase_without_base hostUsageTemplate (Or.inl (by decide)),
    ⟨by decide, by decide⟩,
    (ResolveParamBase_without_base unknownBaseTemplate (Or.inr (by decide))).1⟩

theorem paramWithNameIn_find (params : List Param) (name : String) :
    (paramWithNameIn params name).map (·.2) = params.find? (fun p => p.Name = name) := by
  induction params with
  | nil => rfl
  | cons p ps ih =>
    by_cases h : p.Name = name
    · simp [paramWithNameIn, List.find?, h]
    · simp only [paramWithNameIn, h, if_false, Option.map_map, List.find?, decide_False]
      rw [← ih]
      cases paramWithNameIn ps name <;> rfl

theorem paramWithNameIn_choice (params : List Param) (name : String) :
    (match paramWithNameIn params name with
      | some (_, p) => p.Choice
      | none => []) =
    (match params.find? (fun p => p.Name = name) with
      | some p => p.Choice
      | none => []) := by
  rw [← paramWithNameIn_find]
  cases paramWithNameIn params name <;> rfl

/-- C18: `Usages` and `ModbusChoices`. For every template, `Usages()` returns
the `Choice` list of the first parameter named "usage" and `ModbusChoices()`
that of the first parameter named "modbus"; each returns an empty result when
the template declares no parameter of that name. -/
theorem Usages_ModbusChoices (t : Template) :
    t.Usages =
        (match t.Params.find? (fun p => p.Name = "usage") with
          | some p => p.Choice
          | none => []) ∧
      t.ModbusChoices =
        (match t.Params.find? (fun p => p.Name = "modbus") with
          | some p => p.Choice
          | none => []) ∧
      ((∀ p ∈ t.Params, p.Name ≠ "usage") → t.Usages = []) ∧
      ((∀ p ∈ t.Params, p.Name ≠ "modbus") → t.ModbusChoices = []) ∧
      (∀ pre p post, t.Params = pre ++ p :: post → p.Name = "usage" →
        (∀ q ∈ pre, q.Name ≠ "usage") → t.Usages = p.Choice) ∧
      (∀ pre p post, t.Params = pre ++ p :: post → p.Name = "modbus" →
        (∀ q ∈ pre, q.Name ≠ "modbus") → t.ModbusChoices = p.Choice) := by
  have hu : t.Usages = (match t.Params.find? (fun p => p.Name = "usage") with
      | some p => p.Choice
      | none => []) := paramWithNameIn_choice t.Params ParamUsage
  have hm : t.ModbusChoices = (match t.Params.find? (fun p => p.Name = "modbus") with
      | some p => p.Choice
      | none => []) := paramWithNameIn_choice t.Params ParamModbus
  have hnone : ∀ name : String, (∀ p ∈ t.Params, p.Name ≠ name) →
      t.Params.find? (fun p => p.Name = name) = none := by
    intro name h
    rw [List.find?_eq_none]
    intro p hp
    simpa using h p hp
  have hfirst : ∀ (name : String) (pre : List Param) (p : Param) (post : List Param),
      t.Params = pre ++ p :: post → p.Name = name → (∀ q ∈ pre, q.Name ≠ name) →
      t.Params.find? (fun p => p.Name = name) = some p := by
    intro name pre p post hs hp hpre
    rw [hs]
    clear hs
    induction pre with
    | nil => simp [List.find?, hp]
    | cons q qs ih =>
      have hq : ¬ q.Name = name := hpre q (by simp)
      simp only [List.cons_append, List.find?, hq, decide_False]
      exact ih (fun r hr => hpre r (by simp [hr]))
  refine ⟨hu, hm, ?_, ?_, ?_, ?_⟩
  · intro h; rw [hu, hnone "usage" h]
  · intro h; rw [hm, hnone "modbus" h]
  · intro pre p post hs hp hpre; rw [hu, hfirst "usage" pre p post hs hp hpre]
  · intro pre p post hs hp hpre; rw [hm, hfirst "modbus" pre p post hs hp hpre]

/-- C18 at the end-to-end example, which declares `usage` and no `modbus`. -/
theorem Usages_ModbusChoices_witness :
    hostUsageTemplate.Usages = ["grid"] ∧ hostUsageTemplate.ModbusChoices = [] ∧
      ((∀ p ∈ hostUsageTemplate.Params, p.Name ≠ "modbus") ∧
        hostUsageTemplate.ModbusChoices = []) :=
  ⟨by decide, by decide, by decide,
    (Usages_ModbusChoices hostUsageTemplate).2.2.2.1 (by decide)⟩

end Templates

namespace Configure

open Templates

/-! ## The log-level set -/

/-- No empty entry and no duplicate in the log-level list. -/
theorem AddLogLevel_invariant (c : Configure.Configure) (name : String)
    (h : "" ∉ c.config.LogLevels ∧ c.config.LogLevels.Nodup) :
    "" ∉ (c.AddLogLevel name).config.LogLevels ∧ (c.AddLogLevel name).config.LogLevels.Nodup := by
  unfold Configure.AddLogLevel
  split
  · exact h
  · rename_i hn
    simp only [not_or] at hn
    refine ⟨?_, ?_⟩
    · simp only [List.mem_append, List.mem_singleton, not_or]
      exact ⟨h.1, fun e => hn.1 e.symm⟩
    · rw [List.nodup_append]
      refine ⟨h.2, List.nodup_singleton _, ?_⟩
      intro a ha hb
      simp at hb
      subst hb
      exact hn.2 ha

theorem AddLogLevel_leading (c : Configure.Configure) (name : String) :
    c.config.LogLevels <+: (c.AddLogLevel name).config.LogLevels := by
  unfold Configure.AddLogLevel
  split
  · exact List.prefix_refl _
  · exact List.prefix_append _ _

theorem AddLogLevel_EEBUS (c : Configure.Configure) (name : String) :
    (c.AddLogLevel name).config.EEBUS = c.config.EEBUS := by
  unfold Configure.AddLogLevel
  split <;> rfl

/-- The log-level list after a call, in terms of `AddLogLevel` alone. -/
theorem apply_LogLevels (D : Declarations) (c : Configure.Configure) (call : SessionCall) :
    ∃ names : List String,
      (call.apply D c).config.LogLevels = (names.foldl Configure.AddLogLevel c).config.LogLevels := by
  cases call with
  | addLogLevel name => exact ⟨[name], rfl⟩
  | addDevice d category =>
    simp only [SessionCall.apply, Configure.AddDevice]
    cases (D.DeviceCategories category).class_ with
    | Charger =>
      by_cases he : (c.AddLogLevel d.LogLevel).config.EEBUS = ""
      · exact ⟨[d.LogLevel], by simp [he]⟩
      · exact ⟨[d.LogLevel, "eebus"], by simp [he]⟩
    | Meter =>
      refine ⟨[d.LogLevel], ?_⟩
      simp only [List.foldl]
      split
      · rfl
      · split
        · rfl
        · split <;> rfl
    | Vehicle => exact ⟨[d.LogLevel], rfl⟩
    | Other => exact ⟨[], rfl⟩
  | addLoadpoint l =>
    refine ⟨["lp-" ++ toString (1 + ((c.config.Loadpoints ++ [l]).length : Int))], ?_⟩
    simp only [SessionCall.apply, Configure.AddLoadpoint, List.foldl]
    unfold Configure.AddLogLevel
    split <;> rfl

theorem foldl_AddLogLevel_invariant (names : List String) (c : Configure.Configure)
    (h : "" ∉ c.config.LogLevels ∧ c.config.LogLevels.Nodup) :
    "" ∉ (names.foldl Configure.AddLogLevel c).config.LogLevels ∧
      (names.foldl Configure.AddLogLevel c).config.LogLevels.Nodup := by
  induction names generalizing c with
  | nil => exact h
  | cons n ns ih => exact ih _ (AddLogLevel_invariant c n h)

theorem foldl_AddLogLevel_leading (names : List String) (c : Configure.Configure) :
    c.config.LogLevels <+: (names.foldl Configure.AddLogLevel c).config.LogLevels := by
  induction names generalizing c with
  | nil => exact List.prefix_refl _
  | cons n ns ih => exact (AddLogLevel_leading c n).trans (ih _)

theorem apply_invariant (D : Declarations) (c : Configure.Configure) (call : SessionCall)
    (h : "" ∉ c.config.LogLevels ∧ c.config.LogLevels.Nodup) :
    "" ∉ (call.apply D c).config.LogLevels ∧ (call.apply D c).config.LogLevels.Nodup := by
  obtain ⟨names, hn⟩ := apply_LogLevels D c call
  rw [hn]
  exact foldl_AddLogLevel_invariant names c h

theorem apply_leading (D : Declarations) (c : Configure.Configure) (call : SessionCall) :
    c.config.LogLevels <+: (call.apply D c).config.LogLevels := by
  obtain ⟨names, hn⟩ := apply_LogLevels D c call
  rw [hn]
  exact foldl_AddLogLevel_leading names c

theorem runCalls_invariant (D : Declarations) (calls : List SessionCall)
    (c : Configure.Configure) (h : "" ∉ c.config.LogLevels ∧ c.config.LogLevels.Nodup) :
    "" ∉ (runCalls D calls c).config.LogLevels ∧ (runCalls D calls c).config.LogLevels.Nodup := by
  induction calls generalizing c with
  | nil => exact h
  | cons call calls ih => exact ih _ (apply_invariant D c call h)

theorem runCalls_append (D : Declarations) (xs ys : List SessionCall) (c : Configure.Configure) :
    runCalls D (xs ++ ys) c = runCalls D ys (runCalls D xs c) := by
  simp [runCalls, List.foldl_append]

theorem runCalls_leading (D : Declarations) (calls : List SessionCall) (c : Configure.Configure) :
    c.config.LogLevels <+: (runCalls D calls c).config.LogLevels := by
  induction calls generalizing c with
  | nil => exact List.prefix_refl _
  | cons call calls ih => exact (apply_leading D c call).trans (ih _)

/-- C10: the log-level set. Starting from an empty session, after any sequence
of `AddLogLevel`, `AddDevice` and `AddLoadpoint` calls the list `LogLevels`
holds no empty string and no duplicate; every further call keeps the list as
a leading part of the new one, and a new name goes to the end, so the entries
stand in the order of their first addition; `AddLogLevel` of the empty string
or of a name already present changes nothing. Two devices sharing one log
level leave exactly one entry. -/
theorem LogLevels_set_invariant (D : Declarations) (calls : List SessionCall) :
    "" ∉ (runCalls D calls {}).config.LogLevels ∧
      (runCalls D calls {}).config.LogLevels.Nodup ∧
      (∀ more : List SessionCall,
        (runCalls D calls {}).config.LogLevels <+:
          (runCalls D (calls ++ more) {}).config.LogLevels) ∧
      (∀ name, name = "" ∨ name ∈ (runCalls D calls {}).config.LogLevels →
        (runCalls D calls {}).AddLogLevel name = runCalls D calls {}) ∧
      (∀ name, name ≠ "" → name ∉ (runCalls D calls {}).config.LogLevels →
        ((runCalls D calls {}).AddLogLevel name).config.LogLevels =
          (runCalls D calls {}).config.LogLevels ++ [name]) ∧
      (runCalls sampleDeclarations
        [SessionCall.addDevice { Name := "charger1", LogLevel := "easee" } "wallbox",
         SessionCall.addDevice { Name := "charger2", LogLevel := "easee" } "wallbox"]
        {}).config.LogLevels = ["easee"] := by
  have hinv := runCalls_invariant D calls {} ⟨by simp, List.nodup_nil⟩
  refine ⟨hinv.1, hinv.2, ?_, ?_, ?_, by decide⟩
  · intro more
    rw [runCalls_append]
    exact runCalls_leading D more _
  · intro name hname
    rw [Configure.AddLogLevel, if_pos hname]
  · intro name h1 h2
    rw [Configure.AddLogLevel, if_neg (by simp only [not_or]; exact ⟨h1, h2⟩)]

/-! ## Bus-interface expansion -/

theorem processConfigLoop_single {σ : Type} (D : Declarations) (io : Collaborators σ)
    (c : CmdConfigure) (w : σ) (p : Param) (deviceCategory : DeviceCategory)
    (includeAdvanced : Bool) (hname : p.Name = ParamModbus) :
    processConfigLoop D io c w [p] deviceCategory includeAdvanced =
      processModbusParam io p
        { additionalConfig := GoMap.empty, selectedModbusKey := "", world := w } := by
  simp [processConfigLoop, processConfigStep, hname]

theorem modbusChoiceStep_keys (choice : List String) :
    ∀ acc : List String × List String,
      (∀ k ∈ acc.2, k = ModbusKeyRS485Serial ∨ k = ModbusKeyRS485TCPIP ∨ k = ModbusKeyTCPIP) →
      ∀ k ∈ (choice.foldl modbusChoiceStep acc).2,
        k = ModbusKeyRS485Serial ∨ k = ModbusKeyRS485TCPIP ∨ k = ModbusKeyTCPIP := by
  induction choice with
  | nil => intro acc h; exact h
  | cons x xs ih =>
    intro acc h
    apply ih
    intro k hk
    unfold modbusChoiceStep at hk
    split at hk
    · simp only [List.append_assoc, List.mem_append, List.mem_singleton] at hk
      rcases hk with hk | hk | hk
      · exact h k hk
      · exact Or.inl hk
      · exact Or.inr (Or.inl hk)
    · split at hk
      · simp only [List.mem_append, List.mem_singleton] at hk
        rcases hk with hk | hk
        · exact h k hk
        · exact Or.inr (Or.inr hk)
      · exact h k hk

theorem choiceKeyAt_mem (choiceKeys : List String) (index : Int) (key : String)
    (h : choiceKeyAt choiceKeys index = some key) : key ∈ choiceKeys := by
  unfold choiceKeyAt at h
  split at h
  · exact List.getElem?_mem h
  · cases h

theorem processModbusParam_keys {σ : Type} (io : Collaborators σ) (p : Param) (w : σ)
    (st : ConfigState σ)
    (h : processModbusParam io p
      { additionalConfig := GoMap.empty, selectedModbusKey := "", world := w } = some st) :
    (st.selectedModbusKey = ModbusKeyRS485Serial ∧
        st.additionalConfig.keys = ["id", "device", "baudrate", "comset"]) ∨
      (st.selectedModbusKey = ModbusKeyTCPIP ∧
        st.additionalConfig.keys = ["id", "host", "port"]) ∨
      (st.selectedModbusKey = ModbusKeyRS485TCPIP ∧
        st.additionalConfig.keys = ["id", "rtu", "host", "port"] ∧
          st.additionalConfig.get? "rtu" = some (Value.str "true")) ∨
      (st.selectedModbusKey = "" ∧ st.additionalConfig.keys = []) := by
  unfold processModbusParam at h
  simp only at h
  split at h
  · split at h
    · cases h
    · rename_i key hkey
      have hmem := modbusChoiceStep_keys p.Choice ([], []) (by simp) key
        (choiceKeyAt_mem _ _ _ hkey)
      split at h
      · cases h
        rename_i hser
        left
        subst hser
        simp [GoMap.keys, GoMap.set, GoMap.empty, setEntry, ModbusParamNameId,
          ModbusParamNameDevice, ModbusParamNameBaudrate, ModbusParamNameComset]
      · rename_i hnser
        rcases hmem with hk | hk | hk
        · exact absurd hk hnser
        · right; right; left
          subst hk
          simp only [ModbusKeyRS485TCPIP, ModbusKeyTCPIP, true_or, if_true] at h
          cases h
          simp [GoMap.keys, GoMap.set, GoMap.empty, GoMap.get?, setEntry, lookupEntry,
            ModbusParamNameId, ModbusParamNameRTU, ModbusParamNameHost, ModbusParamNamePort,
            ModbusKeyRS485TCPIP]
        · right; left
          subst hk
          simp only [ModbusKeyRS485TCPIP, ModbusKeyTCPIP, or_true, if_true] at h
          simp only [show ¬ ("tcpip" = "rs485tcpip") by decide, if_false] at h
          cases h
          simp [GoMap.keys, GoMap.set, GoMap.empty, setEntry,
            ModbusParamNameId, ModbusParamNameHost, ModbusParamNamePort, ModbusKeyTCPIP]
  · cases h
    right; right; right
    simp [GoMap.keys, GoMap.empty]

/-- C6: bus-interface expansion. For a parameter list holding one modbus
parameter, the key set of the map returned by `processConfig` is fixed by the
chosen variant alone: `rs485serial` gives exactly id, device, baudrate and
comset; `tcpip` exactly id, host and port; `rs485tcpip` exactly id, host,
port and rtu, with rtu set to "true". No key of another variant appears and
id is present for all three. -/
theorem processConfig_modbus_key_set {σ : Type} (D : Declarations) (io : Collaborators σ)
    (c : CmdConfigure) (w : σ) (p : Param) (deviceCategory : DeviceCategory)
    (includeAdvanced : Bool) (key : String) (hname : p.Name = ParamModbus)
    (hkey : (processConfigLoop D io c w [p] deviceCategory includeAdvanced).map
      (·.selectedModbusKey) = some key) :
    ∃ m w1, processConfig D io c w [p] deviceCategory includeAdvanced = some (m, w1) ∧
      m.WellFormed ∧
      (key = ModbusKeyRS485Serial → ∀ k, k ∈ m.keys ↔
        k ∈ [ModbusParamNameId, ModbusParamNameDevice, ModbusParamNameBaudrate,
          ModbusParamNameComset]) ∧
      (key = ModbusKeyTCPIP → ∀ k, k ∈ m.keys ↔
        k ∈ [ModbusParamNameId, ModbusParamNameHost, ModbusParamNamePort]) ∧
      (key = ModbusKeyRS485TCPIP →
        (∀ k, k ∈ m.keys ↔
          k ∈ [ModbusParamNameId, ModbusParamNameHost, ModbusParamNamePort, ModbusParamNameRTU]) ∧
        m.get? ModbusParamNameRTU = some (Value.str "true")) ∧
      (key = ModbusKeyRS485Serial ∨ key = ModbusKeyTCPIP ∨ key = ModbusKeyRS485TCPIP →
        ModbusParamNameId ∈ m.keys) := by
  cases hloop : processConfigLoop D io c w [p] deviceCategory includeAdvanced with
  | none => rw [hloop] at hkey; cases hkey
  | some st =>
    rw [hloop] at hkey
    simp only [Option.map_some', Option.some.injEq] at hkey
    have hkeys := processModbusParam_keys io p w st
      (by rw [← processConfigLoop_single D io c w p deviceCategory includeAdvanced hname]; exact hloop)
    refine ⟨st.additionalConfig, st.world, by simp [processConfig, hloop], ?_⟩
    rw [hkey] at hkeys
    simp only [ModbusKeyRS485Serial, ModbusKeyTCPIP, ModbusKeyRS485TCPIP, ModbusParamNameId,
      ModbusParamNameDevice, ModbusParamNameBaudrate, ModbusParamNameComset,
      ModbusParamNameHost, ModbusParamNamePort, ModbusParamNameRTU, GoMap.WellFormed] at hkeys ⊢
    rcases hkeys with ⟨hk, hm⟩ | ⟨hk, hm⟩ | ⟨hk, hm, hr⟩ | ⟨hk, hm⟩ <;> subst hk <;>
      simp [hm]
    exact ⟨fun k => by tauto, hr⟩

/-- C6 at a parameter offering both choices: the three answers of the operator
give the three key sets. -/
theorem processConfig_modbus_key_set_witness :
    (modbusParam.Name = ParamModbus ∧
      (processConfigLoop sampleDeclarations scriptedOperator {} { choices := [0] } [modbusParam]
        "grid" false).map (·.selectedModbusKey) = some ModbusKeyRS485Serial) ∧
    (processConfig sampleDeclarations scriptedOperator {} { choices := [0] } [modbusParam]
        "grid" false).map (fun r => r.1.entries) =
      some [("id", Value.str "1"), ("device", Value.str "/dev/ttyUSB0"),
        ("baudrate", Value.str "9600"), ("comset", Value.str "8N1")] ∧
    (processConfig sampleDeclarations scriptedOperator {} { choices := [1] } [modbusParam]
        "grid" false).map (fun r => r.1.entries) =
      some [("id", Value.str "1"), ("rtu", Value.str "true"), ("host", Value.str "192.0.2.2"),
        ("port", Value.str "502")] ∧
    (processConfig sampleDeclarations scriptedOperator {} { choices := [2] } [modbusParam]
        "grid" false).map (fun r => r.1.entries) =
      some [("id", Value.str "1"), ("host", Value.str "192.0.2.2"), ("port", Value.str "502")] ∧
    ∃ m w1, processConfig sampleDeclarations scriptedOperator {} { choices := [0] } [modbusParam]
        "grid" false = some (m, w1) ∧ ModbusParamNameId ∈ m.keys :=
  ⟨⟨by decide, by decide⟩, by decide, by decide, by decide,
    (processConfig_modbus_key_set sampleDeclarations scriptedOperator {} { choices := [0] }
      modbusParam "grid" false ModbusKeyRS485Serial (by decide) (by decide)).elim
      fun m h => h.elim fun w1 h => ⟨m, w1, h.1, h.2.2.2.2.2 (Or.inl rfl)⟩⟩

/-! ## Serial defaults -/

/-- C7 (the code at a failing input): for a modbus parameter that overrides
only the framing (`Comset` "8E1", `Baudrate` 0), the code offers the baud
rate default 0 and the framing default "8N1", where the parameter's own
framing and the constant 9600 are expected. In general the framing default is
always the package constant, and a non-empty `Comset` makes the baud rate
default the parameter's `Baudrate`, zero or not. -/
theorem deviceDefaults_comset_override :
    deviceDefaults modbusComsetParam = (0, "8N1") ∧
      (processConfigLoop sampleDeclarations scriptedOperator {} { choices := [0] }
          [modbusComsetParam] "grid" false).map
        (fun st => st.world.asked.map fun q => (q.label, q.defaultValue)) =
        some [("ID", some (Value.int 1)), ("Device", none), ("Baudrate", some (Value.int 0)),
          ("ComSet", some (Value.str "8N1"))] ∧
      ∀ p : Param, deviceDefaults p =
        (if p.Comset ≠ "" then p.Baudrate
         else if p.Baudrate ≠ 0 then p.Baudrate else ModbusParamValueBaudrate,
         ModbusParamValueComset) := by
  refine ⟨by decide, by decide, ?_⟩
  intro p
  unfold deviceDefaults
  by_cases hc : p.Comset = "" <;> by_cases hb : p.Baudrate = 0 <;> simp [hc, hb]

/-! ## Ordinals -/

theorem wrapInt_of_range (x : Int) (h1 : MinInt ≤ x) (h2 : x ≤ MaxInt) : wrapInt x = x := by
  unfold MinInt at h1
  unfold MaxInt at h2
  unfold wrapInt
  omega

theorem wrapInt_pred_succ (x : Int) : wrapInt (wrapInt (x + 1) - 1) = wrapInt x := by
  unfold wrapInt
  omega

theorem wrapInt_succ_MaxInt : wrapInt (MaxInt + 1) = MinInt := by
  decide

theorem renderDevice_ordinal {σ : Type} (rt : Runtime) (c : CmdConfigure) (w : σ)
    (values : GoMap Value) (templateItem : Templates.Template) (dev : Configure.device)
    (out : DeviceOutcome σ) (h : renderDevice rt c w values templateItem dev = some out) :
    (out.err ≠ none → out.cmd.addedDeviceIndex = wrapInt (c.addedDeviceIndex - 1)) ∧
      (out.err = none → out.cmd.addedDeviceIndex = c.addedDeviceIndex ∧
        out.device.Name = dev.Name) := by
  unfold renderDevice at h
  simp only at h
  repeat' split at h
  all_goals first
    | (cases h; done)
    | (cases h; simp)

theorem processDeviceValues_commit_rollback {σ : Type} (D : Declarations) (io : Collaborators σ)
    (rt : Runtime) (c : CmdConfigure) (w : σ) (values : GoMap Value)
    (templateItem : Templates.Template) (dev : Configure.device)
    (deviceCategory : DeviceCategory) (out : DeviceOutcome σ)
    (h : processDeviceValues D io rt c w values templateItem dev deviceCategory = some out) :
    (out.err ≠ none → out.cmd.addedDeviceIndex = wrapInt c.addedDeviceIndex) ∧
      (out.err = none → out.cmd.addedDeviceIndex = wrapInt (c.addedDeviceIndex + 1) ∧
        out.device.Name = (D.DeviceCategories deviceCategory).defaultName ++
          toString (wrapInt (c.addedDeviceIndex + 1))) := by
  unfold processDeviceValues at h
  simp only at h
  repeat' split at h
  all_goals first
    | (cases h; done)
    | (cases h; simp [wrapInt_pred_succ])
    | simpa [wrapInt_pred_succ] using renderDevice_ordinal rt _ _ _ _ _ out h

theorem foldlM_titleStep_isSome (rt : Runtime) (entries : List (String × Value))
    (hs : ∀ e ∈ entries, e.2.asString?.isSome = true) :
    ∀ title : String, (entries.foldlM (titleStep rt) title).isSome = true := by
  induction entries with
  | nil => intro title; rfl
  | cons e es ih =>
    intro title
    obtain ⟨k, v⟩ := e
    obtain ⟨s, hv⟩ : ∃ s, v = Value.str s := by
      have := hs (k, v) (by simp)
      cases v <;> simp [Value.asString?] at this ⊢
    subst hv
    have hs' : ∀ e ∈ es, e.2.asString?.isSome = true := fun e he => hs e (by simp [he])
    simp only [List.foldlM_cons, titleStep, Value.asString?]
    split
    · exact ih hs' title
    · split
      · exact ih hs' s
      · exact ih hs' title

theorem renderDevice_isSome {σ : Type} (rt : Runtime) (c : CmdConfigure) (w : σ)
    (values : GoMap Value) (templateItem : Templates.Template) (dev : Configure.device)
    (hs : values.AllStrings) (hw : values.WellFormed) :
    (renderDevice rt c w values templateItem dev).isSome = true := by
  unfold renderDevice
  simp only
  split
  · have hwr : Template.paramsArrayAfterProxy
        { templateItem with
          Params := templateItem.Params ++ [{ Name := "name", Value := dev.Name }] } values =
        some _ := Templates.writeValues_of_strings values _ hs hw
    have h := (Templates.RenderProxyWithValues_returns rt
      { templateItem with Params := templateItem.Params ++ [{ Name := "name", Value := dev.Name }] }
      values false hs hw)
    obtain ⟨t1, out, err, h1⟩ := h
    rw [hwr]
    simp only
    rw [h1]
    cases err <;> rfl
  · split <;> rfl

theorem processDeviceValues_isSome {σ : Type} (D : Declarations) (io : Collaborators σ)
    (rt : Runtime) (c : CmdConfigure) (w : σ) (values : GoMap Value)
    (templateItem : Templates.Template) (dev : Configure.device)
    (deviceCategory : DeviceCategory) (hs : values.AllStrings) (hw : values.WellFormed) :
    (processDeviceValues D io rt c w values templateItem dev deviceCategory).isSome = true := by
  unfold processDeviceValues
  simp only
  have ht := foldlM_titleStep_isSome rt values.entries hs templateItem.Description
  cases htitle : values.entries.foldlM (titleStep rt) templateItem.Description with
  | none => rw [htitle] at ht; cases ht
  | some title =>
    simp only
    repeat' split
    all_goals first
      | rfl
      | exact renderDevice_isSome rt _ _ values templateItem _ hs hw

/-- C8 (as amended): ordinal commit and rollback in `processDeviceValues`. For
every starting value of the counter (a Go `int`, between `MinInt` and
`MaxInt`), category, template, value map, test outcome and operator answer:
when the call returns an error (the operator declined the forced accept after
a failed test, or rendering failed) `addedDeviceIndex` is the starting value
again; when it returns without error and the starting value is below `MaxInt`,
the counter is the starting value plus one and the device is named by the
category's default name followed by that decimal number; at `MaxInt` the
increment wraps, the counter is `MinInt` and the device is named by the
default name followed by `MinInt`. For a Go map of string values the call
returns, it does not panic. -/
theorem processDeviceValues_ordinal {σ : Type} (D : Declarations) (io : Collaborators σ)
    (rt : Runtime) (c : CmdConfigure) (w : σ) (values : GoMap Value)
    (templateItem : Templates.Template) (dev : Configure.device)
    (deviceCategory : DeviceCategory)
    (hint : MinInt ≤ c.addedDeviceIndex ∧ c.addedDeviceIndex ≤ MaxInt) :
    (values.AllStrings → values.WellFormed →
        (processDeviceValues D io rt c w values templateItem dev deviceCategory).isSome = true) ∧
      ∀ out, processDeviceValues D io rt c w values templateItem dev deviceCategory = some out →
        (out.err ≠ none → out.cmd.addedDeviceIndex = c.addedDeviceIndex) ∧
        (out.err = none → c.addedDeviceIndex < MaxInt →
          out.cmd.addedDeviceIndex = c.addedDeviceIndex + 1 ∧
            out.device.Name = (D.DeviceCategories deviceCategory).defaultName ++
              toString (c.addedDeviceIndex + 1)) ∧
        (out.err = none → c.addedDeviceIndex = MaxInt →
          out.cmd.addedDeviceIndex = MinInt ∧
            out.device.Name = (D.DeviceCategories deviceCategory).defaultName ++
              toString MinInt) := by
  refine ⟨processDeviceValues_isSome D io rt c w values templateItem dev deviceCategory, ?_⟩
  intro out h
  obtain ⟨herr, hok⟩ :=
    processDeviceValues_commit_rollback D io rt c w values templateItem dev deviceCategory out h
  refine ⟨?_, ?_, ?_⟩
  · intro he
    rw [herr he, wrapInt_of_range _ hint.1 hint.2]
  · intro he hlt
    have hw : wrapInt (c.addedDeviceIndex + 1) = c.addedDeviceIndex + 1 := by
      apply wrapInt_of_range
      · have := hint.1
        unfold MinInt at this ⊢
        omega
      · unfold MaxInt at hlt ⊢
        omega
    rw [← hw]
    exact hok he
  · intro he hmax
    have hw : wrapInt (c.addedDeviceIndex + 1) = MinInt := by
      rw [hmax]
      exact wrapInt_succ_MaxInt
    rw [← hw]
    exact hok he

/-- The amended C8 at counter 4: an accepted charger is `charger5` and leaves
the counter at 5; a declined one and a render failure leave it at 4. -/
theorem processDeviceValues_ordinal_witness :
    (MinInt ≤ cmdAtFour.addedDeviceIndex ∧ cmdAtFour.addedDeviceIndex ≤ MaxInt) ∧
      (chargerValues.AllStrings ∧ chargerValues.WellFormed) ∧
      (processDeviceValues sampleDeclarations scriptedOperator sampleRuntime cmdAtFour
          { tests := [("Valid", none)] } chargerValues chargerTemplate {} "wallbox").isSome = true ∧
      (processDeviceValues sampleDeclarations scriptedOperator sampleRuntime cmdAtFour
          { tests := [("Valid", none)] } chargerValues chargerTemplate {} "wallbox").map
        (fun o => (o.err, o.cmd.addedDeviceIndex, o.device.Name)) =
          some (none, 5, "charger5") ∧
      (processDeviceValues sampleDeclarations scriptedOperator sampleRuntime cmdAtFour
          { tests := [("", some "timeout")], answers := [false] } chargerValues chargerTemplate {}
          "wallbox").map (fun o => (o.err, o.cmd.addedDeviceIndex)) =
          some (some "not valid", 4) ∧
      (processDeviceValues sampleDeclarations scriptedOperator failingRuntime cmdAtFour
          { tests := [("Valid", none)] } chargerValues chargerTemplate {} "wallbox").map
        (fun o => (o.err, o.cmd.addedDeviceIndex)) =
          some (some "template: execution failed", 4) :=
  ⟨by decide, ⟨by decide, by decide⟩,
    (processDeviceValues_ordinal sampleDeclarations scriptedOperator sampleRuntime cmdAtFour
      { tests := [("Valid", none)] } chargerValues chargerTemplate {} "wallbox" (by decide)).1
      (by decide) (by decide),
    by decide, by decide, by decide⟩

/-- C8 as stated fails at the largest counter value: an accepted charger
leaves the counter at `MinInt`, not at the starting value plus one, and is
named `charger-9223372036854775808`, not by the decimal of the starting value
plus one. -/
theorem processDeviceValues_ordinal_counterexample :
    cmdAtMaxInt.addedDeviceIndex = 9223372036854775807 ∧
      (processDeviceValues sampleDeclarations scriptedOperator sampleRuntime cmdAtMaxInt
          { tests := [("Valid", none)] } chargerValues chargerTemplate {} "wallbox").map
        (fun o => (o.err, o.cmd.addedDeviceIndex, o.device.Name)) =
          some (none, -9223372036854775808, "charger-9223372036854775808") ∧
      ¬ ((processDeviceValues sampleDeclarations scriptedOperator sampleRuntime cmdAtMaxInt
          { tests := [("Valid", none)] } chargerValues chargerTemplate {} "wallbox").map
        (fun o => (o.cmd.addedDeviceIndex, o.device.Name)) =
          some (cmdAtMaxInt.addedDeviceIndex + 1,
            "charger" ++ toString (cmdAtMaxInt.addedDeviceIndex + 1))) := by
  decide

/-! ## Decimal formatting of ordinals -/

theorem digitValue_digitChar (d : Nat) (h : d < 10) : digitValue (Nat.digitChar d) = d := by
  interval_cases d <;> rfl

theorem toDigitsCore_decimal (fuel : Nat) :
    ∀ (n : Nat) (ds : List Char), n < fuel →
      ∃ pre, Nat.toDigitsCore 10 fuel n ds = pre ++ ds ∧ decimalValue pre = n := by
  induction fuel with
  | zero => intro n ds h; omega
  | succ fuel ih =>
    intro n ds h
    unfold Nat.toDigitsCore
    simp only
    split
    · rename_i h0
      refine ⟨[Nat.digitChar (n % 10)], rfl, ?_⟩
      simp only [decimalValue, List.foldl, Nat.mul_zero, Nat.zero_add]
      rw [digitValue_digitChar _ (Nat.mod_lt _ (by decide))]
      omega
    · rename_i h0
      obtain ⟨pre, hpre, hval⟩ := ih (n / 10) (Nat.digitChar (n % 10) :: ds) (by omega)
      refine ⟨pre ++ [Nat.digitChar (n % 10)], by simp [hpre], ?_⟩
      unfold decimalValue at hval ⊢
      rw [List.foldl_append, hval]
      simp only [List.foldl]
      rw [digitValue_digitChar _ (Nat.mod_lt _ (by decide))]
      omega

theorem decimalValue_repr (n : Nat) : decimalValue (Nat.repr n).data = n := by
  obtain ⟨pre, hpre, hval⟩ := toDigitsCore_decimal (n + 1) n [] (by omega)
  simp only [Nat.repr, Nat.toDigits, hpre, List.append_nil, List.asString]
  exact hval

theorem toString_ordinal_injective (a b : Nat)
    (h : toString ((a : Int) + 1) = toString ((b : Int) + 1)) : a = b := by
  have ha : toString ((a : Int) + 1) = Nat.repr (a + 1) := rfl
  have hb : toString ((b : Int) + 1) = Nat.repr (b + 1) := rfl
  rw [ha, hb] at h
  have := congrArg (fun s => decimalValue s.data) h
  simp only [decimalValue_repr] at this
  omega

theorem append_left_cancel (s a b : String) (h : s ++ a = s ++ b) : a = b := by
  have := congrArg String.data h
  simp only [String.data_append] at this
  exact String.ext (List.append_cancel_left this)

/-! ## Runs of attempts -/

theorem runAttempts_names {σ : Type} (D : Declarations) (io : Collaborators σ) (rt : Runtime)
    (deviceCategory : DeviceCategory) (attempts : List Attempt) :
    ∀ (c : CmdConfigure) (w : σ) (r : List Configure.device × CmdConfigure × σ),
      runAttempts D io rt deviceCategory attempts c w = some r →
      0 ≤ c.addedDeviceIndex → c.addedDeviceIndex + (r.1.length : Int) ≤ MaxInt →
      r.1.map (·.Name) = (List.range r.1.length).map (fun i =>
        (D.DeviceCategories deviceCategory).defaultName ++
          toString (c.addedDeviceIndex + ((i : Nat) : Int) + 1)) ∧
      r.2.1.addedDeviceIndex = c.addedDeviceIndex + (r.1.length : Int) := by
  induction attempts with
  | nil =>
    intro c w r h _ _
    simp only [runAttempts, Option.some.injEq] at h
    subst h
    simp
  | cons a rest ih =>
    intro c w r h h0 hmax
    unfold runAttempts at h
    split at h
    · cases h
    · rename_i out hout
      split at h
      · cases h
      · rename_i r1 hr1
        simp only [Option.some.injEq] at h
        subst h
        have haux := processDeviceValues_commit_rollback D io rt c w a.values a.templateItem
          a.device deviceCategory out hout
        by_cases he : out.err = none
        · simp only [he, if_true, List.singleton_append, List.length_cons, Nat.cast_add,
            Nat.cast_one] at hmax
          have hwrap : wrapInt (c.addedDeviceIndex + 1) = c.addedDeviceIndex + 1 := by
            apply wrapInt_of_range
            · unfold MinInt
              omega
            · omega
          obtain ⟨hidx, hname⟩ := haux.2 he
          rw [hwrap] at hidx hname
          have hrest := ih out.cmd out.world r1 hr1 (by rw [hidx]; omega) (by rw [hidx]; omega)
          simp only [he, if_true, List.singleton_append, List.map_cons, List.length_cons]
          refine ⟨?_, ?_⟩
          · rw [List.range_succ_eq_map, List.map_cons, List.map_map, hrest.1, hidx, hname]
            congr 1
            · simp
            · apply List.map_congr_left
              intro i _
              simp only [Function.comp, Nat.succ_eq_add_one, Nat.cast_add, Nat.cast_one]
              congr 2
              ring
          · rw [hrest.2, hidx]
            push_cast
            ring
        · simp only [he, if_false, List.nil_append] at hmax ⊢
          have hidx : out.cmd.addedDeviceIndex = c.addedDeviceIndex := by
            rw [haux.1 he]
            apply wrapInt_of_range
            · unfold MinInt
              omega
            · omega
          have hrest := ih out.cmd out.world r1 hr1 (by rw [hidx]; exact h0)
            (by rw [hidx]; exact hmax)
          rw [hidx] at hrest
          exact hrest

theorem runAttempts_isSome {σ : Type} (D : Declarations) (io : Collaborators σ) (rt : Runtime)
    (deviceCategory : DeviceCategory) (attempts : List Attempt)
    (hs : ∀ a ∈ attempts, a.values.AllStrings ∧ a.values.WellFormed) :
    ∀ (c : CmdConfigure) (w : σ),
      (runAttempts D io rt deviceCategory attempts c w).isSome = true := by
  induction attempts with
  | nil => intro c w; rfl
  | cons a rest ih =>
    intro c w
    have ha := hs a (by simp)
    have h1 := processDeviceValues_isSome D io rt c w a.values a.templateItem a.device
      deviceCategory ha.1 ha.2
    unfold runAttempts
    cases hout : processDeviceValues D io rt c w a.values a.templateItem a.device
        deviceCategory with
    | none => rw [hout] at h1; cases h1
    | some out =>
      simp only
      have h2 := ih (fun a ha => hs a (by simp [ha])) out.cmd out.world
      cases hr : runAttempts D io rt deviceCategory rest out.cmd out.world with
      | none => rw [hr] at h2; cases h2
      | some r => rfl

/-- C9: contiguous naming over a whole run. For every finite sequence of
`processDeviceValues` attempts of one category starting from counter 0,
whatever the mix of accepted, declined and render-failed attempts, the
accepted devices taken in order (their number within the range of the
counter, at most `MaxInt`) are named by the default name followed by 1, 2, up
to their number, without gap, no name occurs twice, and the counter ends at
that number; the run returns for Go maps of string values. -/
theorem accepted_names_contiguous {σ : Type} (D : Declarations) (io : Collaborators σ)
    (rt : Runtime) (deviceCategory : DeviceCategory) (attempts : List Attempt)
    (c : CmdConfigure) (w : σ) (hstart : c.addedDeviceIndex = 0) :
    ((∀ a ∈ attempts, a.values.AllStrings ∧ a.values.WellFormed) →
        (runAttempts D io rt deviceCategory attempts c w).isSome = true) ∧
      ∀ accepted c1 w1,
        runAttempts D io rt deviceCategory attempts c w = some (accepted, c1, w1) →
        (accepted.length : Int) ≤ MaxInt →
        accepted.map (·.Name) = (List.range accepted.length).map (fun i =>
          (D.DeviceCategories deviceCategory).defaultName ++ toString (((i : Nat) : Int) + 1)) ∧
        (accepted.map (·.Name)).Nodup ∧
        c1.addedDeviceIndex = (accepted.length : Int) := by
  refine ⟨fun hs => runAttempts_isSome D io rt deviceCategory attempts hs c w, ?_⟩
  intro accepted c1 w1 h hmax
  have hrun := runAttempts_names D io rt deviceCategory attempts c w _ h
    (by rw [hstart]) (by rw [hstart]; simpa using hmax)
  have hnames : accepted.map (·.Name) = (List.range accepted.length).map (fun i =>
      (D.DeviceCategories deviceCategory).defaultName ++ toString (((i : Nat) : Int) + 1)) := by
    simpa [hstart] using hrun.1
  refine ⟨hnames, ?_, by simpa [hstart] using hrun.2⟩
  rw [hnames]
  apply List.Nodup.map _ (List.nodup_range _)
  intro a b hab
  exact toString_ordinal_injective a b (append_left_cancel _ _ _ hab)

/-- C9 at three charger attempts, the second declined after a failed test: the
accepted names are `charger1` and `charger2`. -/
theorem accepted_names_contiguous_witness :
    cmdFresh.addedDeviceIndex = 0 ∧
      (∀ a ∈ threeChargerAttempts, a.values.AllStrings ∧ a.values.WellFormed) ∧
      (runAttempts sampleDeclarations scriptedOperator sampleRuntime "wallbox"
          threeChargerAttempts cmdFresh
          { tests := [("Valid", none), ("", some "timeout"), ("Valid", none)],
            answers := [false] }).isSome = true ∧
      (runAttempts sampleDeclarations scriptedOperator sampleRuntime "wallbox"
          threeChargerAttempts cmdFresh
          { tests := [("Valid", none), ("", some "timeout"), ("Valid", none)],
            answers := [false] }).map (fun r => (r.1.map (·.Name), r.2.1.addedDeviceIndex)) =
        some (["charger1", "charger2"], 2) :=
  ⟨by decide, by decide,
    (accepted_names_contiguous sampleDeclarations scriptedOperator sampleRuntime "wallbox"
      threeChargerAttempts cmdFresh
      { tests := [("Valid", none), ("", some "timeout"), ("Valid", none)], answers := [false] }
      (by decide)).1 (by decide),
    by decide⟩

/-! ## Buckets and site references -/

theorem AddLogLevel_fields (c : Configure.Configure) (name : String) :
    (c.AddLogLevel name).config.Meters = c.config.Meters ∧
      (c.AddLogLevel name).config.Chargers = c.config.Chargers ∧
      (c.AddLogLevel name).config.Vehicles = c.config.Vehicles ∧
      (c.AddLogLevel name).config.Loadpoints = c.config.Loadpoints ∧
      (c.AddLogLevel name).config.Site = c.config.Site ∧
      (c.AddLogLevel name).config.Hems = c.config.Hems ∧
      (c.AddLogLevel name).config.SponsorToken = c.config.SponsorToken := by
  unfold Configure.AddLogLevel
  split <;> simp

theorem AddDevice_charger (D : Declarations) (c : Configure.Configure) (d : device)
    (category : DeviceCategory) (h : (D.DeviceCategories category).class_ = DeviceClass.Charger) :
    (c.AddDevice D d category).config.Chargers = c.config.Chargers ++ [d] ∧
      (c.AddDevice D d category).config.Meters = c.config.Meters ∧
      (c.AddDevice D d category).config.Vehicles = c.config.Vehicles ∧
      (c.AddDevice D d category).config.Loadpoints = c.config.Loadpoints ∧
      (c.AddDevice D d category).config.Site = c.config.Site := by
  have h1 := AddLogLevel_fields c d.LogLevel
  have h2 := AddLogLevel_fields (c.AddLogLevel d.LogLevel) "eebus"
  simp only [Configure.AddDevice, h]
  split <;> simp [h1, h2]

theorem AddDevice_vehicle (D : Declarations) (c : Configure.Configure) (d : device)
    (category : DeviceCategory) (h : (D.DeviceCategories category).class_ = DeviceClass.Vehicle) :
    (c.AddDevice D d category).config.Vehicles = c.config.Vehicles ++ [d] ∧
      (c.AddDevice D d category).config.Meters = c.config.Meters ∧
      (c.AddDevice D d category).config.Chargers = c.config.Chargers ∧
      (c.AddDevice D d category).config.Loadpoints = c.config.Loadpoints ∧
      (c.AddDevice D d category).config.Site = c.config.Site := by
  have h1 := AddLogLevel_fields c d.LogLevel
  simp [Configure.AddDevice, h, h1]

theorem AddDevice_meter (D : Declarations) (c : Configure.Configure) (d : device)
    (category : DeviceCategory) (h : (D.DeviceCategories category).class_ = DeviceClass.Meter) :
    (c.AddDevice D d category).config.Meters = c.config.Meters ++ [d] ∧
      (c.AddDevice D d category).config.Chargers = c.config.Chargers ∧
      (c.AddDevice D d category).config.Vehicles = c.config.Vehicles ∧
      (c.AddDevice D d category).config.Loadpoints = c.config.Loadpoints ∧
      (c.AddDevice D d category).config.Site =
        (if (D.DeviceCategories category).categoryFilter = D.DeviceCategoryGridMeter then
          { c.config.Site with Grid := d.Name }
        else if (D.DeviceCategories category).categoryFilter = D.DeviceCategoryPVMeter then
          { c.config.Site with PVs := c.config.Site.PVs ++ [d.Name] }
        else if (D.DeviceCategories category).categoryFilter = D.DeviceCategoryBatteryMeter then
          { c.config.Site with Batteries := c.config.Site.Batteries ++ [d.Name] }
        else c.config.Site) := by
  have h1 := AddLogLevel_fields c d.LogLevel
  simp only [Configure.AddDevice, h]
  split
  · simp [h1]
  · split
    · simp [h1]
    · split <;> simp [h1]

/-- C11: `AddDevice` bucketing. For every session, device and category (the
three meter category constants being pairwise distinct), `AddDevice` appends
the device at the end of the bucket of the category's class and leaves the
other two buckets and the loadpoints unchanged. For a meter it sets
`Site.Grid` to the device name when the usage filter is grid, appends the
name at the end of `Site.PVs` for pv or of `Site.Batteries` for battery, and
changes no other site reference; for chargers and vehicles the site is
unchanged. -/
theorem AddDevice_buckets (D : Declarations) (c : Configure.Configure) (d : device)
    (category : DeviceCategory)
    (hdistinct : D.DeviceCategoryGridMeter ≠ D.DeviceCategoryPVMeter ∧
      D.DeviceCategoryGridMeter ≠ D.DeviceCategoryBatteryMeter ∧
      D.DeviceCategoryPVMeter ≠ D.DeviceCategoryBatteryMeter) :
    (c.AddDevice D d category).config.Loadpoints = c.config.Loadpoints ∧
      ((D.DeviceCategories category).class_ = DeviceClass.Charger →
        (c.AddDevice D d category).config.Chargers = c.config.Chargers ++ [d] ∧
        (c.AddDevice D d category).config.Meters = c.config.Meters ∧
        (c.AddDevice D d category).config.Vehicles = c.config.Vehicles ∧
        (c.AddDevice D d category).config.Site = c.config.Site) ∧
      ((D.DeviceCategories category).class_ = DeviceClass.Vehicle →
        (c.AddDevice D d category).config.Vehicles = c.config.Vehicles ++ [d] ∧
        (c.AddDevice D d category).config.Meters = c.config.Meters ∧
        (c.AddDevice D d category).config.Chargers = c.config.Chargers ∧
        (c.AddDevice D d category).config.Site = c.config.Site) ∧
      ((D.DeviceCategories category).class_ = DeviceClass.Meter →
        (c.AddDevice D d category).config.Meters = c.config.Meters ++ [d] ∧
        (c.AddDevice D d category).config.Chargers = c.config.Chargers ∧
        (c.AddDevice D d category).config.Vehicles = c.config.Vehicles ∧
        (c.AddDevice D d category).config.Site.Title = c.config.Site.Title ∧
        ((D.DeviceCategories category).categoryFilter = D.DeviceCategoryGridMeter →
          (c.AddDevice D d category).config.Site = { c.config.Site with Grid := d.Name }) ∧
        ((D.DeviceCategories category).categoryFilter = D.DeviceCategoryPVMeter →
          (c.AddDevice D d category).config.Site =
            { c.config.Site with PVs := c.config.Site.PVs ++ [d.Name] }) ∧
        ((D.DeviceCategories category).categoryFilter = D.DeviceCategoryBatteryMeter →
          (c.AddDevice D d category).config.Site =
            { c.config.Site with Batteries := c.config.Site.Batteries ++ [d.Name] }) ∧
        ((D.DeviceCategories category).categoryFilter ≠ D.DeviceCategoryGridMeter →
          (D.DeviceCategories category).categoryFilter ≠ D.DeviceCategoryPVMeter →
          (D.DeviceCategories category).categoryFilter ≠ D.DeviceCategoryBatteryMeter →
          (c.AddDevice D d category).config.Site = c.config.Site)) := by
  obtain ⟨hgp, hgb, hpb⟩ := hdistinct
  refine ⟨?_, ?_, ?_, ?_⟩
  · cases hc : (D.DeviceCategories category).class_ with
    | Charger => exact (AddDevice_charger D c d category hc).2.2.2.1
    | Meter => exact (AddDevice_meter D c d category hc).2.2.2.1
    | Vehicle => exact (AddDevice_vehicle D c d category hc).2.2.2.1
    | Other => simp [Configure.AddDevice, hc]
  · intro hc
    have h := AddDevice_charger D c d category hc
    exact ⟨h.1, h.2.1, h.2.2.1, h.2.2.2.2⟩
  · intro hc
    have h := AddDevice_vehicle D c d category hc
    exact ⟨h.1, h.2.1, h.2.2.1, h.2.2.2.2⟩
  · intro hc
    have h := AddDevice_meter D c d category hc
    refine ⟨h.1, h.2.1, h.2.2.1, ?_, ?_, ?_, ?_, ?_⟩
    · rw [h.2.2.2.2]
      split
      · rfl
      · split
        · rfl
        · split <;> rfl
    · intro hf
      rw [h.2.2.2.2, if_pos hf]
    · intro hf
      rw [h.2.2.2.2, if_neg (by rw [hf]; exact fun e => hgp e.symm), if_pos hf]
    · intro hf
      rw [h.2.2.2.2, if_neg (by rw [hf]; exact fun e => hgb e.symm),
        if_neg (by rw [hf]; exact fun e => hpb e.symm), if_pos hf]
    · intro h1 h2 h3
      rw [h.2.2.2.2, if_neg h1, if_neg h2, if_neg h3]

/-- C11 at a second grid meter added to a session that already has one: it
joins the meters and replaces the grid reference. -/
theorem AddDevice_buckets_witness :
    (sampleDeclarations.DeviceCategoryGridMeter ≠ sampleDeclarations.DeviceCategoryPVMeter ∧
      sampleDeclarations.DeviceCategoryGridMeter ≠ sampleDeclarations.DeviceCategoryBatteryMeter ∧
      sampleDeclarations.DeviceCategoryPVMeter ≠ sampleDeclarations.DeviceCategoryBatteryMeter) ∧
    (Configure.AddDevice sampleDeclarations
        { config := { Meters := [{ Name := "grid1" }], Site := { Grid := "grid1" } } }
        { Name := "grid2" } "grid").config.Loadpoints = [] ∧
    (Configure.AddDevice sampleDeclarations
        { config := { Meters := [{ Name := "grid1" }], Site := { Grid := "grid1" } } }
        { Name := "grid2" } "grid").config =
      { Meters := [{ Name := "grid1" }, { Name := "grid2" }], Site := { Grid := "grid2" } } :=
  ⟨by decide,
    (AddDevice_buckets sampleDeclarations
      { config := { Meters := [{ Name := "grid1" }], Site := { Grid := "grid1" } } }
      { Name := "grid2" } "grid" (by decide)).1,
    by decide⟩

/-! ## Value collection -/

theorem processConfigStep_plain {σ : Type} (D : Declarations) (io : Collaborators σ)
    (c : CmdConfigure) (deviceCategory : DeviceCategory) (includeAdvanced : Bool)
    (st : ConfigState σ) (param : Param) (h : param.Name ≠ ParamModbus) :
    processConfigStep D io c deviceCategory includeAdvanced st param =
      some (collectStep D io c deviceCategory includeAdvanced st param) := by
  unfold processConfigStep collectStep
  simp only [h, if_false]
  by_cases hu : param.Name = ParamUsage
  · simp only [hu, ne_eq, not_true_eq_false, if_false, if_true]
    split <;> rfl
  · simp only [hu, ne_eq, not_false_eq_true, if_true, if_false, askedParam, true_and]
    cases hadv : includeAdvanced <;> cases hp : param.Advanced <;> simp [paramQuestion]

theorem processConfigLoop_plain {σ : Type} (D : Declarations) (io : Collaborators σ)
    (c : CmdConfigure) (deviceCategory : DeviceCategory) (includeAdvanced : Bool)
    (params : List Param) (h : ∀ p ∈ params, p.Name ≠ ParamModbus) :
    ∀ st : ConfigState σ,
      params.foldlM (processConfigStep D io c deviceCategory includeAdvanced) st =
        some (params.foldl (collectStep D io c deviceCategory includeAdvanced) st) := by
  induction params with
  | nil => intro st; rfl
  | cons p ps ih =>
    intro st
    rw [List.foldlM_cons, processConfigStep_plain D io c deviceCategory includeAdvanced st p
      (h p (by simp))]
    simp only [Option.bind_eq_bind, Option.some_bind, List.foldl_cons]
    exact ih (fun q hq => h q (by simp [hq])) _

theorem collectStep_world {σ : Type} (D : Declarations) (io : Collaborators σ)
    (c : CmdConfigure) (deviceCategory : DeviceCategory) (includeAdvanced : Bool)
    (params : List Param) :
    ∀ st : ConfigState σ,
      (params.foldl (collectStep D io c deviceCategory includeAdvanced) st).world =
        worldAfterAsking io c includeAdvanced params st.world := by
  induction params with
  | nil => intro st; rfl
  | cons p ps ih =>
    intro st
    rw [List.foldl_cons, ih]
    unfold worldAfterAsking
    by_cases ha : askedParam includeAdvanced p = true
    · have hu : ¬ p.Name = ParamUsage := by
        simp only [askedParam, decide_eq_true_eq] at ha
        exact ha.1
      rw [List.filter_cons_of_pos ha, List.foldl_cons]
      simp [collectStep, hu, ha]
    · rw [List.filter_cons_of_neg ha]
      congr 1
      unfold collectStep
      simp only [ha]
      split
      · split <;> rfl
      · rfl

/-- The keys written by value collection over `params`. -/
theorem collectStep_keys {σ : Type} (D : Declarations) (io : Collaborators σ)
    (c : CmdConfigure) (deviceCategory : DeviceCategory) (includeAdvanced : Bool)
    (params : List Param) (k : String) :
    ∀ st : ConfigState σ,
      k ∈ (params.foldl (collectStep D io c deviceCategory includeAdvanced)
          st).additionalConfig.keys ↔
        k ∈ st.additionalConfig.keys ∨
          (∃ p ∈ params, p.Name = k ∧ p.Name ≠ ParamUsage ∧
            (p.Advanced = false ∨ includeAdvanced = true)) ∨
          (k = ParamUsage ∧ (∃ p ∈ params, p.Name = ParamUsage) ∧
            (D.DeviceCategories deviceCategory).categoryFilter ≠ "") := by
  induction params with
  | nil => intro st; simp
  | cons p ps ih =>
    intro st
    rw [List.foldl_cons, ih]
    have hstep : k ∈ (collectStep D io c deviceCategory includeAdvanced st p).additionalConfig.keys ↔
        k ∈ st.additionalConfig.keys ∨
          (p.Name = k ∧ p.Name ≠ ParamUsage ∧ (p.Advanced = false ∨ includeAdvanced = true)) ∨
          (k = ParamUsage ∧ p.Name = ParamUsage ∧
            (D.DeviceCategories deviceCategory).categoryFilter ≠ "") := by
      unfold collectStep
      by_cases hu : p.Name = ParamUsage
      · by_cases hf : (D.DeviceCategories deviceCategory).categoryFilter = ""
        · simp [hu, hf]
        · simp only [hu, hf, ne_eq, not_false_eq_true, if_true, GoMap.keys, GoMap.set,
            mem_setEntry_keys, not_true_eq_false, false_and, and_false, and_true, false_or]
          constructor
          · rintro (h | h)
            · exact Or.inr h
            · exact Or.inl h
          · rintro (h | h)
            · exact Or.inr h
            · exact Or.inl h
      · by_cases ha : askedParam includeAdvanced p = true
        · have ha' := ha
          simp only [askedParam, decide_eq_true_eq] at ha'
          simp only [hu, ha, if_false, if_true, GoMap.keys, GoMap.set, mem_setEntry_keys]
          constructor
          · rintro (h | h)
            · exact Or.inr (Or.inl ⟨h.symm, ha'⟩)
            · exact Or.inl h
          · rintro (h | h | h)
            · exact Or.inr h
            · exact Or.inl h.1.symm
            · exact h.2.1.elim
        · have ha' : ¬ (p.Name ≠ ParamUsage ∧ (p.Advanced = false ∨ includeAdvanced = true)) := by
            simpa [askedParam] using ha
          simp only [hu, ha, if_false]
          constructor
          · exact fun h => Or.inl h
          · rintro (h | h | h)
            · exact h
            · exact absurd h.2 ha'
            · exact h.2.1.elim
    rw [hstep]
    constructor
    · rintro ((h | h | h) | ⟨q, hq, h⟩ | ⟨h1, ⟨q, hq, h2⟩, h3⟩)
      · exact Or.inl h
      · exact Or.inr (Or.inl ⟨p, by simp, h⟩)
      · exact Or.inr (Or.inr ⟨h.1, ⟨p, by simp, h.2.1⟩, h.2.2⟩)
      · exact Or.inr (Or.inl ⟨q, by simp [hq], h⟩)
      · exact Or.inr (Or.inr ⟨h1, ⟨q, by simp [hq], h2⟩, h3⟩)
    · rintro (h | ⟨q, hq, h⟩ | ⟨h1, ⟨q, hq, h2⟩, h3⟩)
      · exact Or.inl (Or.inl h)
      · rcases List.mem_cons.mp hq with rfl | hq
        · exact Or.inl (Or.inr (Or.inl h))
        · exact Or.inr (Or.inl ⟨q, hq, h⟩)
      · rcases List.mem_cons.mp hq with rfl | hq
        · exact Or.inl (Or.inr (Or.inr ⟨h1, h2, h3⟩))
        · exact Or.inr (Or.inr ⟨h1, ⟨q, hq, h2⟩, h3⟩)

theorem collectStep_get?_of_ne {σ : Type} (D : Declarations) (io : Collaborators σ)
    (c : CmdConfigure) (deviceCategory : DeviceCategory) (includeAdvanced : Bool)
    (params : List Param) (k : String) (hk : k ∉ params.map (·.Name)) :
    ∀ st : ConfigState σ,
      (params.foldl (collectStep D io c deviceCategory includeAdvanced)
          st).additionalConfig.get? k = st.additionalConfig.get? k := by
  induction params with
  | nil => intro st; rfl
  | cons p ps ih =>
    intro st
    simp only [List.map_cons, List.mem_cons, not_or] at hk
    rw [List.foldl_cons, ih hk.2]
    have hne : ¬ p.Name = k := fun e => hk.1 e.symm
    unfold collectStep
    simp only
    split
    · split
      · simp [GoMap.get?, GoMap.set, lookupEntry_setEntry, hne]
      · rfl
    · split
      · simp [GoMap.get?, GoMap.set, lookupEntry_setEntry, hne]
      · rfl

theorem collectStep_usage {σ : Type} (D : Declarations) (io : Collaborators σ)
    (c : CmdConfigure) (deviceCategory : DeviceCategory) (includeAdvanced : Bool)
    (params : List Param)
    (hf : (D.DeviceCategories deviceCategory).categoryFilter ≠ "") :
    ∀ st : ConfigState σ,
      (st.additionalConfig.get? ParamUsage =
          some (Value.str (D.DeviceCategories deviceCategory).categoryFilter) ∨
        ∃ p ∈ params, p.Name = ParamUsage) →
      (params.foldl (collectStep D io c deviceCategory includeAdvanced)
          st).additionalConfig.get? ParamUsage =
        some (Value.str (D.DeviceCategories deviceCategory).categoryFilter) := by
  induction params with
  | nil =>
    intro st h
    rcases h with h | ⟨p, hp, -⟩
    · exact h
    · cases hp
  | cons p ps ih =>
    intro st h
    rw [List.foldl_cons]
    apply ih
    by_cases hu : p.Name = ParamUsage
    · left
      simp [collectStep, hu, hf, GoMap.get?, GoMap.set, lookupEntry_setEntry]
    · rcases h with h | ⟨q, hq, hqu⟩
      · left
        unfold collectStep
        simp only [hu, if_false]
        split
        · simpa [GoMap.get?, GoMap.set, lookupEntry_setEntry, hu] using h
        · exact h
      · right
        rcases List.mem_cons.mp hq with rfl | hq
        · exact absurd hqu hu
        · exact ⟨q, hq, hqu⟩

/-- C12: the key set of value collection. For every parameter list with
distinct names and no modbus parameter, every category and every
`includeAdvanced` flag, `processConfig` returns a map whose keys are exactly
the names of the non-usage parameters that are not advanced or for which
`includeAdvanced` is set, each mapped to the value provider's answer to that
parameter's question, plus `usage` mapped to the category's usage filter when
a usage parameter is declared and the filter is non-empty. The value provider
is asked for exactly those parameters, in their order: advanced ones are
skipped without `includeAdvanced`, and the usage parameter is never asked. -/
theorem processConfig_collected {σ : Type} (D : Declarations) (io : Collaborators σ)
    (c : CmdConfigure) (w : σ) (params : List Param) (deviceCategory : DeviceCategory)
    (includeAdvanced : Bool) (hnames : (params.map (·.Name)).Nodup)
    (hmodbus : ∀ p ∈ params, p.Name ≠ ParamModbus) :
    ∃ m, processConfig D io c w params deviceCategory includeAdvanced =
        some (m, worldAfterAsking io c includeAdvanced params w) ∧
      (∀ k, k ∈ m.keys ↔
        (∃ p ∈ params, p.Name = k ∧ p.Name ≠ ParamUsage ∧
          (p.Advanced = false ∨ includeAdvanced = true)) ∨
        (k = ParamUsage ∧ (∃ p ∈ params, p.Name = ParamUsage) ∧
          (D.DeviceCategories deviceCategory).categoryFilter ≠ "")) ∧
      (∀ pre p post, params = pre ++ p :: post → p.Name ≠ ParamUsage →
        (p.Advanced = false ∨ includeAdvanced = true) →
        m.get? p.Name = some (Value.str
          (io.askValue (paramQuestion io c p) (worldAfterAsking io c includeAdvanced pre w)).1)) ∧
      ((∃ p ∈ params, p.Name = ParamUsage) →
        (D.DeviceCategories deviceCategory).categoryFilter ≠ "" →
        m.get? ParamUsage = some (Value.str (D.DeviceCategories deviceCategory).categoryFilter)) := by
  have hloop := processConfigLoop_plain D io c deviceCategory includeAdvanced params hmodbus
    { additionalConfig := GoMap.empty, selectedModbusKey := "", world := w }
  refine ⟨(params.foldl (collectStep D io c deviceCategory includeAdvanced)
    { additionalConfig := GoMap.empty, selectedModbusKey := "", world := w }).additionalConfig,
    ?_, ?_, ?_, ?_⟩
  · simp only [processConfig, processConfigLoop, hloop, Option.map_some']
    rw [collectStep_world]
  · intro k
    rw [collectStep_keys]
    simp [GoMap.empty, GoMap.keys]
  · intro pre p post hsplit hu hadv
    subst hsplit
    have hpost : p.Name ∉ post.map (·.Name) := by
      rw [List.map_append, List.map_cons, List.nodup_append] at hnames
      exact (List.nodup_cons.mp hnames.2.1).1
    have hasked : askedParam includeAdvanced p = true := by
      simp only [askedParam, decide_eq_true_eq]
      exact ⟨hu, hadv⟩
    rw [List.foldl_append, List.foldl_cons, collectStep_get?_of_ne _ _ _ _ _ _ _ hpost]
    have hw := collectStep_world D io c deviceCategory includeAdvanced pre
      { additionalConfig := GoMap.empty, selectedModbusKey := "", world := w }
    simp only [collectStep, hu, hasked, if_false, if_true, GoMap.get?, GoMap.set,
      lookupEntry_setEntry, hw]
  · intro hdecl hf
    exact collectStep_usage D io c deviceCategory includeAdvanced params hf _ (Or.inr hdecl)

/-- C12 at a meter template with a host, an advanced port and the usage, for
the grid category without advanced mode: only the host is asked, the usage is
filled in, the port is absent. -/
theorem processConfig_collected_witness :
    ((meterParams.map (·.Name)).Nodup ∧ ∀ p ∈ meterParams, p.Name ≠ ParamModbus) ∧
      (processConfig sampleDeclarations scriptedOperator {} {} meterParams "grid" false).map
        (fun r => (r.1.entries, r.2.asked.map (·.label))) =
        some ([("host", Value.str "192.0.2.2"), ("usage", Value.str "grid")], ["host"]) ∧
      ∃ m, processConfig sampleDeclarations scriptedOperator {} {} meterParams "grid" false =
          some (m, worldAfterAsking scriptedOperator {} false meterParams {}) ∧
        m.get? ParamUsage = some (Value.str "grid") :=
  ⟨⟨by decide, by decide⟩, by decide,
    (processConfig_collected sampleDeclarations scriptedOperator {} {} meterParams "grid" false
      (by decide) (by decide)).elim
      fun m h => ⟨m, h.1,
        h.2.2.2 ⟨{ Name := "usage", Choice := ["grid", "pv"] }, by decide, rfl⟩ (by decide)⟩⟩

/-! ## Requirement gates -/

theorem sponsorshipGate_of_token {σ : Type} (io : Collaborators σ)
    (templateItem : Templates.Template) (st : GateState σ)
    (h : st.cmd.configuration.config.SponsorToken ≠ "") :
    sponsorshipGate io templateItem st = (none, st) := by
  simp [sponsorshipGate, h]

theorem sponsorshipGate_frame {σ : Type} (io : Collaborators σ)
    (templateItem : Templates.Template) (st : GateState σ) :
    (sponsorshipGate io templateItem st).2.cmd.configuration.config.EEBUS =
        st.cmd.configuration.config.EEBUS ∧
      (sponsorshipGate io templateItem st).2.cmd.addedDeviceIndex = st.cmd.addedDeviceIndex ∧
      ∃ new, (sponsorshipGate io templateItem st).2.interactions = st.interactions ++ new ∧
        Interaction.issuedCertificate ∉ new ∧ Interaction.configuredEEBus ∉ new := by
  by_cases h1 : templateItem.Requirements.Sponsorship = true ∧
      st.cmd.configuration.config.SponsorToken = ""
  · by_cases h2 : (io.askYesNo (io.localizedString "Requirements_Sponsorship_Token" {})
        st.world).1 = true
    · refine ⟨by simp [sponsorshipGate, h1, h2], by simp [sponsorshipGate, h1, h2],
        [Interaction.askedYesNo (io.localizedString "Requirements_Sponsorship_Token" {}),
          Interaction.askedValue
            { label := io.localizedString "Requirements_Sponsorship_Token_Input" {},
              required := true }], by simp [sponsorshipGate, h1, h2], by simp, by simp⟩
    · refine ⟨by simp [sponsorshipGate, h1, h2], by simp [sponsorshipGate, h1, h2],
        [Interaction.askedYesNo (io.localizedString "Requirements_Sponsorship_Token" {})],
        by simp [sponsorshipGate, h1, h2], by simp, by simp⟩
  · refine ⟨by simp [sponsorshipGate, h1], by simp [sponsorshipGate, h1], [],
      by simp [sponsorshipGate, h1], by simp, by simp⟩

theorem hemsGate_frame {σ : Type} (templateItem : Templates.Template) (st : GateState σ) :
    (hemsGate templateItem st).cmd.configuration.config.SponsorToken =
        st.cmd.configuration.config.SponsorToken ∧
      (hemsGate templateItem st).cmd.configuration.config.EEBUS =
        st.cmd.configuration.config.EEBUS ∧
      (hemsGate templateItem st).cmd.addedDeviceIndex = st.cmd.addedDeviceIndex ∧
      (hemsGate templateItem st).sponsorSubject = st.sponsorSubject ∧
      (hemsGate templateItem st).world = st.world ∧
      (hemsGate templateItem st).interactions = st.interactions := by
  unfold hemsGate
  split
  · split <;> simp
  · simp

theorem issueEEBus_of_stanza {σ Cert : Type} (io : Collaborators σ) (gk : Gatekeepers σ Cert)
    (st : GateState σ) (h : st.cmd.configuration.config.EEBUS ≠ "") :
    issueEEBus io gk st = (none, st) := by
  simp [issueEEBus, h]

theorem issueEEBus_frame {σ Cert : Type} (io : Collaborators σ) (gk : Gatekeepers σ Cert)
    (st : GateState σ) :
    (issueEEBus io gk st).2.cmd.configuration.config.SponsorToken =
        st.cmd.configuration.config.SponsorToken ∧
      (issueEEBus io gk st).2.sponsorSubject = st.sponsorSubject ∧
      (issueEEBus io gk st).2.cmd.addedDeviceIndex = st.cmd.addedDeviceIndex ∧
      ∃ new, (issueEEBus io gk st).2.interactions = st.interactions ++ new ∧
        (∀ text, Interaction.askedYesNo text ∉ new) ∧ (∀ q, Interaction.askedValue q ∉ new) := by
  by_cases h1 : st.cmd.configuration.config.EEBUS = ""
  · cases h2 : (gk.eebusCertificate st.world).1.2 with
    | some err =>
      exact ⟨by simp [issueEEBus, h1, h2], by simp [issueEEBus, h1, h2],
        by simp [issueEEBus, h1, h2],
        [Interaction.issuedCertificate], by simp [issueEEBus, h1, h2], by simp, by simp⟩
    | none =>
      cases h3 : (gk.configureEEBus (gk.eebusCertificate st.world).1.1
          (gk.eebusCertificate st.world).2).1 with
      | some err =>
        exact ⟨by simp [issueEEBus, h1, h2, h3], by simp [issueEEBus, h1, h2, h3],
          by simp [issueEEBus, h1, h2, h3],
          [Interaction.issuedCertificate, Interaction.configuredEEBus],
          by simp [issueEEBus, h1, h2, h3], by simp, by simp⟩
      | none =>
        cases h4 : (gk.yamlMarshal (gk.eebusCertificate st.world).1.1).2 with
        | some err =>
          exact ⟨by simp [issueEEBus, h1, h2, h3, h4], by simp [issueEEBus, h1, h2, h3, h4],
            by simp [issueEEBus, h1, h2, h3, h4],
            [Interaction.issuedCertificate, Interaction.configuredEEBus],
            by simp [issueEEBus, h1, h2, h3, h4], by simp, by simp⟩
        | none =>
          exact ⟨by simp [issueEEBus, h1, h2, h3, h4], by simp [issueEEBus, h1, h2, h3, h4],
            by simp [issueEEBus, h1, h2, h3, h4],
            [Interaction.issuedCertificate, Interaction.configuredEEBus],
            by simp [issueEEBus, h1, h2, h3, h4], by simp, by simp⟩
  · exact ⟨by simp [issueEEBus, h1], by simp [issueEEBus, h1], by simp [issueEEBus, h1], [],
      by simp [issueEEBus, h1], by simp, by simp⟩

theorem eebusGate_frame {σ Cert : Type} (io : Collaborators σ) (gk : Gatekeepers σ Cert)
    (templateItem : Templates.Template) (st : GateState σ) :
    (eebusGate io gk templateItem st).2.cmd.configuration.config.SponsorToken =
        st.cmd.configuration.config.SponsorToken ∧
      (eebusGate io gk templateItem st).2.sponsorSubject = st.sponsorSubject ∧
      (eebusGate io gk templateItem st).2.cmd.addedDeviceIndex = st.cmd.addedDeviceIndex ∧
      ∃ new, (eebusGate io gk templateItem st).2.interactions = st.interactions ++ new ∧
        (∀ text, Interaction.askedYesNo text ∉ new) ∧ (∀ q, Interaction.askedValue q ∉ new) := by
  obtain ⟨h1, h2, h3, new, h4, h5, h6⟩ := issueEEBus_frame io gk st
  by_cases he : templateItem.Requirements.Eebus = true
  · cases hi : (issueEEBus io gk st).1 with
    | some err =>
      exact ⟨by simp [eebusGate, he, hi, h1], by simp [eebusGate, he, hi, h2],
        by simp [eebusGate, he, hi, h3], new, by simp [eebusGate, he, hi, h4], h5, h6⟩
    | none =>
      refine ⟨by simp [eebusGate, he, hi, h1], by simp [eebusGate, he, hi, h2],
        by simp [eebusGate, he, hi, h3], new ++ [Interaction.awaitedPairing],
        by simp [eebusGate, he, hi, h4], ?_, ?_⟩
      · intro text
        simp [h5 text]
      · intro q
        simp [h6 q]
  · exact ⟨by simp [eebusGate, he], by simp [eebusGate, he], by simp [eebusGate, he], [],
      by simp [eebusGate, he], by simp, by simp⟩

theorem eebusGate_of_stanza {σ Cert : Type} (io : Collaborators σ) (gk : Gatekeepers σ Cert)
    (templateItem : Templates.Template) (st : GateState σ)
    (h : st.cmd.configuration.config.EEBUS ≠ "") :
    (eebusGate io gk templateItem st).2.cmd = st.cmd ∧
      ∃ new, (eebusGate io gk templateItem st).2.interactions = st.interactions ++ new ∧
        Interaction.issuedCertificate ∉ new ∧ Interaction.configuredEEBus ∉ new := by
  by_cases he : templateItem.Requirements.Eebus = true
  · exact ⟨by simp [eebusGate, he, issueEEBus_of_stanza io gk st h],
      [Interaction.awaitedPairing],
      by simp [eebusGate, he, issueEEBus_of_stanza io gk st h], by simp, by simp⟩
  · exact ⟨by simp [eebusGate, he], [], by simp [eebusGate, he], by simp, by simp⟩

/-- C13: the session gates are set at most once. For every template and
every session state: if the session's `SponsorToken` is non-empty before
`processDeviceRequirements`, it is unchanged afterwards (as is
`sponsor.Subject`) and the operator is asked neither whether a token exists
nor for a token; if the session's `EEBUS` stanza is non-empty before the
call, it is unchanged afterwards and no certificate is issued or installed.
Both hold whether the call returns an error or not. -/
theorem processDeviceRequirements_gates_once {σ Cert : Type} (io : Collaborators σ)
    (gk : Gatekeepers σ Cert) (templateItem : Templates.Template) (st : GateState σ) :
    (st.cmd.configuration.config.SponsorToken ≠ "" →
        (processDeviceRequirements io gk templateItem st).2.cmd.configuration.config.SponsorToken =
          st.cmd.configuration.config.SponsorToken ∧
        (processDeviceRequirements io gk templateItem st).2.sponsorSubject = st.sponsorSubject ∧
        ∃ new, (processDeviceRequirements io gk templateItem st).2.interactions =
            st.interactions ++ new ∧
          (∀ text, Interaction.askedYesNo text ∉ new) ∧
          (∀ q, Interaction.askedValue q ∉ new)) ∧
      (st.cmd.configuration.config.EEBUS ≠ "" →
        (processDeviceRequirements io gk templateItem st).2.cmd.configuration.config.EEBUS =
          st.cmd.configuration.config.EEBUS ∧
        ∃ new, (processDeviceRequirements io gk templateItem st).2.interactions =
            st.interactions ++ new ∧
          Interaction.issuedCertificate ∉ new ∧ Interaction.configuredEEBus ∉ new) := by
  constructor
  · intro htoken
    have hs := sponsorshipGate_of_token io templateItem st htoken
    have hh := hemsGate_frame templateItem st
    obtain ⟨h1, h2, -, new, h4, h5, h6⟩ := eebusGate_frame io gk templateItem
      (hemsGate templateItem st)
    simp only [processDeviceRequirements, hs]
    exact ⟨by rw [h1, hh.1], by rw [h2, hh.2.2.2.1], new, by rw [h4, hh.2.2.2.2.2], h5, h6⟩
  · intro hstanza
    obtain ⟨hs1, -, new1, hs2, hs3, hs4⟩ := sponsorshipGate_frame io templateItem st
    cases hg : (sponsorshipGate io templateItem st).1 with
    | some err =>
      simp only [processDeviceRequirements, hg]
      exact ⟨hs1, new1, hs2, hs3, hs4⟩
    | none =>
      simp only [processDeviceRequirements, hg]
      have hh := hemsGate_frame templateItem (sponsorshipGate io templateItem st).2
      have hne : (hemsGate templateItem
          (sponsorshipGate io templateItem st).2).cmd.configuration.config.EEBUS ≠ "" := by
        rw [hh.2.1, hs1]; exact hstanza
      obtain ⟨he1, new2, he2, he3, he4⟩ := eebusGate_of_stanza io gk templateItem _ hne
      refine ⟨by rw [he1, hh.2.1, hs1], new1 ++ new2, ?_, ?_, ?_⟩
      · rw [he2, hh.2.2.2.2.2, hs2, List.append_assoc]
      · simp [hs3, he3]
      · simp [hs4, he4]

/-- C13 at a session holding a token and a stanza, for a template requiring
both: the only collaborator call is the wait for the pairing. -/
theorem processDeviceRequirements_gates_once_witness :
    (satisfiedSession.cmd.configuration.config.SponsorToken ≠ "" ∧
      satisfiedSession.cmd.configuration.config.EEBUS ≠ "") ∧
    ((processDeviceRequirements scriptedOperator (gatekeepersSelecting sponsoredTemplate)
        sponsoredTemplate satisfiedSession).2.cmd.configuration.config.SponsorToken =
          satisfiedSession.cmd.configuration.config.SponsorToken ∧
      (processDeviceRequirements scriptedOperator (gatekeepersSelecting sponsoredTemplate)
        sponsoredTemplate satisfiedSession).2.sponsorSubject = satisfiedSession.sponsorSubject ∧
      ∃ new, (processDeviceRequirements scriptedOperator (gatekeepersSelecting sponsoredTemplate)
          sponsoredTemplate satisfiedSession).2.interactions =
            satisfiedSession.interactions ++ new ∧
        (∀ text, Interaction.askedYesNo text ∉ new) ∧
        (∀ q, Interaction.askedValue q ∉ new)) ∧
    (processDeviceRequirements scriptedOperator (gatekeepersSelecting sponsoredTemplate)
        sponsoredTemplate satisfiedSession).2.interactions = [Interaction.awaitedPairing] ∧
    (processDeviceRequirements scriptedOperator (gatekeepersSelecting sponsoredTemplate)
        sponsoredTemplate satisfiedSession).2.cmd = satisfiedSession.cmd :=
  ⟨⟨by decide, by decide⟩,
    (processDeviceRequirements_gates_once scriptedOperator (gatekeepersSelecting sponsoredTemplate)
      sponsoredTemplate satisfiedSession).1 (by decide),
    by decide, by decide⟩

/-! ## Selection -/

theorem sponsorshipGate_declined {σ : Type} (io : Collaborators σ)
    (templateItem : Templates.Template) (st : GateState σ)
    (hreq : templateItem.Requirements.Sponsorship = true)
    (htoken : st.cmd.configuration.config.SponsorToken = "")
    (hdecline : (io.askYesNo (io.localizedString "Requirements_Sponsorship_Token" {})
      st.world).1 = false) :
    sponsorshipGate io templateItem st =
      (some st.cmd.errItemNotPresent,
        { st with
          world := (io.askYesNo (io.localizedString "Requirements_Sponsorship_Token" {})
            st.world).2
          interactions := st.interactions ++
            [Interaction.askedYesNo (io.localizedString "Requirements_Sponsorship_Token" {})] }) := by
  simp [sponsorshipGate, hreq, htoken, hdecline]

theorem processDeviceSelection_of_not_present {σ Cert : Type} (io : Collaborators σ)
    (gk : Gatekeepers σ Cert) (deviceCategory : DeviceCategory) (st : GateState σ)
    (h : (gk.selectItem deviceCategory st.world).1.Description =
      io.localizedString "ItemNotPresent" {}) :
    processDeviceSelection io gk deviceCategory st =
      ((gk.selectItem deviceCategory st.world).1, some st.cmd.errItemNotPresent,
        { st with world := (gk.selectItem deviceCategory st.world).2 }) := by
  simp [processDeviceSelection, h]

/-- C14 (as amended): when the selected template requires sponsorship, the
session holds no token and the operator declines to supply one,
`processDeviceRequirements`, and with it `processDeviceSelection`, returns
the receiver's `errItemNotPresent` and leaves the receiver as it was; this is
the very error a "no device" selection returns. -/
theorem declined_sponsorship_is_not_present {σ Cert : Type} (io : Collaborators σ)
    (gk : Gatekeepers σ Cert) (deviceCategory : DeviceCategory) (st : GateState σ)
    (hreq : (gk.selectItem deviceCategory st.world).1.Requirements.Sponsorship = true)
    (htoken : st.cmd.configuration.config.SponsorToken = "")
    (hdecline : (io.askYesNo (io.localizedString "Requirements_Sponsorship_Token" {})
      (gk.selectItem deviceCategory st.world).2).1 = false) :
    (processDeviceRequirements io gk (gk.selectItem deviceCategory st.world).1
        { st with world := (gk.selectItem deviceCategory st.world).2 }).1 =
        some st.cmd.errItemNotPresent ∧
      (processDeviceRequirements io gk (gk.selectItem deviceCategory st.world).1
        { st with world := (gk.selectItem deviceCategory st.world).2 }).2.cmd = st.cmd ∧
      (processDeviceSelection io gk deviceCategory st).2.1 = some st.cmd.errItemNotPresent ∧
      (processDeviceSelection io gk deviceCategory st).2.2.cmd = st.cmd ∧
      ∀ gk2 : Gatekeepers σ Cert,
        (gk2.selectItem deviceCategory st.world).1.Description =
          io.localizedString "ItemNotPresent" {} →
        (processDeviceSelection io gk2 deviceCategory st).2.1 =
          (processDeviceSelection io gk deviceCategory st).2.1 := by
  have hgate := sponsorshipGate_declined io (gk.selectItem deviceCategory st.world).1
    { st with world := (gk.selectItem deviceCategory st.world).2 } hreq htoken hdecline
  have hreqs : processDeviceRequirements io gk (gk.selectItem deviceCategory st.world).1
      { st with world := (gk.selectItem deviceCategory st.world).2 } =
      (some st.cmd.errItemNotPresent,
        { st with
          world := (io.askYesNo (io.localizedString "Requirements_Sponsorship_Token" {})
            (gk.selectItem deviceCategory st.world).2).2
          interactions := st.interactions ++
            [Interaction.askedYesNo (io.localizedString "Requirements_Sponsorship_Token" {})] }) := by
    simp only [processDeviceRequirements, hgate]
  have hsel : (processDeviceSelection io gk deviceCategory st).2.1 =
        some st.cmd.errItemNotPresent ∧
      (processDeviceSelection io gk deviceCategory st).2.2.cmd = st.cmd := by
    by_cases hd : (gk.selectItem deviceCategory st.world).1.Description =
        io.localizedString "ItemNotPresent" {}
    · rw [processDeviceSelection_of_not_present io gk deviceCategory st hd]
      exact ⟨rfl, rfl⟩
    · simp [processDeviceSelection, hd, hreqs]
  refine ⟨by rw [hreqs], by rw [hreqs], hsel.1, hsel.2, ?_⟩
  intro gk2 h2
  rw [processDeviceSelection_of_not_present io gk2 deviceCategory st h2, hsel.1]

/-- The amended C14 at a fresh session whose operator declines, for a
template requiring sponsorship. -/
theorem declined_sponsorship_is_not_present_witness :
    (((gatekeepersSelecting sponsoredTemplate).selectItem "wallbox"
        decliningSession.world).1.Requirements.Sponsorship = true ∧
      decliningSession.cmd.configuration.config.SponsorToken = "" ∧
      (scriptedOperator.askYesNo (scriptedOperator.localizedString
        "Requirements_Sponsorship_Token" {})
        ((gatekeepersSelecting sponsoredTemplate).selectItem "wallbox"
          decliningSession.world).2).1 = false) ∧
    (processDeviceSelection scriptedOperator (gatekeepersSelecting sponsoredTemplate) "wallbox"
        decliningSession).2.1 = some decliningSession.cmd.errItemNotPresent ∧
    (processDeviceSelection scriptedOperator (gatekeepersSelecting sponsoredTemplate) "wallbox"
        decliningSession).2.2.cmd = decliningSession.cmd :=
  ⟨⟨by decide, by decide, by decide⟩,
    (declined_sponsorship_is_not_present scriptedOperator (gatekeepersSelecting sponsoredTemplate)
      "wallbox" decliningSession (by decide) (by decide) (by decide)).2.2.1,
    (declined_sponsorship_is_not_present scriptedOperator (gatekeepersSelecting sponsoredTemplate)
      "wallbox" decliningSession (by decide) (by decide) (by decide)).2.2.2.1⟩

/-- C14 as stated fails: the error returned for a declined sponsorship and
the error returned for the "no device" selection are the same value, the
receiver's `errItemNotPresent`, so the caller cannot tell them apart. -/
theorem declined_sponsorship_counterexample :
    (processDeviceRequirements scriptedOperator (gatekeepersSelecting sponsoredTemplate)
        sponsoredTemplate decliningSession).1 = some "not present" ∧
      (processDeviceSelection scriptedOperator (gatekeepersSelecting sponsoredTemplate) "wallbox"
        decliningSession).2.1 = some "not present" ∧
      (processDeviceSelection scriptedOperator (gatekeepersSelecting notPresentItem) "wallbox"
        decliningSession).2.1 = some "not present" ∧
      ¬ ((processDeviceSelection scriptedOperator (gatekeepersSelecting sponsoredTemplate)
          "wallbox" decliningSession).2.1 ≠
        (processDeviceSelection scriptedOperator (gatekeepersSelecting notPresentItem) "wallbox"
          decliningSession).2.1) := by
  decide

/-- C20: the "no device" short-circuit. When the selected catalog item is the
distinguished not-present item, `processDeviceSelection` returns that item
with the receiver's `errItemNotPresent` and evaluates no requirement gate: no
collaborator of the gates is called, and `SponsorToken`, `Hems`, `EEBUS`,
`sponsor.Subject` and the ordinal counter `addedDeviceIndex` are unchanged. -/
theorem processDeviceSelection_not_present {σ Cert : Type} (io : Collaborators σ)
    (gk : Gatekeepers σ Cert) (deviceCategory : DeviceCategory) (st : GateState σ)
    (h : (gk.selectItem deviceCategory st.world).1.Description =
      io.localizedString "ItemNotPresent" {}) :
    (processDeviceSelection io gk deviceCategory st).1 =
        (gk.selectItem deviceCategory st.world).1 ∧
      (processDeviceSelection io gk deviceCategory st).2.1 = some st.cmd.errItemNotPresent ∧
      (processDeviceSelection io gk deviceCategory st).2.2.interactions = st.interactions ∧
      (processDeviceSelection io gk deviceCategory st).2.2.world =
        (gk.selectItem deviceCategory st.world).2 ∧
      (processDeviceSelection io gk deviceCategory st).2.2.sponsorSubject = st.sponsorSubject ∧
      (processDeviceSelection io gk deviceCategory st).2.2.cmd.configuration.config.SponsorToken =
        st.cmd.configuration.config.SponsorToken ∧
      (processDeviceSelection io gk deviceCategory st).2.2.cmd.configuration.config.Hems =
        st.cmd.configuration.config.Hems ∧
      (processDeviceSelection io gk deviceCategory st).2.2.cmd.configuration.config.EEBUS =
        st.cmd.configuration.config.EEBUS ∧
      (processDeviceSelection io gk deviceCategory st).2.2.cmd.addedDeviceIndex =
        st.cmd.addedDeviceIndex ∧
      (processDeviceSelection io gk deviceCategory st).2.2.cmd = st.cmd := by
  rw [processDeviceSelection_of_not_present io gk deviceCategory st h]
  exact ⟨rfl, rfl, rfl, rfl, rfl, rfl, rfl, rfl, rfl, rfl⟩

/-- C20 at the "no device" item selected in a fresh session. -/
theorem processDeviceSelection_not_present_witness :
    ((gatekeepersSelecting notPresentItem).selectItem "wallbox"
        decliningSession.world).1.Description =
      scriptedOperator.localizedString "ItemNotPresent" {} ∧
    (processDeviceSelection scriptedOperator (gatekeepersSelecting notPresentItem) "wallbox"
        decliningSession).2.1 = some decliningSession.cmd.errItemNotPresent ∧
    (processDeviceSelection scriptedOperator (gatekeepersSelecting notPresentItem) "wallbox"
        decliningSession).2.2.interactions = [] ∧
    (processDeviceSelection scriptedOperator (gatekeepersSelecting notPresentItem) "wallbox"
        decliningSession).2.2.world.answers = [false] :=
  ⟨by decide,
    (processDeviceSelection_not_present scriptedOperator (gatekeepersSelecting notPresentItem)
      "wallbox" decliningSession (by decide)).2.1,
    by decide, by decide⟩

/-! ## The meter flag -/

theorem renderDevice_flag {σ : Type} (rt : Runtime) (c : CmdConfigure) (w : σ)
    (values : GoMap Value) (templateItem : Templates.Template) (dev : Configure.device)
    (out : DeviceOutcome σ) (h : renderDevice rt c w values templateItem dev = some out) :
    out.device.ChargerHasMeter = dev.ChargerHasMeter := by
  unfold renderDevice at h
  simp only at h
  repeat' split at h
  all_goals first
    | (cases h; done)
    | (cases h; rfl)

theorem processDeviceValues_flag {σ : Type} (D : Declarations) (io : Collaborators σ)
    (rt : Runtime) (c : CmdConfigure) (w : σ) (values : GoMap Value)
    (templateItem : Templates.Template) (dev : Configure.device)
    (deviceCategory : DeviceCategory) (out : DeviceOutcome σ)
    (h : processDeviceValues D io rt c w values templateItem dev deviceCategory = some out) :
    out.device.ChargerHasMeter =
      (if (io.Test
            { DeviceCategory := deviceCategory, Template := templateItem, ConfigValues := values }
            w).1.2 = none ∧
          deviceCategory = D.DeviceCategoryCharger ∧
          (io.Test
            { DeviceCategory := deviceCategory, Template := templateItem, ConfigValues := values }
            w).1.1 = D.DeviceTestResultValid
        then true else dev.ChargerHasMeter) := by
  unfold processDeviceValues at h
  simp only at h
  cases htitle : values.entries.foldlM (titleStep rt) templateItem.Description with
  | none => rw [htitle] at h; cases h
  | some title =>
    rw [htitle] at h
    simp only at h
    cases htest : (io.Test
        { DeviceCategory := deviceCategory, Template := templateItem, ConfigValues := values }
        w).1.2 with
    | some err =>
      rw [htest] at h
      simp only at h
      simp only [reduceCtorEq, false_and, if_false]
      repeat' split at h
      all_goals first
        | (cases h; rfl)
        | rw [renderDevice_flag rt _ _ _ _ _ out h]
    | none =>
      rw [htest] at h
      simp only at h
      rw [renderDevice_flag rt _ _ _ _ _ out h]
      simp only [true_and]
      split <;> rfl

/-- C19: the meter flag from the live test. `processDeviceValues` returns a
device whose `ChargerHasMeter` is true when the category is charger and the
live test returns `DeviceTestResultValid` without error; for every other
category, for every other test result, and when the test errs (also when the
operator then forces acceptance), the flag is that of the device passed in.
For a Go map of string values the call returns. -/
theorem ChargerHasMeter_from_test {σ : Type} (D : Declarations) (io : Collaborators σ)
    (rt : Runtime) (c : CmdConfigure) (w : σ) (values : GoMap Value)
    (templateItem : Templates.Template) (dev : Configure.device)
    (deviceCategory : DeviceCategory) :
    (values.AllStrings → values.WellFormed →
        (processDeviceValues D io rt c w values templateItem dev deviceCategory).isSome = true) ∧
      ∀ out, processDeviceValues D io rt c w values templateItem dev deviceCategory = some out →
        (deviceCategory = D.DeviceCategoryCharger →
          (io.Test
            { DeviceCategory := deviceCategory, Template := templateItem, ConfigValues := values }
            w).1.2 = none →
          (io.Test
            { DeviceCategory := deviceCategory, Template := templateItem, ConfigValues := values }
            w).1.1 = D.DeviceTestResultValid →
          out.device.ChargerHasMeter = true) ∧
        (deviceCategory ≠ D.DeviceCategoryCharger →
          out.device.ChargerHasMeter = dev.ChargerHasMeter) ∧
        ((io.Test
            { DeviceCategory := deviceCategory, Template := templateItem, ConfigValues := values }
            w).1.1 ≠ D.DeviceTestResultValid →
          out.device.ChargerHasMeter = dev.ChargerHasMeter) ∧
        ((io.Test
            { DeviceCategory := deviceCategory, Template := templateItem, ConfigValues := values }
            w).1.2 ≠ none →
          out.device.ChargerHasMeter = dev.ChargerHasMeter) := by
  refine ⟨processDeviceValues_isSome D io rt c w values templateItem dev deviceCategory, ?_⟩
  intro out hout
  have h := processDeviceValues_flag D io rt c w values templateItem dev deviceCategory out hout
  refine ⟨?_, ?_, ?_, ?_⟩
  · intro h1 h2 h3
    rw [h, if_pos ⟨h2, h1, h3⟩]
  · intro h1
    rw [h, if_neg (fun hc => h1 hc.2.1)]
  · intro h1
    rw [h, if_neg (fun hc => h1 hc.2.2)]
  · intro h1
    rw [h, if_neg (fun hc => h1 hc.1)]

/-- C19 at three charger attempts: a valid test sets the flag, another test
result does not, and neither does a failed test with forced acceptance. -/
theorem ChargerHasMeter_from_test_witness :
    (chargerValues.AllStrings ∧ chargerValues.WellFormed) ∧
      (processDeviceValues sampleDeclarations scriptedOperator sampleRuntime cmdFresh
          { tests := [("Valid", none)] } chargerValues chargerTemplate {} "wallbox").isSome = true ∧
      (processDeviceValues sampleDeclarations scriptedOperator sampleRuntime cmdFresh
          { tests := [("Valid", none)] } chargerValues chargerTemplate {} "wallbox").map
        (fun o => (o.err, o.device.ChargerHasMeter)) = some (none, true) ∧
      (processDeviceValues sampleDeclarations scriptedOperator sampleRuntime cmdFresh
          { tests := [("Valid_MissingMeter", none)] } chargerValues chargerTemplate {}
          "wallbox").map (fun o => (o.err, o.device.ChargerHasMeter)) = some (none, false) ∧
      (processDeviceValues sampleDeclarations scriptedOperator sampleRuntime cmdFresh
          { tests := [("Valid", some "timeout")], answers := [true] } chargerValues chargerTemplate
          {} "wallbox").map (fun o => (o.err, o.device.ChargerHasMeter)) = some (none, false) ∧
      (processDeviceValues sampleDeclarations scriptedOperator sampleRuntime cmdFresh
          { tests := [("Valid", none)] } chargerValues chargerTemplate {} "grid").map
        (fun o => (o.err, o.device.ChargerHasMeter)) = some (none, false) :=
  ⟨⟨by decide, by decide⟩,
    (ChargerHasMeter_from_test sampleDeclarations scriptedOperator sampleRuntime cmdFresh
      { tests := [("Valid", none)] } chargerValues chargerTemplate {} "wallbox").1
      (by decide) (by decide),
    by decide, by decide, by decide, by decide⟩

/-! ## Catalog order -/

theorem templateLess_iff (rt : Runtime) (a b : Templates.Template) :
    templateLess rt a b = true ↔
      (a.Generic = false ∧ b.Generic = true) ∨
        (a.Generic = b.Generic ∧ rt.ToLower a.Description < rt.ToLower b.Description) := by
  unfold templateLess
  cases ha : a.Generic <;> cases hb : b.Generic <;> simp

theorem templateLess_irrefl (rt : Runtime) (a : Templates.Template) :
    templateLess rt a a = false := by
  cases h : templateLess rt a a with
  | false => rfl
  | true =>
    rw [templateLess_iff] at h
    rcases h with ⟨h1, h2⟩ | ⟨-, h2⟩
    · rw [h1] at h2; cases h2
    · exact absurd h2 (lt_irrefl _)

theorem templateLess_asymm (rt : Runtime) (a b : Templates.Template)
    (h : templateLess rt a b = true) : templateLess rt b a = false := by
  cases h' : templateLess rt b a with
  | false => rfl
  | true =>
    rw [templateLess_iff] at h h'
    rcases h with ⟨h1, h2⟩ | ⟨h1, h2⟩ <;> rcases h' with ⟨h3, h4⟩ | ⟨h3, h4⟩
    · rw [h1] at h4; cases h4
    · rw [h1, h2] at h3; cases h3
    · rw [h3, h4] at h1; cases h1
    · exact absurd h4 (lt_asymm h2)

theorem templateLess_trans (rt : Runtime) (a b c : Templates.Template)
    (hab : templateLess rt a b = true) (hbc : templateLess rt b c = true) :
    templateLess rt a c = true := by
  rw [templateLess_iff] at hab hbc ⊢
  rcases hab with ⟨h1, h2⟩ | ⟨h1, h2⟩ <;> rcases hbc with ⟨h3, h4⟩ | ⟨h3, h4⟩
  · rw [h2] at h3; cases h3
  · exact Or.inl ⟨h1, by rw [← h3]; exact h2⟩
  · exact Or.inl ⟨by rw [h1]; exact h3, h4⟩
  · exact Or.inr ⟨h1.trans h3, lt_trans h2 h4⟩

/-- The comparison is a strict weak ordering: not being less is transitive. -/
theorem templateLess_not_trans (rt : Runtime) (a b c : Templates.Template)
    (hba : templateLess rt b a = false) (hcb : templateLess rt c b = false) :
    templateLess rt c a = false := by
  cases h : templateLess rt c a with
  | false => rfl
  | true =>
    have hba' : ¬ templateLess rt b a = true := by rw [hba]; simp
    have hcb' : ¬ templateLess rt c b = true := by rw [hcb]; simp
    rw [templateLess_iff] at h hba' hcb'
    simp only [not_or, not_and] at hba' hcb'
    exfalso
    rcases h with ⟨h1, h2⟩ | ⟨h1, h2⟩
    · cases hb : b.Generic with
      | false => exact hba'.1 hb h2
      | true => exact hcb'.1 h1 hb
    · cases hb : b.Generic with
      | false =>
        cases hc : c.Generic with
        | false =>
          have h3 := hcb'.2 (by rw [hc, hb])
          have h4 := hba'.2 (by rw [hb, ← h1, hc])
          exact absurd h2 (not_lt.mpr ((not_lt.mp h4).trans (not_lt.mp h3)))
        | true => exact hba'.1 hb (by rw [← h1, hc])
      | true =>
        cases hc : c.Generic with
        | false => exact hcb'.1 hc hb
        | true =>
          have h3 := hcb'.2 (by rw [hc, hb])
          have h4 := hba'.2 (by rw [hb, ← h1, hc])
          exact absurd h2 (not_lt.mpr ((not_lt.mp h4).trans (not_lt.mp h3)))

theorem insertionSort_sortedBy (rt : Runtime) (items : List Templates.Template) :
    SortedBy (templateLess rt)
      (items.insertionSort (fun a b => templateLess rt b a = false)) := by
  haveI : IsTotal Templates.Template (fun a b => templateLess rt b a = false) :=
    ⟨fun a b => by
      cases h : templateLess rt b a with
      | false => exact Or.inl rfl
      | true => exact Or.inr (templateLess_asymm rt b a h)⟩
  haveI : IsTrans Templates.Template (fun a b => templateLess rt b a = false) :=
    ⟨fun a b c hab hbc => templateLess_not_trans rt a b c hab hbc⟩
  exact List.sorted_insertionSort (fun a b => templateLess rt b a = false) items

theorem sortedBy_order (rt : Runtime) (items : List Templates.Template)
    (h : SortedBy (templateLess rt) items) :
    items.Pairwise (fun a b => ¬ (a.Generic = true ∧ b.Generic = false)) ∧
      items.Pairwise (fun a b => a.Generic = b.Generic →
        rt.ToLower a.Description ≤ rt.ToLower b.Description) := by
  constructor
  · refine List.Pairwise.imp ?_ h
    intro a b hba hg
    have : templateLess rt b a = true := (templateLess_iff rt b a).mpr (Or.inl ⟨hg.2, hg.1⟩)
    rw [hba] at this
    cases this
  · refine List.Pairwise.imp ?_ h
    intro a b hba hg
    apply not_lt.mp
    intro hlt
    have : templateLess rt b a = true := (templateLess_iff rt b a).mpr (Or.inr ⟨hg.symm, hlt⟩)
    rw [hba] at this
    cases this

/-- C15: catalog presentation order. Given that `sort.Slice` leaves the slice
ordered by the comparison it is handed, in the list returned by
`fetchElements` no generic template precedes a non-generic one, and among
templates with the same `Generic` flag the lower-cased descriptions are in
non-decreasing order. The comparison is a strict weak ordering (irreflexive,
asymmetric, transitive, and not being less is transitive), so an ordered
permutation exists for every input. -/
theorem fetchElements_order (D : Declarations) (C : Catalog) (rt : Runtime)
    (deviceCategory : DeviceCategory)
    (hsort : ∀ items, SortedBy (templateLess rt) (C.sortSlice (templateLess rt) items)) :
    (fetchElements D C rt deviceCategory).Pairwise
        (fun a b => ¬ (a.Generic = true ∧ b.Generic = false)) ∧
      (fetchElements D C rt deviceCategory).Pairwise
        (fun a b => a.Generic = b.Generic →
          rt.ToLower a.Description ≤ rt.ToLower b.Description) ∧
      (∀ a, templateLess rt a a = false) ∧
      (∀ a b, templateLess rt a b = true → templateLess rt b a = false) ∧
      (∀ a b c, templateLess rt a b = true → templateLess rt b c = true →
        templateLess rt a c = true) ∧
      (∀ a b c, templateLess rt b a = false → templateLess rt c b = false →
        templateLess rt c a = false) ∧
      ∀ items : List Templates.Template,
        ∃ sorted, sorted.Perm items ∧ SortedBy (templateLess rt) sorted := by
  have h := sortedBy_order rt (fetchElements D C rt deviceCategory) (hsort _)
  refine ⟨h.1, h.2, templateLess_irrefl rt, templateLess_asymm rt, templateLess_trans rt,
    templateLess_not_trans rt, ?_⟩
  intro items
  exact ⟨items.insertionSort (fun a b => templateLess rt b a = false),
    List.perm_insertionSort _ items, insertionSort_sortedBy rt items⟩

theorem templateLess_toList (rt : Runtime) (a b : Templates.Template) :
    templateLess rt a b =
      (if a.Generic = true ∧ ¬ b.Generic = true then false
       else if ¬ a.Generic = true ∧ b.Generic = true then true
       else decide ((rt.ToLower a.Description).toList < (rt.ToLower b.Description).toList)) := by
  unfold templateLess
  simp only [String.lt_iff_toList_lt]

/-- C15 at a catalog of four charger templates, one generic and one without a
description: the three product templates come first, by lower-cased
description, the generic one last. -/
theorem fetchElements_order_witness :
    (∀ items, SortedBy (templateLess sampleRuntime)
        (sampleCatalog.sortSlice (templateLess sampleRuntime) items)) ∧
      (fetchElements sampleDeclarations sampleCatalog sampleRuntime "wallbox").Pairwise
        (fun a b => ¬ (a.Generic = true ∧ b.Generic = false)) ∧
      (fetchElements sampleDeclarations sampleCatalog sampleRuntime "wallbox").map (·.Template) =
        ["abl", "easee", "wallbe", "generic"] :=
  ⟨insertionSort_sortedBy sampleRuntime,
    (fetchElements_order sampleDeclarations sampleCatalog sampleRuntime "wallbox"
      (insertionSort_sortedBy sampleRuntime)).1,
    by simp only [fetchElements, sampleCatalog, templateLess_toList]; decide⟩

/-! ## Loadpoints -/

theorem AddLoadpoint_frame (c : Configure.Configure) (l : loadpoint) :
    (c.AddLoadpoint l).config.Loadpoints = c.config.Loadpoints ++ [l] ∧
      (c.AddLoadpoint l).config.Meters = c.config.Meters ∧
      (c.AddLoadpoint l).config.Chargers = c.config.Chargers ∧
      (c.AddLoadpoint l).config.Vehicles = c.config.Vehicles ∧
      (c.AddLoadpoint l).config.Site = c.config.Site := by
  have h := AddLogLevel_fields
    { c with config := { c.config with Loadpoints := c.config.Loadpoints ++ [l] } }
    ("lp-" ++ toString (1 + ((c.config.Loadpoints ++ [l]).length : Int)))
  simp only [Configure.AddLoadpoint]
  exact ⟨h.2.2.2.1, h.1, h.2.1, h.2.2.1, h.2.2.2.2.1⟩

theorem mem_AddLogLevel (c : Configure.Configure) (name : String) (h : name ≠ "") :
    name ∈ (c.AddLogLevel name).config.LogLevels := by
  unfold Configure.AddLogLevel
  split
  · rename_i hc
    rcases hc with hc | hc
    · exact absurd hc h
    · exact hc
  · simp

theorem lp_name_ne_empty (k : Int) : "lp-" ++ toString k ≠ "" := by
  intro h
  have := congrArg String.data h
  simp [String.data_append] at this

/-- C22 (the code at a failing input): the first loadpoint added to an empty
session records the log level "lp-2", not "lp-1". In general `AddLoadpoint`
makes the loadpoint the last one and leaves the device buckets unchanged, but
the log level it records is "lp-" followed by the new number of loadpoints
plus one, that is the 1-based position of the new loadpoint plus one. -/
theorem AddLoadpoint_log_level_off_by_one :
    (Configure.AddLoadpoint {} {}).config.LogLevels = ["lp-2"] ∧
      "lp-1" ∉ (Configure.AddLoadpoint {} {}).config.LogLevels ∧
      ∀ (c : Configure.Configure) (l : loadpoint),
        (c.AddLoadpoint l).config.Loadpoints = c.config.Loadpoints ++ [l] ∧
        (c.AddLoadpoint l).config.Meters = c.config.Meters ∧
        (c.AddLoadpoint l).config.Chargers = c.config.Chargers ∧
        (c.AddLoadpoint l).config.Vehicles = c.config.Vehicles ∧
        "lp-" ++ toString ((c.config.Loadpoints.length : Int) + 2) ∈
          (c.AddLoadpoint l).config.LogLevels := by
  refine ⟨by decide, by decide, ?_⟩
  intro c l
  have h := AddLoadpoint_frame c l
  refine ⟨h.1, h.2.1, h.2.2.1, h.2.2.2.1, ?_⟩
  have hk : (1 : Int) + ((c.config.Loadpoints ++ [l]).length : Int) =
      (c.config.Loadpoints.length : Int) + 2 := by
    simp only [List.length_append, List.length_singleton, Nat.cast_add, Nat.cast_one]
    ring
  simp only [Configure.AddLoadpoint]
  rw [hk]
  exact mem_AddLogLevel _ _ (lp_name_ne_empty _)

/-! ## Meters and site references over a run -/

theorem AddDevice_Meters_Site (D : Declarations) (c : Configure.Configure) (d : device)
    (category : DeviceCategory) :
    (c.AddDevice D d category).config.Meters =
        (if (D.DeviceCategories category).class_ = DeviceClass.Meter then c.config.Meters ++ [d]
         else c.config.Meters) ∧
      (c.AddDevice D d category).config.Site =
        (if (D.DeviceCategories category).class_ = DeviceClass.Meter then
          (if (D.DeviceCategories category).categoryFilter = D.DeviceCategoryGridMeter then
            { c.config.Site with Grid := d.Name }
          else if (D.DeviceCategories category).categoryFilter = D.DeviceCategoryPVMeter then
            { c.config.Site with PVs := c.config.Site.PVs ++ [d.Name] }
          else if (D.DeviceCategories category).categoryFilter = D.DeviceCategoryBatteryMeter then
            { c.config.Site with Batteries := c.config.Site.Batteries ++ [d.Name] }
          else c.config.Site)
         else c.config.Site) := by
  cases hc : (D.DeviceCategories category).class_ with
  | Charger =>
    have h := AddDevice_charger D c d category hc
    simp [h.2.1, h.2.2.2.2]
  | Meter =>
    have h := AddDevice_meter D c d category hc
    simp [h.1, h.2.2.2.2]
  | Vehicle =>
    have h := AddDevice_vehicle D c d category hc
    simp [h.2.1, h.2.2.2.2]
  | Other => simp [Configure.AddDevice, hc]

theorem addDevices_counts (D : Declarations)
    (hdistinct : D.DeviceCategoryGridMeter ≠ D.DeviceCategoryPVMeter ∧
      D.DeviceCategoryGridMeter ≠ D.DeviceCategoryBatteryMeter ∧
      D.DeviceCategoryPVMeter ≠ D.DeviceCategoryBatteryMeter)
    (calls : List (device × DeviceCategory)) (hnames : ∀ x ∈ calls, x.1.Name ≠ "") :
    ∀ c : Configure.Configure,
      (addDevices D calls c).config.Site.PVs.length =
          c.config.Site.PVs.length + meterAdditions D D.DeviceCategoryPVMeter calls ∧
        (addDevices D calls c).config.Site.Batteries.length =
          c.config.Site.Batteries.length + meterAdditions D D.DeviceCategoryBatteryMeter calls ∧
        ((addDevices D calls c).config.Site.Grid ≠ "" ↔
          c.config.Site.Grid ≠ "" ∨ 0 < meterAdditions D D.DeviceCategoryGridMeter calls) := by
  obtain ⟨hgp, hgb, hpb⟩ := hdistinct
  induction calls with
  | nil => intro c; simp [addDevices, meterAdditions]
  | cons x xs ih =>
    intro c
    have hx := hnames x (by simp)
    have ih' := ih (fun y hy => hnames y (by simp [hy])) (c.AddDevice D x.1 x.2)
    have hstep := (AddDevice_Meters_Site D c x.1 x.2).2
    have hfold : addDevices D (x :: xs) c = addDevices D xs (c.AddDevice D x.1 x.2) := rfl
    rw [hfold]
    obtain ⟨ih1, ih2, ih3⟩ := ih'
    rw [ih1, ih2, ih3, hstep]
    simp only [meterAdditions, List.filter_cons]
    by_cases hm : (D.DeviceCategories x.2).class_ = DeviceClass.Meter
    · by_cases hg : (D.DeviceCategories x.2).categoryFilter = D.DeviceCategoryGridMeter
      · have h1 : ¬ D.DeviceCategoryGridMeter = D.DeviceCategoryPVMeter := hgp
        have h2 : ¬ D.DeviceCategoryGridMeter = D.DeviceCategoryBatteryMeter := hgb
        simp [hm, hg, h1, h2, hx]
      · by_cases hp : (D.DeviceCategories x.2).categoryFilter = D.DeviceCategoryPVMeter
        · have h1 : ¬ D.DeviceCategoryPVMeter = D.DeviceCategoryGridMeter := fun e => hgp e.symm
          have h2 : ¬ D.DeviceCategoryPVMeter = D.DeviceCategoryBatteryMeter := hpb
          simp [hm, hp, h1, h2]
          omega
        · by_cases hb : (D.DeviceCategories x.2).categoryFilter = D.DeviceCategoryBatteryMeter
          · have h1 : ¬ D.DeviceCategoryBatteryMeter = D.DeviceCategoryGridMeter :=
              fun e => hgb e.symm
            have h2 : ¬ D.DeviceCategoryBatteryMeter = D.DeviceCategoryPVMeter :=
              fun e => hpb e.symm
            simp [hm, hb, h1, h2]
            omega
          · simp [hm, hg, hp, hb]
    · simp [hm]

/-- C23: `MetersOfCategory` counts what `AddDevice` recorded. Starting from an
empty session, after any sequence of `AddDevice` calls with non-empty device
names (the three meter category constants being pairwise distinct),
`MetersOfCategory` of the PV meter category is the number of PV-meter
additions, of the battery meter category the number of battery-meter
additions, of the grid meter category 1 if at least one grid meter was added
and 0 otherwise, and it is 0 for every other category. -/
theorem MetersOfCategory_counts (D : Declarations) (calls : List (device × DeviceCategory))
    (hdistinct : D.DeviceCategoryGridMeter ≠ D.DeviceCategoryPVMeter ∧
      D.DeviceCategoryGridMeter ≠ D.DeviceCategoryBatteryMeter ∧
      D.DeviceCategoryPVMeter ≠ D.DeviceCategoryBatteryMeter)
    (hnames : ∀ x ∈ calls, x.1.Name ≠ "") :
    (addDevices D calls {}).MetersOfCategory D D.DeviceCategoryPVMeter =
        (meterAdditions D D.DeviceCategoryPVMeter calls : Int) ∧
      (addDevices D calls {}).MetersOfCategory D D.DeviceCategoryBatteryMeter =
        (meterAdditions D D.DeviceCategoryBatteryMeter calls : Int) ∧
      (addDevices D calls {}).MetersOfCategory D D.DeviceCategoryGridMeter =
        (if 0 < meterAdditions D D.DeviceCategoryGridMeter calls then 1 else 0) ∧
      ∀ category, category ≠ D.DeviceCategoryGridMeter → category ≠ D.DeviceCategoryPVMeter →
        category ≠ D.DeviceCategoryBatteryMeter →
        (addDevices D calls {}).MetersOfCategory D category = 0 := by
  obtain ⟨h1, h2, h3⟩ := addDevices_counts D hdistinct calls hnames {}
  obtain ⟨hgp, hgb, hpb⟩ := hdistinct
  refine ⟨?_, ?_, ?_, ?_⟩
  · have e1 : ¬ D.DeviceCategoryPVMeter = D.DeviceCategoryGridMeter := fun e => hgp e.symm
    simp only [Configure.MetersOfCategory, e1, if_false, if_true, h1]
    simp
  · have e1 : ¬ D.DeviceCategoryBatteryMeter = D.DeviceCategoryGridMeter := fun e => hgb e.symm
    have e2 : ¬ D.DeviceCategoryBatteryMeter = D.DeviceCategoryPVMeter := fun e => hpb e.symm
    simp only [Configure.MetersOfCategory, e1, e2, if_false, if_true, h2]
    simp
  · simp only [Configure.MetersOfCategory, if_true]
    by_cases hc : 0 < meterAdditions D D.DeviceCategoryGridMeter calls
    · rw [if_pos (h3.mpr (Or.inr hc)), if_pos hc]
    · rw [if_neg hc, if_neg]
      intro hg
      rcases h3.mp hg with h | h
      · exact h rfl
      · exact hc h
  · intro category c1 c2 c3
    simp [Configure.MetersOfCategory, c1, c2, c3]

/-- C23 at a grid meter, two PV meters, a charger and a second grid meter. -/
theorem MetersOfCategory_counts_witness :
    ((sampleDeclarations.DeviceCategoryGridMeter ≠ sampleDeclarations.DeviceCategoryPVMeter ∧
        sampleDeclarations.DeviceCategoryGridMeter ≠
          sampleDeclarations.DeviceCategoryBatteryMeter ∧
        sampleDeclarations.DeviceCategoryPVMeter ≠
          sampleDeclarations.DeviceCategoryBatteryMeter) ∧
      ∀ x ∈ sampleAdditions, x.1.Name ≠ "") ∧
    (addDevices sampleDeclarations sampleAdditions {}).MetersOfCategory sampleDeclarations
        sampleDeclarations.DeviceCategoryPVMeter =
      (meterAdditions sampleDeclarations sampleDeclarations.DeviceCategoryPVMeter
        sampleAdditions : Int) ∧
    (addDevices sampleDeclarations sampleAdditions {}).MetersOfCategory sampleDeclarations "pv"
      = 2 ∧
    (addDevices sampleDeclarations sampleAdditions {}).MetersOfCategory sampleDeclarations
      "battery" = 0 ∧
    (addDevices sampleDeclarations sampleAdditions {}).MetersOfCategory sampleDeclarations "grid"
      = 1 ∧
    (addDevices sampleDeclarations sampleAdditions {}).MetersOfCategory sampleDeclarations
      "wallbox" = 0 :=
  ⟨⟨by decide, by decide⟩,
    (MetersOfCategory_counts sampleDeclarations sampleAdditions (by decide) (by decide)).1,
    by decide, by decide, by decide, by decide⟩

theorem SiteResolves_AddDevice (D : Declarations) (c : Configure.Configure) (d : device)
    (category : DeviceCategory) (h : SiteResolves c) :
    SiteResolves (c.AddDevice D d category) := by
  obtain ⟨h1, h2, h3, h4⟩ := h
  obtain ⟨hm, hs⟩ := AddDevice_Meters_Site D c d category
  unfold SiteResolves
  rw [hm, hs]
  by_cases hc : (D.DeviceCategories category).class_ = DeviceClass.Meter
  · rw [if_pos hc, if_pos hc]
    have hmem : ∀ n, n ∈ c.config.Meters.map (·.Name) →
        n ∈ (c.config.Meters ++ [d]).map (·.Name) := by
      intro n hn
      simp only [List.map_append, List.mem_append]
      exact Or.inl hn
    have hd : d.Name ∈ (c.config.Meters ++ [d]).map (·.Name) := by simp
    by_cases hg : (D.DeviceCategories category).categoryFilter = D.DeviceCategoryGridMeter
    · rw [if_pos hg]
      refine ⟨fun _ => hd, fun n hn => hmem n (h2 n hn), fun n hn => hmem n (h3 n hn), ?_⟩
      simp only [List.length_append, List.length_singleton]
      omega
    · by_cases hp : (D.DeviceCategories category).categoryFilter = D.DeviceCategoryPVMeter
      · rw [if_neg hg, if_pos hp]
        refine ⟨fun hne => hmem _ (h1 hne), ?_, fun n hn => hmem n (h3 n hn), ?_⟩
        · intro n hn
          rcases List.mem_append.mp hn with hn | hn
          · exact hmem n (h2 n hn)
          · rw [List.mem_singleton.mp hn]; exact hd
        · simp only [List.length_append, List.length_singleton]
          omega
      · by_cases hb : (D.DeviceCategories category).categoryFilter =
            D.DeviceCategoryBatteryMeter
        · rw [if_neg hg, if_neg hp, if_pos hb]
          refine ⟨fun hne => hmem _ (h1 hne), fun n hn => hmem n (h2 n hn), ?_, ?_⟩
          · intro n hn
            rcases List.mem_append.mp hn with hn | hn
            · exact hmem n (h3 n hn)
            · rw [List.mem_singleton.mp hn]; exact hd
          · simp only [List.length_append, List.length_singleton]
            omega
        · rw [if_neg hg, if_neg hp, if_neg hb]
          refine ⟨fun hne => hmem _ (h1 hne), fun n hn => hmem n (h2 n hn),
            fun n hn => hmem n (h3 n hn), ?_⟩
          simp only [List.length_append, List.length_singleton]
          omega
  · rw [if_neg hc, if_neg hc]
    exact ⟨h1, h2, h3, h4⟩

theorem SiteResolves_apply (D : Declarations) (c : Configure.Configure) (call : SessionCall)
    (h : SiteResolves c) : SiteResolves (call.apply D c) := by
  cases call with
  | addLogLevel name =>
    have hf := AddLogLevel_fields c name
    unfold SiteResolves at h ⊢
    simp only [SessionCall.apply]
    rw [hf.1, hf.2.2.2.2.1]
    exact h
  | addDevice d category => exact SiteResolves_AddDevice D c d category h
  | addLoadpoint l =>
    have hf := AddLoadpoint_frame c l
    unfold SiteResolves at h ⊢
    simp only [SessionCall.apply]
    rw [hf.2.1, hf.2.2.2.2]
    exact h

theorem SiteResolves_runCalls (D : Declarations) (calls : List SessionCall) :
    ∀ c : Configure.Configure, SiteResolves c → SiteResolves (runCalls D calls c) := by
  induction calls with
  | nil => intro c h; exact h
  | cons call calls ih => intro c h; exact ih _ (SiteResolves_apply D c call h)

/-- C24: the site cross-references always resolve. Starting from an empty
session, after any sequence of `AddDevice` and `AddLoadpoint` calls (and of
`AddLogLevel` calls), a non-empty `Site.Grid` and every entry of `Site.PVs`
and `Site.Batteries` is the `Name` of some device in the `Meters` bucket, and
the length of `Meters` is at least the length of `Site.PVs` plus the length of
`Site.Batteries`. -/
theorem Site_references_resolve (D : Declarations) (calls : List SessionCall) :
    ((runCalls D calls {}).config.Site.Grid ≠ "" →
        ∃ d ∈ (runCalls D calls {}).config.Meters,
          d.Name = (runCalls D calls {}).config.Site.Grid) ∧
      (∀ n ∈ (runCalls D calls {}).config.Site.PVs,
        ∃ d ∈ (runCalls D calls {}).config.Meters, d.Name = n) ∧
      (∀ n ∈ (runCalls D calls {}).config.Site.Batteries,
        ∃ d ∈ (runCalls D calls {}).config.Meters, d.Name = n) ∧
      (runCalls D calls {}).config.Site.PVs.length +
          (runCalls D calls {}).config.Site.Batteries.length ≤
        (runCalls D calls {}).config.Meters.length ∧
      (runCalls sampleDeclarations
        [SessionCall.addDevice { Name := "grid1" } "grid",
         SessionCall.addDevice { Name := "pv2" } "pv",
         SessionCall.addLoadpoint {},
         SessionCall.addDevice { Name := "grid3" } "grid"] {}).config.Site =
        { Grid := "grid3", PVs := ["pv2"] } := by
  have hinit : SiteResolves {} := by
    unfold SiteResolves
    exact ⟨fun h => absurd rfl h, by simp, by simp, by simp⟩
  obtain ⟨h1, h2, h3, h4⟩ := SiteResolves_runCalls D calls {} hinit
  refine ⟨?_, ?_, ?_, h4, by decide⟩
  · intro hne
    simpa using h1 hne
  · intro n hn
    simpa using h2 n hn
  · intro n hn
    simpa using h3 n hn

/-! ## What a call leaves in the template handed over -/

theorem renderDevice_templateParams {σ : Type} (rt : Runtime) (c : CmdConfigure) (w : σ)
    (values : GoMap Value) (templateItem : Templates.Template) (dev : Configure.device)
    (out : DeviceOutcome σ) (h : renderDevice rt c w values templateItem dev = some out)
    (hs : values.AllStrings) (hw : values.WellFormed) :
    out.templateParams =
      if c.expandedMode = true then templateItem.Params
      else templateItem.Params.map fun p => { p with Value := suppliedValue values p } := by
  unfold renderDevice at h
  simp only at h
  have hwr : Template.paramsArrayAfterProxy
      { templateItem with
        Params := templateItem.Params ++ [{ Name := "name", Value := dev.Name }] } values =
      some _ := Templates.writeValues_of_strings values _ hs hw
  by_cases he : c.expandedMode = true
  · rw [if_pos he]
    simp only [he, Bool.not_true, Bool.false_eq_true, if_false] at h
    split at h <;> cases h <;> rfl
  · rw [if_neg he]
    simp only [Bool.not_eq_true] at he
    simp only [he, Bool.not_false, if_true] at h
    rw [hwr] at h
    simp only at h
    repeat' split at h
    all_goals first
      | (cases h; done)
      | (cases h; simp)

/-- The array of a template handed to `processDeviceValues` keeps the values
of the call: after an accepted charger with the collected values, the
parameters `user` and `password` of the template hold `joe` and `secret`. -/
theorem processDeviceValues_templateParams_example :
    (processDeviceValues sampleDeclarations scriptedOperator sampleRuntime cmdFresh
        { tests := [("Valid", none)] } chargerValues chargerTemplate {} "wallbox").map
      (fun o => o.templateParams) =
        some [ { Name := "user", Required := true, Value := "joe" },
               { Name := "password", Required := true, Value := "secret" } ] := by
  decide

end Configure

namespace Api

open Templates

/-! ## Feature names -/

theorem FeatureNameToValueMap_entries :
    _FeatureNameToValueMap.entries =
      [("Offline", 1), ("offline", 1), ("CoarseCurrent", 2), ("coarsecurrent", 2)] := by
  decide

theorem FeatureNameToValueMap_get? (s : String) :
    _FeatureNameToValueMap.get? s =
      if s = "Offline" then some 1
      else if s = "offline" then some 1
      else if s = "CoarseCurrent" then some 2
      else if s = "coarsecurrent" then some 2
      else none := by
  rw [GoMap.get?, FeatureNameToValueMap_entries]
  simp only [lookupEntry, eq_comm]

theorem toLower_isUpper (c : Char) : (Char.toLower c).isUpper = false := by
  unfold Char.toLower
  simp only
  split
  · rename_i h
    generalize c.toNat = n at h
    obtain ⟨h1, h2⟩ := h
    interval_cases n <;> rfl
  · rename_i h
    simp only [Char.isUpper, Char.toNat, ge_iff_le, UInt32.le_def, Fin.le_def] at h ⊢
    simp only [Bool.and_eq_false_iff, decide_eq_false_iff_not]
    by_contra hc
    push_neg at hc
    exact h hc

theorem asciiToLower_LowerCases : LowerCases asciiToLower := by
  refine ⟨fun s _ => rfl, ?_⟩
  intro s c hc
  simp only [asciiToLower, List.mem_map] at hc
  obtain ⟨d, _, rfl⟩ := hc
  exact toLower_isUpper d

theorem LowerCases_names (ToLower : String → String) (h : LowerCases ToLower) :
    ToLower "Offline" = "offline" ∧ ToLower "offline" = "offline" ∧
      ToLower "CoarseCurrent" = "coarsecurrent" ∧ ToLower "coarsecurrent" = "coarsecurrent" ∧
      (∀ s, ToLower s ≠ "Offline") ∧ ∀ s, ToLower s ≠ "CoarseCurrent" := by
  obtain ⟨hascii, hupper⟩ := h
  refine ⟨?_, ?_, ?_, ?_, ?_, ?_⟩
  · rw [hascii _ (by decide)]; decide
  · rw [hascii _ (by decide)]; decide
  · rw [hascii _ (by decide)]; decide
  · rw [hascii _ (by decide)]; decide
  · intro s hs
    have := hupper s (Char.ofNat 79) (by rw [hs]; decide)
    exact absurd this (by decide)
  · intro s hs
    have := hupper s (Char.ofNat 67) (by rw [hs]; decide)
    exact absurd this (by decide)

/-- C21: each feature value's printed name, and that name lower-cased, parses
back to the value with no error; the values are exactly `Offline` and
`CoarseCurrent`, printed so; and parsing fails exactly for the strings that
match neither name regardless of case, returning the zero value and the
message naming the string. -/
theorem FeatureString_round_trip (ToLower : String → String) (h : LowerCases ToLower) :
    FeatureValues = [Offline, CoarseCurrent] ∧
      Feature.String Offline = "Offline" ∧ Feature.String CoarseCurrent = "CoarseCurrent" ∧
      (∀ f ∈ FeatureValues, FeatureString ToLower (Feature.String f) = (f, none)) ∧
      (∀ f ∈ FeatureValues, FeatureString ToLower (ToLower (Feature.String f)) = (f, none)) ∧
      (∀ s, (FeatureString ToLower s).2 ≠ none ↔
        (ToLower s ≠ "offline" ∧ ToLower s ≠ "coarsecurrent")) ∧
      ∀ s, ToLower s ≠ "offline" → ToLower s ≠ "coarsecurrent" →
        FeatureString ToLower s = (0, some (s ++ " does not belong to Feature values")) := by
  obtain ⟨h1, h2, h3, h4, h5, h6⟩ := LowerCases_names ToLower h
  have hO : Feature.String Offline = "Offline" := by decide
  have hC : Feature.String CoarseCurrent = "CoarseCurrent" := by decide
  have hfail : ∀ s, ToLower s ≠ "offline" → ToLower s ≠ "coarsecurrent" →
      FeatureString ToLower s = (0, some (s ++ " does not belong to Feature values")) := by
    intro s ha hb
    have e1 : s ≠ "Offline" := by rintro rfl; exact ha h1
    have e2 : s ≠ "offline" := by rintro rfl; exact ha h2
    have e3 : s ≠ "CoarseCurrent" := by rintro rfl; exact hb h3
    have e4 : s ≠ "coarsecurrent" := by rintro rfl; exact hb h4
    simp only [FeatureString, FeatureNameToValueMap_get?, if_neg e1, if_neg e2, if_neg e3,
      if_neg e4, if_neg (h5 s), if_neg (h6 s), if_neg ha, if_neg hb]
  refine ⟨rfl, hO, hC, ?_, ?_, ?_, hfail⟩
  · intro f hf
    simp only [FeatureValues, _FeatureValues, List.mem_cons, List.mem_singleton,
      List.not_mem_nil, or_false] at hf
    rcases hf with rfl | rfl
    · rw [hO]; simp [FeatureString, FeatureNameToValueMap_get?, Offline]
    · rw [hC]; simp [FeatureString, FeatureNameToValueMap_get?, CoarseCurrent]
  · intro f hf
    simp only [FeatureValues, _FeatureValues, List.mem_cons, List.mem_singleton,
      List.not_mem_nil, or_false] at hf
    rcases hf with rfl | rfl
    · rw [hO, h1]; simp [FeatureString, FeatureNameToValueMap_get?, Offline]
    · rw [hC, h3]; simp [FeatureString, FeatureNameToValueMap_get?, CoarseCurrent]
  · intro s
    constructor
    · intro herr
      constructor
      · intro ha
        apply herr
        simp only [FeatureString, FeatureNameToValueMap_get?, ha]
        repeat' split
        all_goals first | rfl | simp_all
      · intro hb
        apply herr
        simp only [FeatureString, FeatureNameToValueMap_get?, hb]
        repeat' split
        all_goals first | rfl | simp_all
    · rintro ⟨ha, hb⟩
      rw [hfail s ha hb]
      simp

theorem FeatureString_round_trip_witness :
    LowerCases asciiToLower ∧
      FeatureString asciiToLower (Feature.String CoarseCurrent) = (CoarseCurrent, none) ∧
      FeatureString asciiToLower "OFFLINE" = (Offline, none) ∧
      FeatureString asciiToLower "offline " =
        (0, some "offline  does not belong to Feature values") :=
  ⟨asciiToLower_LowerCases,
    (FeatureString_round_trip asciiToLower asciiToLower_LowerCases).2.2.2.1 CoarseCurrent
      (by decide),
    by decide,
    (FeatureString_round_trip asciiToLower asciiToLower_LowerCases).2.2.2.2.2.2 "offline "
      (by decide) (by decide)⟩

end Api

namespace Fiat

open Templates

/-! ## Fiat status provider -/

/-- C25: with `api.ErrMustRetry` and `api.ErrTimeout` non-nil, `status`
returns the getter's response; it returns a nil error only if the getter
returned none and the timestamp plus the expiry is not before the clock
reading, and then the refresh id is cleared; and for an expired response of a
successful getter the error is non-nil: with no refresh pending it is the
deep-refresh error, or `ErrMustRetry` with the refresh time set and the id
recorded, and with a refresh pending it is `ErrTimeout` with the id cleared
when more than the refresh timeout of two minutes has passed since the
refresh time, and `ErrMustRetry` otherwise. -/
theorem status_never_stale {σ Resp : Type} (E : Surroundings σ Resp)
    (hE : E.ErrMustRetry ≠ none ∧ E.ErrTimeout ≠ none) (v : Provider σ)
    (statusG : σ → (Resp × Option Error) × σ) (w : σ) :
    refreshTimeout = 120000000000 ∧
      (v.status E statusG w).1.1 = (statusG w).1.1 ∧
      ((v.status E statusG w).1.2 = none →
        (statusG w).1.2 = none ∧
          ¬ (E.Timestamp (statusG w).1.1 + v.expiry < (E.Now (statusG w).2).1) ∧
          (v.status E statusG w).2.1.refreshId = "") ∧
      ((statusG w).1.2 = none →
        E.Timestamp (statusG w).1.1 + v.expiry < (E.Now (statusG w).2).1 →
        (v.status E statusG w).1.2 ≠ none ∧
          (v.refreshId = "" →
            (v.status E statusG w).2.1.refreshId =
                (v.deepRefresh (E.Now (statusG w).2).2).1.1 ∧
              ((v.deepRefresh (E.Now (statusG w).2).2).1.2 ≠ none →
                (v.status E statusG w).1.2 = (v.deepRefresh (E.Now (statusG w).2).2).1.2) ∧
              ((v.deepRefresh (E.Now (statusG w).2).2).1.2 = none →
                (v.status E statusG w).1.2 = E.ErrMustRetry ∧
                  (v.status E statusG w).2.1.refreshTime =
                    (E.Now (v.deepRefresh (E.Now (statusG w).2).2).2).1)) ∧
          (v.refreshId ≠ "" →
            ((E.Now (E.Now (statusG w).2).2).1 - v.refreshTime > refreshTimeout →
              (v.status E statusG w).1.2 = E.ErrTimeout ∧
                (v.status E statusG w).2.1.refreshId = "") ∧
            (¬ ((E.Now (E.Now (statusG w).2).2).1 - v.refreshTime > refreshTimeout) →
              (v.status E statusG w).1.2 = E.ErrMustRetry ∧
                (v.status E statusG w).2.1.refreshId = v.refreshId))) := by
  obtain ⟨hR, hT⟩ := hE
  refine ⟨by decide, ?_, ?_, ?_⟩
  · unfold Provider.status
    simp only
    repeat' split
    all_goals rfl
  · intro h
    unfold Provider.status at h ⊢
    simp only at h ⊢
    by_cases hg : (statusG w).1.2 = none
    · rw [if_pos hg] at h ⊢
      by_cases hx : E.Timestamp (statusG w).1.1 + v.expiry < (E.Now (statusG w).2).1
      · rw [if_pos hx] at h
        exfalso
        by_cases hid : v.refreshId = ""
        · rw [if_pos hid] at h
          by_cases hd : (v.deepRefresh (E.Now (statusG w).2).2).1.2 ≠ none
          · rw [if_pos hd] at h; exact hd h
          · rw [if_neg hd] at h; exact hR h
        · rw [if_neg hid] at h
          by_cases ht : (E.Now (E.Now (statusG w).2).2).1 - v.refreshTime > refreshTimeout
          · rw [if_pos ht] at h; exact hT h
          · rw [if_neg ht] at h; exact hR h
      · rw [if_neg hx]
        exact ⟨hg, hx, rfl⟩
    · rw [if_neg hg] at h
      exact absurd h hg
  · intro hg hx
    unfold Provider.status
    simp only
    rw [if_pos hg, if_pos hx]
    by_cases hid : v.refreshId = ""
    · rw [if_pos hid]
      by_cases hd : (v.deepRefresh (E.Now (statusG w).2).2).1.2 ≠ none
      · rw [if_pos hd]
        exact ⟨hd, fun _ => ⟨rfl, fun _ => rfl, fun h => absurd h hd⟩, fun h => absurd hid h⟩
      · rw [if_neg hd]
        exact ⟨hR, fun _ => ⟨rfl, fun h => absurd h hd, fun _ => ⟨rfl, rfl⟩⟩,
          fun h => absurd hid h⟩
    · rw [if_neg hid]
      by_cases ht : (E.Now (E.Now (statusG w).2).2).1 - v.refreshTime > refreshTimeout
      · rw [if_pos ht]
        exact ⟨hT, fun h => absurd h hid, fun _ => ⟨fun _ => ⟨rfl, rfl⟩, fun h => absurd ht h⟩⟩
      · rw [if_neg ht]
        exact ⟨hR, fun h => absurd h hid, fun _ => ⟨fun h => absurd h ht, fun _ => ⟨rfl, rfl⟩⟩⟩

theorem status_never_stale_witness :
    (tickingSurroundings.ErrMustRetry ≠ none ∧ tickingSurroundings.ErrTimeout ≠ none) ∧
      ((pendingProvider.status tickingSurroundings oldStatus (16 * Minute)).1 =
          (0, some "must retry") ∧
        (pendingProvider.status tickingSurroundings oldStatus (16 * Minute)).2.1.refreshId =
          "id-1") ∧
      ((({ pendingProvider with refreshId := "id-1", refreshTime := 16 * Minute } :
            Provider Int).status tickingSurroundings oldStatus (19 * Minute)).1.2 =
          some "timeout") ∧
      (({ pendingProvider with refreshId := "id-1", refreshTime := 16 * Minute } :
            Provider Int).status tickingSurroundings oldStatus (19 * Minute)).1.2 ≠ none :=
  ⟨by decide, by decide, by decide,
    ((status_never_stale tickingSurroundings (by decide)
      { pendingProvider with refreshId := "id-1", refreshTime := 16 * Minute } oldStatus
      (19 * Minute)).2.2.2 (by decide) (by decide)).1⟩

end Fiat
